import Mathlib

/-!
# Block Breaker: state stack, ball physics and block collisions

A shallow embedding of the game logic of `Main.cpp`.  The global variables of the
program become the fields of one record, `Globals`, and every function of the
program that touches them becomes a function from `Globals` to `Globals`.

* `int` values are mathematical integers (signed overflow is undefined in C++).
* `a / b` on `int` is `Int.tdiv` (truncation toward zero).
* `Defines.h` is not part of the sources, so its constants are the fields of the
  parameter `Defines`; the level files under `data/` are the field `level_file`.
* `SDL_Rect` comes from the SDL headers (SDL 1.2): its fields `x` and `y` are
  `Sint16`.  A `+=` or `-=` on such a field (the ball in `MoveBall` and
  `CheckBlockCollisions`, the paddle in `HandleGameInput`) stores the result
  converted to 16 bits (`Sint16`).  The plain assignments store coordinates of the
  window and of the grid that are computed from the constants of `Defines.h`;
  these are taken to fit their fields.
* The arrays `g_Blocks` and `StateStack::pointers` are lists of the array's length;
  an access outside the array (undefined in C++) reads a default element and
  drops a write.
* `SDL_PollEvent` is outside the program: the event it delivers to an input handler
  (or none) is an argument of the handler; a state function takes the queue of the
  pending events and returns what is left of it.
* `SDL_GetTicks` is outside the program: what it returns is an argument of the
  function that calls it.  Its type is `Uint32`, so `SDL_GetTicks() - g_Timer` is
  computed modulo 2^32 (`Uint32`), the `int` `FRAME_RATE` is converted likewise
  for the comparison, and `g_Timer = SDL_GetTicks()` converts to `int` (`Sint32`).
* The `for` loop of `CheckBlockCollisions` can raise its own bound (a level change
  reloads the blocks), so it is run on fuel and returns an `Option`;
  `CheckBlockCollisions_returns` shows that the fuel it is given always suffices.
-/

namespace BlockBreaker

/-! ## Data model -/

/-- The five state functions of `Main.cpp` a state pointer can refer to. -/
inductive StateFn where
  | Menu
  | Game
  | Exit
  | GameWon
  | GameLost
  deriving DecidableEq, Repr

/-- The wrapper `struct StateStruct`; `none` is the null function pointer. -/
structure StateStruct where
  StatePointer : Option StateFn
  deriving DecidableEq, Repr

/-- The SDL rectangle: position `x`, `y` and size `w`, `h`. -/
structure SDL_Rect where
  x : Int
  y : Int
  w : Int
  h : Int
  deriving DecidableEq, Repr

/-- The record `struct Block`. -/
structure Block where
  screen_location : SDL_Rect
  bitmap_location : SDL_Rect
  num_hits : Int
  deriving DecidableEq, Repr

/-- The record `struct Paddle`. -/
structure Paddle where
  screen_location : SDL_Rect
  bitmap_location : SDL_Rect
  x_speed : Int
  deriving DecidableEq, Repr

/-- The record `struct Ball`. -/
structure Ball where
  screen_location : SDL_Rect
  bitmap_location : SDL_Rect
  x_speed : Int
  y_speed : Int
  deriving DecidableEq, Repr

/-- The constants of `Defines.h` (not among the sources, hence parameters) together
with the contents of the level files: `level_file n k` is the `k`-th integer
(counting from 0) that `inFile >> temp_hits` reads from the file of level `n`. -/
structure Defines where
  WINDOW_WIDTH : Int
  WINDOW_HEIGHT : Int
  FRAME_RATE : Int
  PADDLE_WIDTH : Int
  PADDLE_HEIGHT : Int
  PLAYER_Y : Int
  PLAYER_SPEED : Int
  PADDLE_BITMAP_X : Int
  PADDLE_BITMAP_Y : Int
  BALL_DIAMETER : Int
  BALL_BITMAP_X : Int
  BALL_BITMAP_Y : Int
  BALL_SPEED_Y : Int
  BALL_SPEED_MODIFIER : Int
  NUM_LIVES : Int
  NUM_LEVELS : Int
  NUM_ROWS : Nat
  NUMCOLS : Nat
  MAX_BLOCKS : Nat
  BLOCK_WIDTH : Int
  BLOCK_HEIGHT : Int
  BLOCK_SCREEN_BUFFER : Int
  YELLOW_X : Int
  YELLOW_Y : Int
  RED_X : Int
  RED_Y : Int
  GREEN_X : Int
  GREEN_Y : Int
  BLUE_X : Int
  BLUE_Y : Int
  level_file : Int → Nat → Int

/-- The capacity of the state stack, `#define MAX_STACK_SIZE 16`. -/
def MAX_STACK_SIZE : Nat := 16

/-- The class `StateStack`: the array `pointers` and the member `stack_size`.
The member is private and only ever incremented from 0 and decremented when it is
not 0, so it is a natural number. -/
structure StateStack where
  pointers : List StateStruct
  stack_size : Nat
  deriving DecidableEq, Repr

/-- The global data of `Main.cpp`, with the two `static` locals of
`HandleGameInput`.  `g_Blocks` is the array of `MAX_BLOCKS` slots; the blocks that
are present are the first `g_NumBlocks` of them. -/
structure Globals where
  g_StateStack : StateStack
  g_Timer : Int
  g_Player : Paddle
  g_Ball : Ball
  g_Lives : Int
  g_Level : Int
  g_NumBlocks : Int
  g_Blocks : List Block
  left_pressed : Bool
  right_pressed : Bool
  deriving DecidableEq, Repr

/-! ## Integer types of fixed width -/

/-- The conversion to `Sint16`, the type of the fields `x` and `y` of an `SDL_Rect`:
the value modulo 2^16 that lies from -32768 to 32767. -/
def Sint16 (v : Int) : Int :=
  (v + 32768) % 65536 - 32768

/-- The conversion to `Uint32`, the type of `SDL_GetTicks()`: the value modulo 2^32
that lies from 0 to 2^32 - 1. -/
def Uint32 (v : Int) : Int :=
  v % 4294967296

/-- The conversion of a `Uint32` to `int`: the value modulo 2^32 that lies from
-2^31 to 2^31 - 1. -/
def Sint32 (v : Int) : Int :=
  (v + 2147483648) % 4294967296 - 2147483648

/-! ## StateStack -/

/-- The constructor `StateStack()`; the array of a global object is zeroed. -/
def StateStack.ctor : StateStack :=
  { pointers := List.replicate MAX_STACK_SIZE ⟨none⟩, stack_size := 0 }

/-- The member `StateStack::empty`. -/
def StateStack.empty (st : StateStack) : Bool :=
  st.stack_size == 0

/-- The member `StateStack::top`. -/
def StateStack.top (st : StateStack) : StateStruct :=
  if !st.empty then st.pointers.getD (st.stack_size - 1) ⟨none⟩ else ⟨none⟩

/-- The member `StateStack::pop`. -/
def StateStack.pop (st : StateStack) : StateStack :=
  if !st.empty then { st with stack_size := st.stack_size - 1 } else st

/-- The member `StateStack::push`. -/
def StateStack.push (st : StateStack) (ptr : StateStruct) : StateStack :=
  if st.stack_size < MAX_STACK_SIZE then
    { pointers := st.pointers.set st.stack_size ptr, stack_size := st.stack_size + 1 }
  else st

/-- The loop `while (!g_StateStack.empty()) g_StateStack.pop();` run for at most
`n` iterations. -/
def StateStack.pop_while : Nat → StateStack → StateStack
  | 0, st => st
  | n + 1, st => if !st.empty then StateStack.pop_while n st.pop else st

/-- The loop `while (!g_StateStack.empty()) g_StateStack.pop();`: every iteration
lowers `stack_size` by one, so `stack_size` iterations end it. -/
def StateStack.clear (st : StateStack) : StateStack :=
  StateStack.pop_while st.stack_size st

/-- The live entries of the stack, bottom first: the first `stack_size` slots. -/
def StateStack.entries (st : StateStack) : List StateStruct :=
  st.pointers.take st.stack_size

/-! ## The block array -/

/-- The null block that a read outside the array yields. -/
def Block.zero : Block :=
  { screen_location := ⟨0, 0, 0, 0⟩, bitmap_location := ⟨0, 0, 0, 0⟩, num_hits := 0 }

/-- The array read `g_Blocks[i]`. -/
def blockAt (bs : List Block) (i : Int) : Block :=
  if 0 ≤ i then bs.getD i.toNat Block.zero else Block.zero

/-- The array write `g_Blocks[i] = b`. -/
def setBlock (bs : List Block) (i : Int) (b : Block) : List Block :=
  if 0 ≤ i then bs.set i.toNat b else bs

/-- The blocks that are present: the first `g_NumBlocks` slots of `g_Blocks`. -/
def Globals.present (s : Globals) : List Block :=
  s.g_Blocks.take s.g_NumBlocks.toNat

/-! ## InitBlocks -/

/-- The `switch (g_Blocks[index].num_hits)` of `InitBlocks`, cases 1 to 4. -/
def InitBlocks_switch (d : Defines) (b : Block) : Block :=
  if b.num_hits = 1 then
    { b with bitmap_location := { b.bitmap_location with x := d.YELLOW_X, y := d.YELLOW_Y } }
  else if b.num_hits = 2 then
    { b with bitmap_location := { b.bitmap_location with x := d.RED_X, y := d.RED_Y } }
  else if b.num_hits = 3 then
    { b with bitmap_location := { b.bitmap_location with x := d.GREEN_X, y := d.GREEN_Y } }
  else if b.num_hits = 4 then
    { b with bitmap_location := { b.bitmap_location with x := d.BLUE_X, y := d.BLUE_Y } }
  else b

/-- The body of the inner loop of `InitBlocks` at `row`, `col` (both from 1), for
the file of level `lvl`; the state is the local `index` and the globals. -/
def InitBlocks_cell (d : Defines) (lvl : Int) (row col : Nat) (st : Nat × Globals) :
    Nat × Globals :=
  let index := st.1
  let s := st.2
  let temp_hits := d.level_file lvl ((row - 1) * d.NUMCOLS + (col - 1))
  if temp_hits ≠ 0 then
    let b := blockAt s.g_Blocks index
    let b1 : Block :=
      { num_hits := temp_hits
        screen_location :=
          { x := col * d.BLOCK_WIDTH - d.BLOCK_SCREEN_BUFFER
            y := row * d.BLOCK_HEIGHT + d.BLOCK_SCREEN_BUFFER
            w := d.BLOCK_WIDTH
            h := d.BLOCK_HEIGHT }
        bitmap_location := { b.bitmap_location with w := d.BLOCK_WIDTH, h := d.BLOCK_HEIGHT } }
    (index + 1,
      { s with
        g_Blocks := setBlock s.g_Blocks index (InitBlocks_switch d b1)
        g_NumBlocks := s.g_NumBlocks + 1 })
  else st

/-- One pass of the outer loop of `InitBlocks`: the inner loop over the columns. -/
def InitBlocks_row (d : Defines) (lvl : Int) (row : Nat) (st : Nat × Globals) :
    Nat × Globals :=
  (List.range d.NUMCOLS).foldl (fun acc c => InitBlocks_cell d lvl row (c + 1) acc) st

/-- The function `InitBlocks`: reads the file of level `g_Level` row by row and
writes a block for every cell that is not 0, from slot 0 on. -/
def InitBlocks (d : Defines) (s : Globals) : Globals :=
  ((List.range d.NUM_ROWS).foldl (fun acc r => InitBlocks_row d s.g_Level (r + 1) acc) (0, s)).2

/-! ## Win, loss and level change -/

/-- The four statements that put the ball back to the centre of the window with
speed zero; `MoveBall`, `ChangeLevel`, `HandleLoss` and `HandleWin` each spell
them out. -/
def Ball.reset (d : Defines) (b : Ball) : Ball :=
  { b with
    x_speed := 0
    y_speed := 0
    screen_location :=
      { b.screen_location with
        x := Int.tdiv d.WINDOW_WIDTH 2 - Int.tdiv b.screen_location.w 2
        y := Int.tdiv d.WINDOW_HEIGHT 2 - Int.tdiv b.screen_location.h 2 } }

/-- The function `HandleLoss`. -/
def HandleLoss (d : Defines) (s : Globals) : Globals :=
  let s1 : Globals :=
    { s with
      g_StateStack := s.g_StateStack.clear
      g_Ball := s.g_Ball.reset d
      g_Lives := d.NUM_LIVES
      g_NumBlocks := 0
      g_Level := 1 }
  let s2 := InitBlocks d s1
  { s2 with g_StateStack := s2.g_StateStack.push ⟨some StateFn.GameLost⟩ }

/-- The function `HandleWin`. -/
def HandleWin (d : Defines) (s : Globals) : Globals :=
  let s1 : Globals :=
    { s with
      g_StateStack := s.g_StateStack.clear
      g_Ball := s.g_Ball.reset d
      g_Lives := d.NUM_LIVES
      g_NumBlocks := 0
      g_Level := 1 }
  let s2 := InitBlocks d s1
  { s2 with g_StateStack := s2.g_StateStack.push ⟨some StateFn.GameWon⟩ }

/-- The function `ChangeLevel`. -/
def ChangeLevel (d : Defines) (s : Globals) : Globals :=
  let s1 : Globals := { s with g_Level := s.g_Level + 1 }
  if s1.g_Level > d.NUM_LEVELS then HandleWin d s1
  else InitBlocks d { s1 with g_Ball := s1.g_Ball.reset d, g_NumBlocks := 0 }

/-! ## Block collisions -/

/-- The function `CheckPointInRect`. -/
def CheckPointInRect (x y : Int) (rect : SDL_Rect) : Bool :=
  decide (x ≥ rect.x ∧ x ≤ rect.x + rect.w ∧ y ≥ rect.y ∧ y ≤ rect.y + rect.h)

/-- The `switch (g_Blocks[index].num_hits)` of `HandleBlockCollision`, cases 1 to 3. -/
def HandleBlockCollision_switch (d : Defines) (b : Block) : Block :=
  if b.num_hits = 1 then
    { b with bitmap_location := { b.bitmap_location with x := d.YELLOW_X, y := d.YELLOW_Y } }
  else if b.num_hits = 2 then
    { b with bitmap_location := { b.bitmap_location with x := d.RED_X, y := d.RED_Y } }
  else if b.num_hits = 3 then
    { b with bitmap_location := { b.bitmap_location with x := d.GREEN_X, y := d.GREEN_Y } }
  else b

/-- The function `HandleBlockCollision`. -/
def HandleBlockCollision (d : Defines) (s : Globals) (index : Int) : Globals :=
  let b := blockAt s.g_Blocks index
  let s1 : Globals :=
    { s with g_Blocks := setBlock s.g_Blocks index { b with num_hits := b.num_hits - 1 } }
  if (blockAt s1.g_Blocks index).num_hits = 0 then
    let s2 : Globals :=
      { s1 with
        g_Blocks := setBlock s1.g_Blocks index (blockAt s1.g_Blocks (s1.g_NumBlocks - 1))
        g_NumBlocks := s1.g_NumBlocks - 1 }
    if s2.g_NumBlocks = 0 then ChangeLevel d s2 else s2
  else
    { s1 with
      g_Blocks :=
        setBlock s1.g_Blocks index (HandleBlockCollision_switch d (blockAt s1.g_Blocks index)) }

/-- The eight locals `left_x` … `bottom_y` of `CheckBlockCollisions`: the four
sample points of the ball, computed once before the loop. -/
structure CollisionPoints where
  left_x : Int
  left_y : Int
  right_x : Int
  right_y : Int
  top_x : Int
  top_y : Int
  bottom_x : Int
  bottom_y : Int
  deriving DecidableEq, Repr

/-- The initialisers of the eight locals of `CheckBlockCollisions`. -/
def collisionPoints (b : Ball) : CollisionPoints :=
  { left_x := b.screen_location.x
    left_y := b.screen_location.y + Int.tdiv b.screen_location.h 2
    right_x := b.screen_location.x + b.screen_location.w
    right_y := b.screen_location.y + Int.tdiv b.screen_location.h 2
    top_x := b.screen_location.x + Int.tdiv b.screen_location.w 2
    top_y := b.screen_location.y
    bottom_x := b.screen_location.x + Int.tdiv b.screen_location.w 2
    bottom_y := b.screen_location.y + b.screen_location.h }

/-- The state of the loop of `CheckBlockCollisions`: the globals and the four
locals `top`, `bottom`, `left`, `right`.  The field `reloaded` is a ghost: it
records whether some call of `HandleBlockCollision` made so far went on to
`ChangeLevel`; nothing is computed from it. -/
structure Scan where
  game : Globals
  top : Bool
  bottom : Bool
  left : Bool
  right : Bool
  reloaded : Bool
  deriving DecidableEq, Repr

/-- Whether the call `HandleBlockCollision(index)` in state `s` reaches the call of
`ChangeLevel`: the counter of the block drops to 0 and `g_NumBlocks` drops to 0. -/
def HandleBlockCollision_reloads (s : Globals) (index : Int) : Bool :=
  let b := blockAt s.g_Blocks index
  let bs := setBlock s.g_Blocks index { b with num_hits := b.num_hits - 1 }
  decide ((blockAt bs index).num_hits = 0 ∧ s.g_NumBlocks - 1 = 0)

/-- The call `HandleBlockCollision(block)` inside the loop, with the ghost updated. -/
def CheckBlockCollisions_hit (d : Defines) (block : Nat) (sc : Scan) : Scan :=
  { sc with
    game := HandleBlockCollision d sc.game block
    reloaded := sc.reloaded || HandleBlockCollision_reloads sc.game block }

/-- One of the four tests of the loop body,
`if ( CheckPointInRect(x, y, g_Blocks[block].screen_location) ) { flag = true; HandleBlockCollision(block); }`,
where `mark` is the assignment to the flag. -/
def CheckBlockCollisions_test (d : Defines) (x y : Int) (mark : Scan → Scan) (block : Nat)
    (sc : Scan) : Scan :=
  if CheckPointInRect x y (blockAt sc.game.g_Blocks block).screen_location then
    CheckBlockCollisions_hit d block (mark sc)
  else sc

/-- The body of the `for` loop of `CheckBlockCollisions` for the index `block`:
the tests for top, bottom, left and right in this order, each against what slot
`block` holds at that moment. -/
def CheckBlockCollisions_body (d : Defines) (p : CollisionPoints) (block : Nat) (sc : Scan) :
    Scan :=
  let sc1 := CheckBlockCollisions_test d p.top_x p.top_y (fun c => { c with top := true }) block sc
  let sc2 :=
    CheckBlockCollisions_test d p.bottom_x p.bottom_y (fun c => { c with bottom := true }) block sc1
  let sc3 :=
    CheckBlockCollisions_test d p.left_x p.left_y (fun c => { c with left := true }) block sc2
  CheckBlockCollisions_test d p.right_x p.right_y (fun c => { c with right := true }) block sc3

/-- The loop `for (int block=0; block<g_NumBlocks; block++)` of
`CheckBlockCollisions`, from the index `block` on, with fuel for `fuel` further
iterations; `none` when the loop test still holds and the fuel is used up. -/
def CheckBlockCollisions_loop (d : Defines) (p : CollisionPoints) :
    Nat → Nat → Scan → Option Scan
  | 0, block, sc => if (block : Int) < sc.game.g_NumBlocks then none else some sc
  | fuel + 1, block, sc =>
    if (block : Int) < sc.game.g_NumBlocks then
      CheckBlockCollisions_loop d p fuel (block + 1) (CheckBlockCollisions_body d p block sc)
    else some sc

/-- A number of iterations that the loop of `CheckBlockCollisions` cannot exceed:
`g_NumBlocks` never rises above the larger of its value at entry and the number
of cells of a level, and the index grows by one per iteration. -/
def CheckBlockCollisions_fuel (d : Defines) (s : Globals) : Nat :=
  max s.g_NumBlocks.toNat (d.NUM_ROWS * d.NUMCOLS)

/-- The first half of `CheckBlockCollisions`: the sample points, the four flags
and the loop over the blocks. -/
def CheckBlockCollisions_scan (d : Defines) (s : Globals) : Option Scan :=
  CheckBlockCollisions_loop d (collisionPoints s.g_Ball) (CheckBlockCollisions_fuel d s) 0
    { game := s, top := false, bottom := false, left := false, right := false,
      reloaded := false }

/-- The second half of `CheckBlockCollisions`: the four `if`s after the loop. -/
def CheckBlockCollisions_bounce (d : Defines) (sc : Scan) : Globals :=
  let b0 := sc.game.g_Ball
  let b1 : Ball :=
    if sc.top then
      { b0 with
        y_speed := -b0.y_speed
        screen_location :=
          { b0.screen_location with y := Sint16 (b0.screen_location.y + d.BALL_DIAMETER) } }
    else b0
  let b2 : Ball :=
    if sc.bottom then
      { b1 with
        y_speed := -b1.y_speed
        screen_location :=
          { b1.screen_location with y := Sint16 (b1.screen_location.y - d.BALL_DIAMETER) } }
    else b1
  let b3 : Ball :=
    if sc.left then
      { b2 with
        x_speed := -b2.x_speed
        screen_location :=
          { b2.screen_location with x := Sint16 (b2.screen_location.x + d.BALL_DIAMETER) } }
    else b2
  let b4 : Ball :=
    if sc.right then
      { b3 with
        x_speed := -b3.x_speed
        screen_location :=
          { b3.screen_location with x := Sint16 (b3.screen_location.x - d.BALL_DIAMETER) } }
    else b3
  { sc.game with g_Ball := b4 }

/-- The function `CheckBlockCollisions`. -/
def CheckBlockCollisions (d : Defines) (s : Globals) : Option Globals :=
  (CheckBlockCollisions_scan d s).map (CheckBlockCollisions_bounce d)

/-! ## The ball -/

/-- The function `CheckBallCollisions`. -/
def CheckBallCollisions (s : Globals) : Bool :=
  let ball_x := s.g_Ball.screen_location.x
  let ball_y := s.g_Ball.screen_location.y
  let ball_width := s.g_Ball.screen_location.w
  let ball_height := s.g_Ball.screen_location.h
  let ball_speed := s.g_Ball.y_speed
  let paddle_x := s.g_Player.screen_location.x
  let paddle_y := s.g_Player.screen_location.y
  let paddle_width := s.g_Player.screen_location.w
  let paddle_height := s.g_Player.screen_location.h
  if ball_speed > 0 ∧ ball_y + ball_height ≥ paddle_y ∧
      ball_y + ball_height ≤ paddle_y + paddle_height then
    if ball_x ≤ paddle_x + paddle_width ∧ ball_x + ball_width ≥ paddle_x then true
    else false
  else false

/-- The first half of `MoveBall`: the two additions to the position, the `if` for
the side walls and the `if` for the roof. -/
def MoveBall_walls (d : Defines) (b0 : Ball) : Ball :=
  let b1 : Ball :=
    { b0 with
      screen_location :=
        { b0.screen_location with
          x := Sint16 (b0.screen_location.x + b0.x_speed)
          y := Sint16 (b0.screen_location.y + b0.y_speed) } }
  let b2 : Ball :=
    if (b1.x_speed < 0 ∧ b1.screen_location.x ≤ 0) ∨
        (b1.x_speed > 0 ∧ b1.screen_location.x + b1.screen_location.w ≥ d.WINDOW_WIDTH) then
      { b1 with x_speed := -b1.x_speed }
    else b1
  if b2.y_speed < 0 ∧ b2.screen_location.y ≤ 0 then { b2 with y_speed := -b2.y_speed }
  else b2

/-- The function `MoveBall`. -/
def MoveBall (d : Defines) (s : Globals) : Globals :=
  let b3 := MoveBall_walls d s.g_Ball
  if b3.screen_location.y ≥ d.WINDOW_HEIGHT then
    let s1 : Globals := { s with g_Lives := s.g_Lives - 1, g_Ball := b3.reset d }
    if s1.g_Lives = 0 then HandleLoss d s1 else s1
  else { s with g_Ball := b3 }

/-- The paddle bounce of `HandleBall`: the body of `if ( CheckBallCollisions() )`. -/
def HandleBall_paddle (d : Defines) (s : Globals) : Globals :=
  let paddle_center := s.g_Player.screen_location.x + Int.tdiv s.g_Player.screen_location.w 2
  let ball_center := s.g_Ball.screen_location.x + Int.tdiv s.g_Ball.screen_location.w 2
  let paddle_location := ball_center - paddle_center
  { s with
    g_Ball :=
      { s.g_Ball with
        x_speed := Int.tdiv paddle_location d.BALL_SPEED_MODIFIER
        y_speed := -s.g_Ball.y_speed } }

/-- The function `HandleBall`. -/
def HandleBall (d : Defines) (s : Globals) : Option Globals :=
  let s1 := MoveBall d s
  let s2 := if CheckBallCollisions s1 then HandleBall_paddle d s1 else s1
  CheckBlockCollisions d s2

/-! ## Input -/

/-- The key symbols that the input handlers compare `g_Event.key.keysym.sym` with;
`other` stands for every other key. -/
inductive SDLKey where
  | SDLK_ESCAPE
  | SDLK_SPACE
  | SDLK_LEFT
  | SDLK_RIGHT
  | SDLK_q
  | SDLK_g
  | SDLK_y
  | SDLK_n
  | other
  deriving DecidableEq, Repr

/-- What the input handlers read of `g_Event`: its type and, for a key event, the
key symbol; `other` stands for every other type of event. -/
inductive SDL_Event where
  | SDL_QUIT
  | SDL_KEYDOWN (sym : SDLKey)
  | SDL_KEYUP (sym : SDLKey)
  | other
  deriving DecidableEq, Repr

/-- The function `HandleMenuInput`; `ev` is what `SDL_PollEvent(&g_Event)` delivers,
`none` when it returns 0. -/
def HandleMenuInput (ev : Option SDL_Event) (s : Globals) : Globals :=
  match ev with
  | some SDL_Event.SDL_QUIT => { s with g_StateStack := s.g_StateStack.clear }
  | some (SDL_Event.SDL_KEYDOWN sym) =>
    if sym = SDLKey.SDLK_ESCAPE then { s with g_StateStack := s.g_StateStack.pop }
    else if sym = SDLKey.SDLK_q then { s with g_StateStack := s.g_StateStack.pop }
    else if sym = SDLKey.SDLK_g then
      { s with g_StateStack := s.g_StateStack.push ⟨some StateFn.Game⟩ }
    else s
  | _ => s

/-- The last part of `HandleGameInput`, "This is where we actually move the paddle". -/
def HandleGameInput_move (d : Defines) (s : Globals) : Globals :=
  let s1 : Globals :=
    if s.left_pressed then
      if s.g_Player.screen_location.x - d.PLAYER_SPEED ≥ 0 then
        { s with
          g_Player :=
            { s.g_Player with
              screen_location :=
                { s.g_Player.screen_location with
                  x := Sint16 (s.g_Player.screen_location.x - d.PLAYER_SPEED) } } }
      else s
    else s
  if s1.right_pressed then
    if s1.g_Player.screen_location.x + d.PLAYER_SPEED ≤ d.WINDOW_WIDTH then
      { s1 with
        g_Player :=
          { s1.g_Player with
            screen_location :=
              { s1.g_Player.screen_location with
                x := Sint16 (s1.g_Player.screen_location.x + d.PLAYER_SPEED) } } }
    else s1
  else s1

/-- The function `HandleGameInput`; `ev` is what `SDL_PollEvent(&g_Event)` delivers,
`none` when it returns 0.  The window-close and the escape branch return before the
paddle is moved. -/
def HandleGameInput (d : Defines) (ev : Option SDL_Event) (s : Globals) : Globals :=
  match ev with
  | some SDL_Event.SDL_QUIT => { s with g_StateStack := s.g_StateStack.clear }
  | some (SDL_Event.SDL_KEYDOWN sym) =>
    if sym = SDLKey.SDLK_ESCAPE then { s with g_StateStack := s.g_StateStack.pop }
    else
      let s1 : Globals :=
        if sym = SDLKey.SDLK_SPACE then
          if s.g_Ball.y_speed = 0 then { s with g_Ball := { s.g_Ball with y_speed := d.BALL_SPEED_Y } }
          else s
        else s
      let s2 : Globals := if sym = SDLKey.SDLK_LEFT then { s1 with left_pressed := true } else s1
      let s3 : Globals := if sym = SDLKey.SDLK_RIGHT then { s2 with right_pressed := true } else s2
      HandleGameInput_move d s3
  | some (SDL_Event.SDL_KEYUP sym) =>
    let s1 : Globals := if sym = SDLKey.SDLK_LEFT then { s with left_pressed := false } else s
    let s2 : Globals := if sym = SDLKey.SDLK_RIGHT then { s1 with right_pressed := false } else s1
    HandleGameInput_move d s2
  | _ => HandleGameInput_move d s

/-- The function `HandleExitInput`. -/
def HandleExitInput (ev : Option SDL_Event) (s : Globals) : Globals :=
  match ev with
  | some SDL_Event.SDL_QUIT => { s with g_StateStack := s.g_StateStack.clear }
  | some (SDL_Event.SDL_KEYDOWN sym) =>
    if sym = SDLKey.SDLK_ESCAPE then { s with g_StateStack := s.g_StateStack.pop }
    else if sym = SDLKey.SDLK_y then { s with g_StateStack := s.g_StateStack.pop }
    else if sym = SDLKey.SDLK_n then
      { s with g_StateStack := s.g_StateStack.push ⟨some StateFn.Menu⟩ }
    else s
  | _ => s

/-- The function `HandleWinLoseInput`. -/
def HandleWinLoseInput (ev : Option SDL_Event) (s : Globals) : Globals :=
  match ev with
  | some SDL_Event.SDL_QUIT => { s with g_StateStack := s.g_StateStack.clear }
  | some (SDL_Event.SDL_KEYDOWN sym) =>
    if sym = SDLKey.SDLK_ESCAPE then { s with g_StateStack := s.g_StateStack.pop }
    else if sym = SDLKey.SDLK_y then { s with g_StateStack := s.g_StateStack.pop }
    else if sym = SDLKey.SDLK_n then
      { s with
        g_StateStack :=
          (s.g_StateStack.pop.push ⟨some StateFn.Exit⟩).push ⟨some StateFn.Menu⟩ }
    else s
  | _ => s

/-! ## Start-up and the main loop -/

/-- The global data before `main` runs: the initialisers `g_Level = 1` and
`g_NumBlocks = 0`, the constructor of the stack, and zeroes elsewhere. -/
def Globals.static (d : Defines) : Globals :=
  { g_StateStack := StateStack.ctor
    g_Timer := 0
    g_Player := { screen_location := ⟨0, 0, 0, 0⟩, bitmap_location := ⟨0, 0, 0, 0⟩, x_speed := 0 }
    g_Ball :=
      { screen_location := ⟨0, 0, 0, 0⟩, bitmap_location := ⟨0, 0, 0, 0⟩, x_speed := 0, y_speed := 0 }
    g_Lives := 0
    g_Level := 1
    g_NumBlocks := 0
    g_Blocks := List.replicate d.MAX_BLOCKS Block.zero
    left_pressed := false
    right_pressed := false }

/-- The function `Init` (the calls into SDL apart); `ticks` is what `SDL_GetTicks()`
returns. -/
def Init (d : Defines) (ticks : Int) : Globals :=
  let s0 := Globals.static d
  let s1 : Globals :=
    { s0 with
      g_Timer := Sint32 ticks
      g_Player :=
        { screen_location :=
            { x := Int.tdiv d.WINDOW_WIDTH 2 - Int.tdiv d.PADDLE_WIDTH 2
              y := d.PLAYER_Y
              w := d.PADDLE_WIDTH
              h := d.PADDLE_HEIGHT }
          bitmap_location :=
            { x := d.PADDLE_BITMAP_X, y := d.PADDLE_BITMAP_Y, w := d.PADDLE_WIDTH
              h := d.PADDLE_HEIGHT }
          x_speed := d.PLAYER_SPEED }
      g_Lives := d.NUM_LIVES
      g_Ball :=
        { screen_location :=
            { x := Int.tdiv d.WINDOW_WIDTH 2 - Int.tdiv d.BALL_DIAMETER 2
              y := Int.tdiv d.WINDOW_HEIGHT 2 - Int.tdiv d.BALL_DIAMETER 2
              w := d.BALL_DIAMETER
              h := d.BALL_DIAMETER }
          bitmap_location :=
            { x := d.BALL_BITMAP_X, y := d.BALL_BITMAP_Y, w := d.BALL_DIAMETER
              h := d.BALL_DIAMETER }
          x_speed := 0
          y_speed := 0 } }
  let s2 := InitBlocks d s1
  { s2 with
    g_StateStack := (s2.g_StateStack.push ⟨some StateFn.Exit⟩).push ⟨some StateFn.Menu⟩ }

/-- What a state function does in a frame that it processes, drawing and `g_Timer`
apart: `Menu` calls `HandleMenuInput`, `Game` calls `HandleGameInput` and then
`HandleBall`, `Exit` calls `HandleExitInput`, `GameWon` and `GameLost` call
`HandleWinLoseInput`. -/
def StateFn.frame (d : Defines) (ev : Option SDL_Event) (s : Globals) : StateFn → Option Globals
  | StateFn.Menu => some (HandleMenuInput ev s)
  | StateFn.Game => HandleBall d (HandleGameInput d ev s)
  | StateFn.Exit => some (HandleExitInput ev s)
  | StateFn.GameWon => some (HandleWinLoseInput ev s)
  | StateFn.GameLost => some (HandleWinLoseInput ev s)

/-- One pass of the loop of `main` in which the state function processes a frame:
`g_StateStack.top().StatePointer()`.  A null pointer cannot be called. -/
def main_pass (d : Defines) (ev : Option SDL_Event) (s : Globals) : Option Globals :=
  match s.g_StateStack.top.StatePointer with
  | some fn => fn.frame d ev s
  | none => none

/-- The loop of `main`, `while (!g_StateStack.empty())`, for the frames that are
processed: one event (or none) is polled in each; the loop ends when the stack is
empty or the events are used up. -/
def main_loop (d : Defines) : List (Option SDL_Event) → Globals → Option Globals
  | [], s => some s
  | ev :: evs, s =>
    if !s.g_StateStack.empty then (main_pass d ev s).bind (main_loop d evs) else some s

/-! ## The state functions -/

/-- The call `SDL_PollEvent(&g_Event)` on the queue `q` of pending events: what it
delivers (the event at the head of the queue, none when the queue is empty) and
the events that stay pending. -/
def SDL_PollEvent (q : List SDL_Event) : Option SDL_Event × List SDL_Event :=
  (q.head?, q.tail)

/-- The function `Menu`, drawing apart.  `ticks` is what `SDL_GetTicks()` returns
in the test and `ticks2` what it returns in the last statement; `q` are the pending
events.  The result is the globals and the events that stay pending. -/
def Menu (d : Defines) (ticks ticks2 : Int) (q : List SDL_Event) (s : Globals) :
    Globals × List SDL_Event :=
  if Uint32 (ticks - s.g_Timer) ≥ Uint32 d.FRAME_RATE then
    let s1 := HandleMenuInput (SDL_PollEvent q).1 s
    ({ s1 with g_Timer := Sint32 ticks2 }, (SDL_PollEvent q).2)
  else (s, q)

/-- The function `Game`, drawing apart; the arguments are those of `Menu`.  It
returns when `HandleBall` does. -/
def Game (d : Defines) (ticks ticks2 : Int) (q : List SDL_Event) (s : Globals) :
    Option (Globals × List SDL_Event) :=
  if Uint32 (ticks - s.g_Timer) ≥ Uint32 d.FRAME_RATE then
    let s1 := HandleGameInput d (SDL_PollEvent q).1 s
    (HandleBall d s1).map fun s2 => ({ s2 with g_Timer := Sint32 ticks2 }, (SDL_PollEvent q).2)
  else some (s, q)

/-- The function `Exit`, drawing apart; the arguments are those of `Menu`. -/
def Exit (d : Defines) (ticks ticks2 : Int) (q : List SDL_Event) (s : Globals) :
    Globals × List SDL_Event :=
  if Uint32 (ticks - s.g_Timer) ≥ Uint32 d.FRAME_RATE then
    let s1 := HandleExitInput (SDL_PollEvent q).1 s
    ({ s1 with g_Timer := Sint32 ticks2 }, (SDL_PollEvent q).2)
  else (s, q)

/-- The function `GameWon`, drawing apart; the arguments are those of `Menu`. -/
def GameWon (d : Defines) (ticks ticks2 : Int) (q : List SDL_Event) (s : Globals) :
    Globals × List SDL_Event :=
  if Uint32 (ticks - s.g_Timer) ≥ Uint32 d.FRAME_RATE then
    let s1 := HandleWinLoseInput (SDL_PollEvent q).1 s
    ({ s1 with g_Timer := Sint32 ticks2 }, (SDL_PollEvent q).2)
  else (s, q)

/-- The function `GameLost`, drawing apart; the arguments are those of `Menu`. -/
def GameLost (d : Defines) (ticks ticks2 : Int) (q : List SDL_Event) (s : Globals) :
    Globals × List SDL_Event :=
  if Uint32 (ticks - s.g_Timer) ≥ Uint32 d.FRAME_RATE then
    let s1 := HandleWinLoseInput (SDL_PollEvent q).1 s
    ({ s1 with g_Timer := Sint32 ticks2 }, (SDL_PollEvent q).2)
  else (s, q)

/-- The globals other than `g_Blocks` and `g_NumBlocks` (these two are blanked). -/
def Globals.outside_blocks (s : Globals) : Globals :=
  { s with g_Blocks := [], g_NumBlocks := 0 }

/-- What the game logic sees of a block: its rectangle on the screen and its counter. -/
def Block.data (b : Block) : SDL_Rect × Int :=
  (b.screen_location, b.num_hits)

/-- The block that the level loader yields for the cell at `row`, `col` (both from
1) of level `lvl`: none for the value 0, else a block of `BLOCK_WIDTH` by
`BLOCK_HEIGHT` at the place of the cell with the value as its counter. -/
def levelGrid_cell (d : Defines) (lvl : Int) (row col : Nat) : Option (SDL_Rect × Int) :=
  let hits := d.level_file lvl ((row - 1) * d.NUMCOLS + (col - 1))
  if hits ≠ 0 then
    some
      ({ x := col * d.BLOCK_WIDTH - d.BLOCK_SCREEN_BUFFER
         y := row * d.BLOCK_HEIGHT + d.BLOCK_SCREEN_BUFFER
         w := d.BLOCK_WIDTH
         h := d.BLOCK_HEIGHT }, hits)
  else none

/-- The contract of the level loader, stated apart from `InitBlocks`: the blocks of
level `lvl` are its cells that are not 0, row by row, each with the value of the
cell as its counter. -/
def levelGrid (d : Defines) (lvl : Int) : List (SDL_Rect × Int) :=
  (List.range d.NUM_ROWS).flatMap fun r =>
    (List.range d.NUMCOLS).filterMap fun c => levelGrid_cell d lvl (r + 1) (c + 1)

/-- What a stretch of `InitBlocks` does to its state: `xs` are the blocks it adds. -/
structure InitBlocks_adds (st st1 : Nat × Globals) (xs : List (SDL_Rect × Int)) : Prop where
  index_eq : st1.1 = st.1 + xs.length
  count_eq : st1.2.g_NumBlocks = st.2.g_NumBlocks + xs.length
  length_eq : st1.2.g_Blocks.length = st.2.g_Blocks.length
  data_eq : (st1.2.g_Blocks.take st1.1).map Block.data =
    (st.2.g_Blocks.take st.1).map Block.data ++ xs
  frame_eq : st1.2.outside_blocks = st.2.outside_blocks

/-- Whether the call `MoveBall()` in state `s` reaches the call of `HandleLoss`: the
moved ball is at or below the bottom of the window and the last life goes. -/
def MoveBall_resets (d : Defines) (s : Globals) : Bool :=
  decide ((MoveBall_walls d s.g_Ball).screen_location.y ≥ d.WINDOW_HEIGHT ∧ s.g_Lives - 1 = 0)

/-- The state in which `HandleBall` calls `CheckBlockCollisions`: after `MoveBall`
and the paddle bounce. -/
def HandleBall_before_blocks (d : Defines) (s : Globals) : Globals :=
  if CheckBallCollisions (MoveBall d s) then HandleBall_paddle d (MoveBall d s) else MoveBall d s

/-- The states that are reached: those in which the loop of `main` stands after
`Init` and some frames. -/
def Reachable (d : Defines) (s : Globals) : Prop :=
  ∃ (ticks : Int) (evs : List (Option SDL_Event)), main_loop d evs (Init d ticks) = some s

/-- The six contents that the state stack has at the start of a frame (bottom first). -/
def stackShapes : List (List StateStruct) :=
  [[], [⟨some StateFn.Exit⟩], [⟨some StateFn.Exit⟩, ⟨some StateFn.Menu⟩],
    [⟨some StateFn.Exit⟩, ⟨some StateFn.Menu⟩, ⟨some StateFn.Game⟩],
    [⟨some StateFn.GameWon⟩], [⟨some StateFn.GameLost⟩]]

/-- The stack has an array of `MAX_STACK_SIZE` slots and one of the six contents. -/
def StateStack.shape_ok (st : StateStack) : Prop :=
  st.pointers.length = MAX_STACK_SIZE ∧ st.entries ∈ stackShapes

/-- Every present block, that is every slot with an index below `g_NumBlocks`, has a
counter from 1 to 4. -/
def Globals.counters_in_range (s : Globals) : Prop :=
  ∀ i : Nat, (i : Int) < s.g_NumBlocks →
    1 ≤ (blockAt s.g_Blocks i).num_hits ∧ (blockAt s.g_Blocks i).num_hits ≤ 4

/-- What a stretch of `InitBlocks` leaves alone: `index` and `g_NumBlocks` rise by
the same amount, and the slots from the new `index` on are as they were. -/
structure InitBlocks_rest (st st1 : Nat × Globals) : Prop where
  index_le : st.1 ≤ st1.1
  count_eq : st1.2.g_NumBlocks - st.2.g_NumBlocks = (st1.1 : Int) - (st.1 : Int)
  rest_eq : ∀ j : Nat, st1.1 ≤ j → st1.2.g_Blocks[j]? = st.2.g_Blocks[j]?

/-- The four sample points of the ball: top-centre, bottom-centre, left-centre and
right-centre of its rectangle, halves truncated. -/
def Ball.samplePoints (b : Ball) : List (Int × Int) :=
  [(b.screen_location.x + Int.tdiv b.screen_location.w 2, b.screen_location.y),
   (b.screen_location.x + Int.tdiv b.screen_location.w 2, b.screen_location.y + b.screen_location.h),
   (b.screen_location.x, b.screen_location.y + Int.tdiv b.screen_location.h 2),
   (b.screen_location.x + b.screen_location.w, b.screen_location.y + Int.tdiv b.screen_location.h 2)]

/-- How many of the four sample points of the ball `CheckPointInRect` finds in `rect`. -/
def Ball.points_in (b : Ball) (rect : SDL_Rect) : Nat :=
  (b.samplePoints.filter fun p => CheckPointInRect p.1 p.2 rect).length

/-- The loop state `c` differs from the state `s` at most in the four flags and in
slot `j` of the blocks, which holds the same rectangle with the counter `m`. -/
def Scan.only_hit (s : Globals) (j : Nat) (m : Int) (c : Scan) : Prop :=
  c.game.g_NumBlocks = s.g_NumBlocks ∧
  (∀ i : Nat, i ≠ j → blockAt c.game.g_Blocks i = blockAt s.g_Blocks i) ∧
  (blockAt c.game.g_Blocks j).screen_location = (blockAt s.g_Blocks j).screen_location ∧
  (blockAt c.game.g_Blocks j).num_hits = m

/-- The point `(x, y)` lies in the rectangle of a block that is present in `s`. -/
def Globals.point_in_block (s : Globals) (x y : Int) : Prop :=
  ∃ j : Nat, (j : Int) < s.g_NumBlocks ∧
    CheckPointInRect x y (blockAt s.g_Blocks j).screen_location = true

/-- Whether the top-centre sample point of the ball lies in the block of slot `j`. -/
def Globals.top_in (s : Globals) (j : Nat) : Bool :=
  CheckPointInRect (collisionPoints s.g_Ball).top_x (collisionPoints s.g_Ball).top_y
    (blockAt s.g_Blocks j).screen_location

/-- Whether the bottom-centre sample point of the ball lies in the block of slot `j`. -/
def Globals.bottom_in (s : Globals) (j : Nat) : Bool :=
  CheckPointInRect (collisionPoints s.g_Ball).bottom_x (collisionPoints s.g_Ball).bottom_y
    (blockAt s.g_Blocks j).screen_location

/-- Whether the left-centre sample point of the ball lies in the block of slot `j`. -/
def Globals.left_in (s : Globals) (j : Nat) : Bool :=
  CheckPointInRect (collisionPoints s.g_Ball).left_x (collisionPoints s.g_Ball).left_y
    (blockAt s.g_Blocks j).screen_location

/-- Whether the right-centre sample point of the ball lies in the block of slot `j`. -/
def Globals.right_in (s : Globals) (j : Nat) : Bool :=
  CheckPointInRect (collisionPoints s.g_Ball).right_x (collisionPoints s.g_Ball).right_y
    (blockAt s.g_Blocks j).screen_location

/-- The top-centre sample point of the ball lies in a block that is present. -/
def Globals.top_struck (s : Globals) : Prop :=
  ∃ j : Nat, (j : Int) < s.g_NumBlocks ∧ s.top_in j = true

/-- The bottom-centre sample point of the ball lies in a block that is present. -/
def Globals.bottom_struck (s : Globals) : Prop :=
  ∃ j : Nat, (j : Int) < s.g_NumBlocks ∧ s.bottom_in j = true

/-- The left-centre sample point of the ball lies in a block that is present. -/
def Globals.left_struck (s : Globals) : Prop :=
  ∃ j : Nat, (j : Int) < s.g_NumBlocks ∧ s.left_in j = true

/-- The right-centre sample point of the ball lies in a block that is present. -/
def Globals.right_struck (s : Globals) : Prop :=
  ∃ j : Nat, (j : Int) < s.g_NumBlocks ∧ s.right_in j = true

/-- The block of slot `j` is not destroyed by the sample points that lie in it:
there are none, or fewer than its counter. -/
def Globals.survives (s : Globals) (j : Nat) : Prop :=
  s.g_Ball.points_in (blockAt s.g_Blocks j).screen_location = 0 ∨
    (s.g_Ball.points_in (blockAt s.g_Blocks j).screen_location : Int) <
      (blockAt s.g_Blocks j).num_hits

/-- Every slot of `bs` below the block count of `s` holds the rectangle of a block
that is present in `s`. -/
def Globals.rects_from (s : Globals) (bs : List Block) : Prop :=
  ∀ k : Nat, (k : Int) < s.g_NumBlocks →
    ∃ j : Nat, (j : Int) < s.g_NumBlocks ∧
      (blockAt bs k).screen_location = (blockAt s.g_Blocks j).screen_location

/-- Each flag of the loop state `c` that is set belongs to a sample point of the
ball of `s` that lies in a block present in `s`. -/
def Scan.flags_sound (s : Globals) (c : Scan) : Prop :=
  (c.top = true → s.top_struck) ∧ (c.bottom = true → s.bottom_struck) ∧
    (c.left = true → s.left_struck) ∧ (c.right = true → s.right_struck)

/-- What the tests of one pass of the loop body keep, while no level change was
triggered, when the scan started from `s`: at least one block is present and no
more than at the start, every slot holds a rectangle from the start, and the flags
that are set belong to sample points that lie in a block. -/
def Scan.sound_in_pass (s : Globals) (c : Scan) : Prop :=
  c.reloaded = false →
    1 ≤ c.game.g_NumBlocks ∧ c.game.g_NumBlocks ≤ s.g_NumBlocks ∧
      s.rects_from c.game.g_Blocks ∧ c.flags_sound s

/-- What the loop keeps from pass to pass, while no level change was triggered,
when the scan started from `s`. -/
def Scan.sound (s : Globals) (c : Scan) : Prop :=
  c.reloaded = false →
    c.game.g_NumBlocks ≤ s.g_NumBlocks ∧ s.rects_from c.game.g_Blocks ∧ c.flags_sound s

/-- The flags that the pass of the loop body over slot `i` of `s` sets at least:
the flag of each sample point that lies in the block of that slot, as long as the
sample points tested before it that lie in the block are fewer than its counter. -/
def Scan.flagged_by (s : Globals) (i : Nat) (c : Scan) : Prop :=
  (s.top_in i = true → c.top = true) ∧
  (s.bottom_in i = true → ((s.top_in i).toNat : Int) < (blockAt s.g_Blocks i).num_hits →
    c.bottom = true) ∧
  (s.left_in i = true →
    (((s.top_in i).toNat + (s.bottom_in i).toNat : Nat) : Int) < (blockAt s.g_Blocks i).num_hits →
    c.left = true) ∧
  (s.right_in i = true →
    (((s.top_in i).toNat + (s.bottom_in i).toNat + (s.left_in i).toNat : Nat) : Int) <
      (blockAt s.g_Blocks i).num_hits →
    c.right = true)

/-- Whether the call `MoveBall()` in state `s` takes a life and puts the ball back to
the centre: the moved ball is at or below the bottom of the window. -/
def MoveBall_docks (d : Defines) (s : Globals) : Bool :=
  decide ((MoveBall_walls d s.g_Ball).screen_location.y ≥ d.WINDOW_HEIGHT)

/-- The vertical speed of the ball is 0, `BALL_SPEED_Y` or `-BALL_SPEED_Y`. -/
def Ball.y_speed_ok (d : Defines) (b : Ball) : Prop :=
  b.y_speed = 0 ∨ b.y_speed = d.BALL_SPEED_Y ∨ b.y_speed = -d.BALL_SPEED_Y

/-- The number of lives is from 1 to `NUM_LIVES`. -/
def Globals.lives_ok (d : Defines) (s : Globals) : Prop :=
  1 ≤ s.g_Lives ∧ s.g_Lives ≤ d.NUM_LIVES

/-- The states that steps of the following kinds lead to from `Init`: the input
handler of the state on top of the stack with any event or none, `HandleBall`, and
the transitions `HandleLoss` and `HandleWin` at any moment.  Every state that the
loop of `main` reaches is among them. -/
inductive StackReachable (d : Defines) : Globals → Prop
  | init (ticks : Int) : StackReachable d (Init d ticks)
  | menu (ev : Option SDL_Event) {s : Globals} :
      StackReachable d s → s.g_StateStack.top = ⟨some StateFn.Menu⟩ →
      StackReachable d (HandleMenuInput ev s)
  | game (ev : Option SDL_Event) {s : Globals} :
      StackReachable d s → s.g_StateStack.top = ⟨some StateFn.Game⟩ →
      StackReachable d (HandleGameInput d ev s)
  | exit (ev : Option SDL_Event) {s : Globals} :
      StackReachable d s → s.g_StateStack.top = ⟨some StateFn.Exit⟩ →
      StackReachable d (HandleExitInput ev s)
  | won (ev : Option SDL_Event) {s : Globals} :
      StackReachable d s → s.g_StateStack.top = ⟨some StateFn.GameWon⟩ →
      StackReachable d (HandleWinLoseInput ev s)
  | lost (ev : Option SDL_Event) {s : Globals} :
      StackReachable d s → s.g_StateStack.top = ⟨some StateFn.GameLost⟩ →
      StackReachable d (HandleWinLoseInput ev s)
  | ball {s r : Globals} : StackReachable d s → HandleBall d s = some r → StackReachable d r
  | loss {s : Globals} : StackReachable d s → StackReachable d (HandleLoss d s)
  | win {s : Globals} : StackReachable d s → StackReachable d (HandleWin d s)


/-! ## Sample states -/

/-- A small configuration: an 800 x 600 window, a ball of diameter 20, blocks of
80 x 20 in a grid of 2 rows and 2 columns, 3 levels and 5 lives.  Level 1 has the
cells 1 2 / 0 0, level 2 the cells 0 1 / 0 0, every other level 2 3 / 4 0. -/
def demoDefines : Defines :=
  { WINDOW_WIDTH := 800, WINDOW_HEIGHT := 600, FRAME_RATE := 33
    PADDLE_WIDTH := 100, PADDLE_HEIGHT := 20, PLAYER_Y := 550, PLAYER_SPEED := 10
    PADDLE_BITMAP_X := 0, PADDLE_BITMAP_Y := 0
    BALL_DIAMETER := 20, BALL_BITMAP_X := 100, BALL_BITMAP_Y := 0
    BALL_SPEED_Y := 10, BALL_SPEED_MODIFIER := 5
    NUM_LIVES := 5, NUM_LEVELS := 3, NUM_ROWS := 2, NUMCOLS := 2, MAX_BLOCKS := 4
    BLOCK_WIDTH := 80, BLOCK_HEIGHT := 20, BLOCK_SCREEN_BUFFER := 40
    YELLOW_X := 0, YELLOW_Y := 20, RED_X := 0, RED_Y := 40
    GREEN_X := 0, GREEN_Y := 60, BLUE_X := 0, BLUE_Y := 80
    level_file := fun lvl k =>
      if lvl = 1 then [1, 2, 0, 0].getD k 0
      else if lvl = 2 then [0, 1, 0, 0].getD k 0
      else [2, 3, 4, 0].getD k 0 }

/-- The stack while the game is played: Exit, Menu, Game (bottom to top). -/
def demoStack : StateStack :=
  ((StateStack.ctor.push ⟨some StateFn.Exit⟩).push ⟨some StateFn.Menu⟩).push ⟨some StateFn.Game⟩

/-- A ball of diameter 20 at `x`, `y` with the speeds `xs`, `ys`. -/
def demoBall (x y xs ys : Int) : Ball :=
  { screen_location := ⟨x, y, 20, 20⟩, bitmap_location := ⟨100, 0, 20, 20⟩
    x_speed := xs, y_speed := ys }

/-- A block of 80 x 20 at `x`, `y` with `hits` hits left, coloured as `InitBlocks`
colours it. -/
def demoBlock (x y hits : Int) : Block :=
  InitBlocks_switch demoDefines
    { screen_location := ⟨x, y, 80, 20⟩, bitmap_location := ⟨0, 0, 80, 20⟩, num_hits := hits }

/-- A state in play: the paddle in the middle, the given level, lives, ball, and
the given blocks present in an array of four slots. -/
def demoGlobals (level lives : Int) (ball : Ball) (blocks : List Block) : Globals :=
  { g_StateStack := demoStack, g_Timer := 0
    g_Player :=
      { screen_location := ⟨350, 550, 100, 20⟩, bitmap_location := ⟨0, 0, 100, 20⟩, x_speed := 10 }
    g_Ball := ball, g_Lives := lives, g_Level := level
    g_NumBlocks := blocks.length
    g_Blocks := (blocks ++ List.replicate 4 Block.zero).take 4
    left_pressed := false, right_pressed := false }

/-- Two blocks side by side, the first with one hit left, and a ball below them
whose top-centre point (120, 80) lies on the edge they share. -/
def demoTwoBlocks : Globals :=
  demoGlobals 1 5 (demoBall 110 80 0 (-10)) [demoBlock 40 60 1, demoBlock 120 60 2]

/-- Level 3 with its three blocks, and a ball all four of whose sample points lie in
the third one (top-centre and bottom-centre on its upper and lower edge). -/
def demoWedged : Globals :=
  demoGlobals 3 5 (demoBall 70 80 3 (-10))
    [demoBlock 40 60 2, demoBlock 120 60 3, demoBlock 40 80 4]

/-- Level 2 with its single block, one hit left, and a ball whose top-centre point
(160, 80) lies on the lower edge of the block. -/
def demoLastBlock : Globals :=
  demoGlobals 2 5 (demoBall 150 80 2 (-10)) [demoBlock 120 60 1]

/-- The last level (3) with a single block that has one hit left. -/
def demoFinalBlock : Globals :=
  demoGlobals 3 5 (demoBall 150 80 2 (-10)) [demoBlock 120 60 1]

/-- A ball at y = 590 falling with speed 10, with `lives` lives. -/
def demoFalling (lives : Int) : Globals :=
  demoGlobals 1 lives (demoBall 390 590 0 10) [demoBlock 40 60 1, demoBlock 120 60 2]

/-- A ball at x = 5 moving left with speed 10. -/
def demoAtWall : Globals :=
  demoGlobals 1 5 (demoBall 5 300 (-10) 10) [demoBlock 40 60 1, demoBlock 120 60 2]

/-- A ball falling onto the paddle, its centre 12 to the right of the paddle's. -/
def demoOverPaddle : Globals :=
  demoGlobals 1 5 (demoBall 402 525 0 10) [demoBlock 40 60 1, demoBlock 120 60 2]

/-- A stack of 16 entries with Menu on top. -/
def demoFullStack : StateStack :=
  { pointers := List.replicate 15 ⟨some StateFn.Exit⟩ ++ [⟨some StateFn.Menu⟩], stack_size := 16 }

/-- The right key goes down and stays down for 36 frames. -/
def demoHoldRight : List (Option SDL_Event) :=
  some (SDL_Event.SDL_KEYDOWN SDLKey.SDLK_RIGHT) :: List.replicate 35 none

/-- The game is started, the left key goes down and stays down, and five times the
ball is launched and left to fall for 31 frames. -/
def demoLoseAll : List (Option SDL_Event) :=
  some (SDL_Event.SDL_KEYDOWN SDLKey.SDLK_g) :: some (SDL_Event.SDL_KEYDOWN SDLKey.SDLK_LEFT) ::
    (List.replicate 5
      (some (SDL_Event.SDL_KEYDOWN SDLKey.SDLK_SPACE) :: List.replicate 31 none)).flatten

/-- A block with three hits left and a ball wedged at its lower left corner: the
top-centre point (40, 70) and the right-centre point (50, 80) of the ball lie on
the edge of the block, the other two points outside; a second block is far off. -/
def demoCorner : Globals :=
  demoGlobals 3 5 (demoBall 30 70 3 (-10)) [demoBlock 40 60 3, demoBlock 120 60 2]

/-! ## The block array: lemmas -/

theorem blockAt_natCast (bs : List Block) (n : Nat) :
    blockAt bs (n : Int) = bs.getD n Block.zero := by
  simp [blockAt]

theorem setBlock_natCast (bs : List Block) (n : Nat) (b : Block) :
    setBlock bs (n : Int) b = bs.set n b := by
  simp [setBlock]

theorem length_setBlock (bs : List Block) (i : Int) (b : Block) :
    (setBlock bs i b).length = bs.length := by
  unfold setBlock; split <;> simp

theorem blockAt_setBlock_self (bs : List Block) (i : Int) (b : Block) (h0 : 0 ≤ i)
    (h : i < bs.length) : blockAt (setBlock bs i b) i = b := by
  have hi : i.toNat < bs.length := by omega
  simp [blockAt, setBlock, h0, List.getD_eq_getElem?_getD, List.getElem?_set, hi]

theorem blockAt_setBlock_of_ne (bs : List Block) (i j : Int) (b : Block) (h : j ≠ i) :
    blockAt (setBlock bs i b) j = blockAt bs j := by
  unfold blockAt setBlock
  by_cases hj : 0 ≤ j
  · by_cases hi : 0 ≤ i
    · have hne : i.toNat ≠ j.toNat := by omega
      simp [hj, hi, List.getD_eq_getElem?_getD, List.getElem?_set, hne]
    · simp [hj, hi]
  · simp [hj]

/-- Swap with the last and shrink, on lists: overwriting slot `i` of the first `n`
slots with the last of them and dropping the last slot removes one copy of the old
content of slot `i`. -/
theorem perm_swap_remove {α : Type} (l : List α) (i n : Nat) (x dflt : α) (hi : i < n)
    (hn : n ≤ l.length) :
    (l.getD i dflt :: (((l.set i x).set i ((l.set i x).getD (n - 1) dflt)).take (n - 1))).Perm
      (l.take n) := by
  have hil : i < l.length := by omega
  obtain ⟨m, rfl⟩ : ∃ m, n = m + 1 := ⟨n - 1, by omega⟩
  have hml : m < l.length := by omega
  simp only [Nat.add_sub_cancel, List.set_set]
  rw [List.take_add_one, List.getElem?_eq_getElem hml, List.getD_eq_getElem _ _ hil]
  simp only [Option.toList_some]
  by_cases him : i = m
  · subst him
    rw [List.set_take, List.set_eq_of_length_le (by simp)]
    exact (List.perm_append_singleton _ _).symm
  · have him2 : i < m := by omega
    have hg : (l.set i x).getD m dflt = l[m] := by
      rw [List.getD_eq_getElem _ _ (by simpa using hml), List.getElem_set]
      simp [him]
    rw [hg, List.set_take]
    have hlen : i < (List.take m l).length := by simp; omega
    have hdec : List.take m l = List.take i (List.take m l) ++
        (List.take m l)[i] :: List.drop (i + 1) (List.take m l) := by
      rw [List.getElem_cons_drop, List.take_append_drop]
    have hgi : (List.take m l)[i] = l[i] := List.getElem_take _
    rw [List.set_eq_take_append_cons_drop, if_pos hlen]
    conv_rhs => rw [hdec, hgi]
    have h1 : (l[i] :: (List.take i (List.take m l) ++ l[m] :: List.drop (i + 1) (List.take m l))).Perm
        (l[i] :: l[m] :: (List.take i (List.take m l) ++ List.drop (i + 1) (List.take m l))) :=
      List.Perm.cons _ List.perm_middle
    have h2 : ((List.take i (List.take m l) ++ l[i] :: List.drop (i + 1) (List.take m l)) ++ [l[m]]).Perm
        (l[m] :: l[i] :: (List.take i (List.take m l) ++ List.drop (i + 1) (List.take m l))) :=
      (List.perm_append_singleton _ _).trans (List.Perm.cons _ List.perm_middle)
    exact h1.trans ((List.Perm.swap _ _ _).trans h2.symm)

/-- C1. One call `HandleBlockCollision(index)` on a present block with counter
`h ≥ 1`: when `h > 1` the block count and every other slot are unchanged and slot
`index` stays present and keeps its rectangle, with counter `h - 1`; when `h = 1`
and the block is not the only one, the count drops by one and the present blocks
are, up to order, the previous ones without the block that was hit. -/
theorem HandleBlockCollision_one_hit (d : Defines) (s : Globals) (index : Int)
    (h0 : 0 ≤ index) (hlt : index < s.g_NumBlocks) (hcap : s.g_NumBlocks ≤ s.g_Blocks.length)
    (hh : 1 ≤ (blockAt s.g_Blocks index).num_hits) :
    (1 < (blockAt s.g_Blocks index).num_hits →
      (HandleBlockCollision d s index).g_NumBlocks = s.g_NumBlocks ∧
      index < (HandleBlockCollision d s index).g_NumBlocks ∧
      (blockAt (HandleBlockCollision d s index).g_Blocks index).num_hits =
        (blockAt s.g_Blocks index).num_hits - 1 ∧
      (blockAt (HandleBlockCollision d s index).g_Blocks index).screen_location =
        (blockAt s.g_Blocks index).screen_location ∧
      ∀ j : Int, j ≠ index →
        blockAt (HandleBlockCollision d s index).g_Blocks j = blockAt s.g_Blocks j) ∧
    ((blockAt s.g_Blocks index).num_hits = 1 → 1 < s.g_NumBlocks →
      (HandleBlockCollision d s index).g_NumBlocks = s.g_NumBlocks - 1 ∧
      (blockAt s.g_Blocks index :: (HandleBlockCollision d s index).present).Perm s.present) := by
  have hil : index < s.g_Blocks.length := by omega
  constructor
  · intro h1
    have hne : (blockAt s.g_Blocks index).num_hits - 1 ≠ 0 := by omega
    simp only [HandleBlockCollision, blockAt_setBlock_self _ _ _ h0 hil, hne, if_false,
      length_setBlock]
    have hil2 : index < (setBlock s.g_Blocks index
        { blockAt s.g_Blocks index with num_hits := (blockAt s.g_Blocks index).num_hits - 1 }).length := by
      rw [length_setBlock]; exact hil
    rw [blockAt_setBlock_self _ _ _ h0 hil2]
    refine ⟨trivial, hlt, ?_, ?_, ?_⟩
    · unfold HandleBlockCollision_switch; split_ifs <;> rfl
    · unfold HandleBlockCollision_switch; split_ifs <;> rfl
    · intro j hj
      rw [blockAt_setBlock_of_ne _ _ _ _ hj, blockAt_setBlock_of_ne _ _ _ _ hj]
  · intro h1 hn
    have hz : (blockAt s.g_Blocks index).num_hits - 1 = 0 := by omega
    have hnz : s.g_NumBlocks - 1 ≠ 0 := by omega
    simp only [HandleBlockCollision, blockAt_setBlock_self _ _ _ h0 hil, hz, if_true, hnz,
      if_false, Globals.present]
    refine ⟨trivial, ?_⟩
    obtain ⟨i, rfl⟩ : ∃ i : Nat, index = i := ⟨index.toNat, by omega⟩
    obtain ⟨n, hnn⟩ : ∃ n : Nat, s.g_NumBlocks = n := ⟨s.g_NumBlocks.toNat, by omega⟩
    have hn1 : s.g_NumBlocks - 1 = ((n - 1 : Nat) : Int) := by omega
    rw [hn1, hnn]
    simp only [blockAt_natCast, setBlock_natCast, Int.toNat_ofNat]
    exact perm_swap_remove s.g_Blocks i n _ Block.zero (by omega) (by omega)

/-! ## InitBlocks: lemmas -/

theorem InitBlocks_adds.refl (st : Nat × Globals) : InitBlocks_adds st st [] :=
  ⟨by simp, by simp, rfl, by simp, rfl⟩

theorem InitBlocks_adds.trans {st st1 st2 : Nat × Globals} {xs ys : List (SDL_Rect × Int)}
    (h1 : InitBlocks_adds st st1 xs) (h2 : InitBlocks_adds st1 st2 ys) :
    InitBlocks_adds st st2 (xs ++ ys) := by
  refine ⟨?_, ?_, ?_, ?_, ?_⟩
  · rw [h2.index_eq, h1.index_eq, List.length_append]; omega
  · rw [h2.count_eq, h1.count_eq, List.length_append]; push_cast; omega
  · rw [h2.length_eq, h1.length_eq]
  · rw [h2.data_eq, h1.data_eq, List.append_assoc]
  · exact h2.frame_eq.trans h1.frame_eq

theorem InitBlocks_switch_screen_location (d : Defines) (b : Block) :
    (InitBlocks_switch d b).screen_location = b.screen_location := by
  unfold InitBlocks_switch; split_ifs <;> rfl

theorem InitBlocks_switch_num_hits (d : Defines) (b : Block) :
    (InitBlocks_switch d b).num_hits = b.num_hits := by
  unfold InitBlocks_switch; split_ifs <;> rfl

theorem InitBlocks_cell_adds (d : Defines) (lvl : Int) (row col : Nat) (st : Nat × Globals)
    (hcap : st.1 < st.2.g_Blocks.length) :
    InitBlocks_adds st (InitBlocks_cell d lvl row col st)
      (levelGrid_cell d lvl row col).toList := by
  unfold InitBlocks_cell levelGrid_cell
  by_cases hz : d.level_file lvl ((row - 1) * d.NUMCOLS + (col - 1)) = 0
  · simp only [hz, ne_eq, not_true_eq_false, if_false, Option.toList_none]
    exact InitBlocks_adds.refl st
  · simp only [ne_eq, hz, not_false_eq_true, if_true, Option.toList_some]
    refine ⟨by simp, by simp, by simp [length_setBlock], ?_, rfl⟩
    simp only [setBlock_natCast]
    rw [List.take_add_one, List.set_take, List.set_eq_of_length_le (by simp)]
    simp [List.getElem?_set, hcap, InitBlocks_switch_screen_location, InitBlocks_switch_num_hits,
      Block.data]

theorem InitBlocks_row_adds (d : Defines) (lvl : Int) (row : Nat) (st : Nat × Globals) (n : Nat)
    (hcap : st.1 + n ≤ st.2.g_Blocks.length) :
    InitBlocks_adds st
      ((List.range n).foldl (fun acc c => InitBlocks_cell d lvl row (c + 1) acc) st)
      ((List.range n).filterMap fun c => levelGrid_cell d lvl row (c + 1)) := by
  induction n with
  | zero => simpa using InitBlocks_adds.refl st
  | succ n ih =>
    have ih1 := ih (by omega)
    rw [List.range_succ, List.foldl_append, List.filterMap_append]
    refine ih1.trans ?_
    have hlen : ((List.range n).filterMap fun c => levelGrid_cell d lvl row (c + 1)).length ≤ n := by
      simpa using List.length_filterMap_le _ (List.range n)
    have := InitBlocks_cell_adds d lvl row (n + 1)
      ((List.range n).foldl (fun acc c => InitBlocks_cell d lvl row (c + 1) acc) st)
      (by rw [ih1.index_eq, ih1.length_eq]; omega)
    simpa using this

theorem levelGrid_row_length_le (d : Defines) (lvl : Int) (row : Nat) :
    ((List.range d.NUMCOLS).filterMap fun c => levelGrid_cell d lvl row (c + 1)).length ≤
      d.NUMCOLS := by
  simpa using List.length_filterMap_le _ (List.range d.NUMCOLS)

theorem levelGrid_rows_length_le (d : Defines) (lvl : Int) (m : Nat) :
    ((List.range m).flatMap fun r =>
      (List.range d.NUMCOLS).filterMap fun c => levelGrid_cell d lvl (r + 1) (c + 1)).length ≤
      m * d.NUMCOLS := by
  induction m with
  | zero => simp
  | succ m ih =>
    rw [List.range_succ, List.flatMap_append, List.length_append]
    have := levelGrid_row_length_le d lvl (m + 1)
    simp only [List.flatMap_cons, List.flatMap_nil, List.append_nil]
    rw [Nat.succ_mul]
    omega

theorem InitBlocks_rows_adds (d : Defines) (lvl : Int) (st : Nat × Globals) (m : Nat)
    (hcap : st.1 + m * d.NUMCOLS ≤ st.2.g_Blocks.length) :
    InitBlocks_adds st
      ((List.range m).foldl (fun acc r => InitBlocks_row d lvl (r + 1) acc) st)
      ((List.range m).flatMap fun r =>
        (List.range d.NUMCOLS).filterMap fun c => levelGrid_cell d lvl (r + 1) (c + 1)) := by
  induction m with
  | zero => simpa using InitBlocks_adds.refl st
  | succ m ih =>
    have hm : st.1 + m * d.NUMCOLS + d.NUMCOLS ≤ st.2.g_Blocks.length := by
      rw [Nat.succ_mul] at hcap; omega
    have ih1 := ih (by omega)
    rw [List.range_succ, List.foldl_append, List.flatMap_append]
    refine ih1.trans ?_
    have hlen := levelGrid_rows_length_le d lvl m
    have := InitBlocks_row_adds d lvl (m + 1)
      ((List.range m).foldl (fun acc r => InitBlocks_row d lvl (r + 1) acc) st) d.NUMCOLS
      (by rw [ih1.index_eq, ih1.length_eq]; omega)
    simpa [InitBlocks_row] using this

/-- The function `InitBlocks`, entered with `g_NumBlocks = 0` and an array that has a
slot for every cell, leaves exactly the blocks of the level grid present and
touches nothing but `g_Blocks` and `g_NumBlocks`. -/
theorem InitBlocks_spec (d : Defines) (s : Globals) (h0 : s.g_NumBlocks = 0)
    (hcap : d.NUM_ROWS * d.NUMCOLS ≤ s.g_Blocks.length) :
    (InitBlocks d s).present.map Block.data = levelGrid d s.g_Level ∧
    (InitBlocks d s).g_NumBlocks = (levelGrid d s.g_Level).length ∧
    (InitBlocks d s).g_Blocks.length = s.g_Blocks.length ∧
    (InitBlocks d s).outside_blocks = s.outside_blocks := by
  have h := InitBlocks_rows_adds d s.g_Level (0, s) d.NUM_ROWS (by simpa using hcap)
  have hc := h.count_eq
  have hi := h.index_eq
  have hd := h.data_eq
  simp only [h0, zero_add, Nat.zero_add, List.take_zero, List.map_nil, List.nil_append] at hc hi hd
  refine ⟨?_, ?_, h.length_eq, h.frame_eq⟩
  · unfold Globals.present InitBlocks levelGrid
    rw [hc, Int.toNat_ofNat, ← hi]
    exact hd
  · unfold InitBlocks levelGrid
    exact hc

theorem InitBlocks_cell_count_le (d : Defines) (lvl : Int) (row col : Nat) (st : Nat × Globals) :
    (InitBlocks_cell d lvl row col st).2.g_NumBlocks ≤ st.2.g_NumBlocks + 1 := by
  simp only [InitBlocks_cell]
  split_ifs
  · simp
  · omega

theorem InitBlocks_row_count_le (d : Defines) (lvl : Int) (row : Nat) (st : Nat × Globals)
    (n : Nat) :
    ((List.range n).foldl (fun acc c => InitBlocks_cell d lvl row (c + 1) acc) st).2.g_NumBlocks ≤
      st.2.g_NumBlocks + n := by
  induction n with
  | zero => simp
  | succ n ih =>
    rw [List.range_succ, List.foldl_append]
    have := InitBlocks_cell_count_le d lvl row (n + 1)
      ((List.range n).foldl (fun acc c => InitBlocks_cell d lvl row (c + 1) acc) st)
    simp only [List.foldl_cons, List.foldl_nil]
    push_cast
    omega

theorem InitBlocks_rows_count_le (d : Defines) (lvl : Int) (st : Nat × Globals) (m : Nat) :
    ((List.range m).foldl (fun acc r => InitBlocks_row d lvl (r + 1) acc) st).2.g_NumBlocks ≤
      st.2.g_NumBlocks + (m * d.NUMCOLS : Nat) := by
  induction m with
  | zero => simp
  | succ m ih =>
    rw [List.range_succ, List.foldl_append]
    have := InitBlocks_row_count_le d lvl (m + 1)
      ((List.range m).foldl (fun acc r => InitBlocks_row d lvl (r + 1) acc) st) d.NUMCOLS
    simp only [List.foldl_cons, List.foldl_nil]
    rw [Nat.succ_mul]
    unfold InitBlocks_row at this ih ⊢
    push_cast at ih ⊢
    omega

theorem InitBlocks_cell_outside (d : Defines) (lvl : Int) (row col : Nat) (st : Nat × Globals) :
    (InitBlocks_cell d lvl row col st).2.outside_blocks = st.2.outside_blocks := by
  simp only [InitBlocks_cell]
  split_ifs <;> rfl

theorem InitBlocks_row_outside (d : Defines) (lvl : Int) (row : Nat) (st : Nat × Globals)
    (n : Nat) :
    ((List.range n).foldl (fun acc c => InitBlocks_cell d lvl row (c + 1) acc) st).2.outside_blocks
      = st.2.outside_blocks := by
  induction n with
  | zero => simp
  | succ n ih =>
    rw [List.range_succ, List.foldl_append]
    simp only [List.foldl_cons, List.foldl_nil]
    rw [InitBlocks_cell_outside, ih]

theorem InitBlocks_rows_outside (d : Defines) (lvl : Int) (st : Nat × Globals) (m : Nat) :
    ((List.range m).foldl (fun acc r => InitBlocks_row d lvl (r + 1) acc) st).2.outside_blocks
      = st.2.outside_blocks := by
  induction m with
  | zero => simp
  | succ m ih =>
    rw [List.range_succ, List.foldl_append]
    simp only [List.foldl_cons, List.foldl_nil]
    unfold InitBlocks_row at ih ⊢
    rw [InitBlocks_row_outside, ih]

/-- The function `InitBlocks` changes nothing but `g_Blocks` and `g_NumBlocks`. -/
theorem InitBlocks_outside (d : Defines) (s : Globals) :
    (InitBlocks d s).outside_blocks = s.outside_blocks :=
  InitBlocks_rows_outside d s.g_Level (0, s) d.NUM_ROWS

/-- The count `g_NumBlocks` after `InitBlocks` exceeds the count before by at most
the number of cells. -/
theorem InitBlocks_count_le (d : Defines) (s : Globals) :
    (InitBlocks d s).g_NumBlocks ≤ s.g_NumBlocks + (d.NUM_ROWS * d.NUMCOLS : Nat) :=
  InitBlocks_rows_count_le d s.g_Level (0, s) d.NUM_ROWS

/-! ## The state stack -/

theorem StateStack.pop_while_eq (n : Nat) (st : StateStack) :
    StateStack.pop_while n st = { st with stack_size := st.stack_size - n } := by
  induction n generalizing st with
  | zero => simp [StateStack.pop_while]
  | succ n ih =>
    obtain ⟨p, k⟩ := st
    unfold StateStack.pop_while
    cases k with
    | zero => simp [StateStack.empty]
    | succ k =>
      simp only [StateStack.empty, StateStack.pop, ih]
      simp

/-- The loop `while (!empty()) pop();` ends with an empty stack and leaves the array as it was. -/
theorem StateStack.clear_eq (st : StateStack) :
    st.clear = { st with stack_size := 0 } := by
  simp [StateStack.clear, StateStack.pop_while_eq]

theorem StateStack.clear_empty (st : StateStack) : st.clear.empty = true := by
  simp [StateStack.clear_eq, StateStack.empty]

/-- Clearing the stack and pushing one state leaves exactly that state on it. -/
theorem StateStack.clear_push (st : StateStack) (ptr : StateStruct)
    (hlen : st.pointers.length = MAX_STACK_SIZE) :
    (st.clear.push ptr).entries = [ptr] ∧ (st.clear.push ptr).top = ptr ∧
      (st.clear.push ptr).stack_size = 1 := by
  have h0 : 0 < st.pointers.length := by rw [hlen]; decide
  rw [StateStack.clear_eq]
  cases hp : st.pointers with
  | nil => rw [hp] at h0; simp at h0
  | cons a t =>
    simp [StateStack.push, StateStack.entries, StateStack.top, StateStack.empty, MAX_STACK_SIZE]

/-! ## Win, loss, level change -/

theorem HandleLoss_count_le (d : Defines) (s : Globals) :
    (HandleLoss d s).g_NumBlocks ≤ (d.NUM_ROWS * d.NUMCOLS : Nat) := by
  have := InitBlocks_count_le d
    { s with
      g_StateStack := s.g_StateStack.clear
      g_Ball := s.g_Ball.reset d
      g_Lives := d.NUM_LIVES
      g_NumBlocks := 0
      g_Level := 1 }
  simpa [HandleLoss] using this

theorem HandleWin_count_le (d : Defines) (s : Globals) :
    (HandleWin d s).g_NumBlocks ≤ (d.NUM_ROWS * d.NUMCOLS : Nat) := by
  have := InitBlocks_count_le d
    { s with
      g_StateStack := s.g_StateStack.clear
      g_Ball := s.g_Ball.reset d
      g_Lives := d.NUM_LIVES
      g_NumBlocks := 0
      g_Level := 1 }
  simpa [HandleWin] using this

theorem ChangeLevel_count_le (d : Defines) (s : Globals) :
    (ChangeLevel d s).g_NumBlocks ≤ (d.NUM_ROWS * d.NUMCOLS : Nat) := by
  unfold ChangeLevel
  simp only
  split_ifs
  · exact HandleWin_count_le d _
  · have := InitBlocks_count_le d
      { s with g_Level := s.g_Level + 1, g_Ball := s.g_Ball.reset d, g_NumBlocks := 0 }
    simpa using this

/-! ## HandleBlockCollision -/

theorem HandleBlockCollision_count_le (d : Defines) (s : Globals) (index : Int) :
    (HandleBlockCollision d s index).g_NumBlocks ≤
      max s.g_NumBlocks (d.NUM_ROWS * d.NUMCOLS : Nat) := by
  unfold HandleBlockCollision
  simp only
  split_ifs
  · exact le_trans (ChangeLevel_count_le d _) (le_max_right _ _)
  · simp only [le_max_iff]; left; omega
  · simp

/-- A call of `HandleBlockCollision` that does not reach `ChangeLevel` changes
nothing but `g_Blocks` and `g_NumBlocks`, and does not raise `g_NumBlocks`. -/
theorem HandleBlockCollision_frame (d : Defines) (s : Globals) (index : Int)
    (h : HandleBlockCollision_reloads s index = false) :
    (HandleBlockCollision d s index).outside_blocks = s.outside_blocks ∧
    (HandleBlockCollision d s index).g_NumBlocks ≤ s.g_NumBlocks := by
  unfold HandleBlockCollision_reloads at h
  simp only [decide_eq_false_iff_not, not_and] at h
  unfold HandleBlockCollision
  simp only
  split_ifs with h1 h2
  · exact absurd h2 (h h1)
  · exact ⟨rfl, by simp⟩
  · exact ⟨rfl, by simp⟩

/-! ## The loop of CheckBlockCollisions -/

theorem CheckBlockCollisions_test_keeps (d : Defines) (x y : Int) (mark : Scan → Scan)
    (block : Nat) (P : Scan → Prop) (hhit : ∀ sc, P sc → P (CheckBlockCollisions_hit d block sc))
    (hmark : ∀ sc, P sc → P (mark sc)) (sc : Scan) (h : P sc) :
    P (CheckBlockCollisions_test d x y mark block sc) := by
  unfold CheckBlockCollisions_test
  split_ifs
  · exact hhit _ (hmark _ h)
  · exact h

/-- A property of the loop state that every call of `HandleBlockCollision(block)`
and every change of the four flags keeps is kept by the body of the loop. -/
theorem CheckBlockCollisions_body_keeps (d : Defines) (p : CollisionPoints) (block : Nat)
    (P : Scan → Prop) (hhit : ∀ sc, P sc → P (CheckBlockCollisions_hit d block sc))
    (hflag : ∀ sc t b l r, P sc → P { sc with top := t, bottom := b, left := l, right := r })
    (sc : Scan) (h : P sc) : P (CheckBlockCollisions_body d p block sc) := by
  unfold CheckBlockCollisions_body
  refine CheckBlockCollisions_test_keeps d _ _ _ block P hhit
    (fun c hc => hflag c c.top c.bottom c.left true hc) _ ?_
  refine CheckBlockCollisions_test_keeps d _ _ _ block P hhit
    (fun c hc => hflag c c.top c.bottom true c.right hc) _ ?_
  refine CheckBlockCollisions_test_keeps d _ _ _ block P hhit
    (fun c hc => hflag c c.top true c.left c.right hc) _ ?_
  exact CheckBlockCollisions_test_keeps d _ _ _ block P hhit
    (fun c hc => hflag c true c.bottom c.left c.right hc) _ h

/-- A property kept by every pass of the body holds when the loop returns. -/
theorem CheckBlockCollisions_loop_keeps (d : Defines) (p : CollisionPoints) (P : Scan → Prop)
    (hbody : ∀ (block : Nat) (sc : Scan), P sc → (block : Int) < sc.game.g_NumBlocks →
      P (CheckBlockCollisions_body d p block sc)) :
    ∀ (fuel block : Nat) (sc r : Scan),
      CheckBlockCollisions_loop d p fuel block sc = some r → P sc → P r := by
  intro fuel
  induction fuel with
  | zero =>
    intro block sc r h hP
    unfold CheckBlockCollisions_loop at h
    split_ifs at h
    cases h
    exact hP
  | succ fuel ih =>
    intro block sc r h hP
    unfold CheckBlockCollisions_loop at h
    split_ifs at h with hlt
    · exact ih _ _ _ h (hbody _ _ hP hlt)
    · cases h
      exact hP

theorem CheckBlockCollisions_body_count_le (d : Defines) (p : CollisionPoints) (block : Nat)
    (sc : Scan) :
    (CheckBlockCollisions_body d p block sc).game.g_NumBlocks ≤
      max sc.game.g_NumBlocks (d.NUM_ROWS * d.NUMCOLS : Nat) := by
  refine CheckBlockCollisions_body_keeps d p block
    (fun c => c.game.g_NumBlocks ≤ max sc.game.g_NumBlocks (d.NUM_ROWS * d.NUMCOLS : Nat))
    ?_ ?_ sc (le_max_left _ _)
  · intro c hc
    have := HandleBlockCollision_count_le d c.game block
    simp only [CheckBlockCollisions_hit]
    exact le_trans this (max_le hc (le_max_right _ _))
  · intro c t b l r hc
    exact hc

/-- The loop of `CheckBlockCollisions` ends: with fuel for as many iterations as
the larger of `g_NumBlocks` and the number of cells, less the index reached, the
loop returns. -/
theorem CheckBlockCollisions_loop_returns (d : Defines) (p : CollisionPoints) :
    ∀ (fuel block : Nat) (sc : Scan),
      max sc.game.g_NumBlocks.toNat (d.NUM_ROWS * d.NUMCOLS) ≤ fuel + block →
      ∃ r, CheckBlockCollisions_loop d p fuel block sc = some r := by
  intro fuel
  induction fuel with
  | zero =>
    intro block sc h
    unfold CheckBlockCollisions_loop
    have : ¬ ((block : Int) < sc.game.g_NumBlocks) := by
      have := le_trans (le_max_left _ _) h
      omega
    simp [this]
  | succ fuel ih =>
    intro block sc h
    unfold CheckBlockCollisions_loop
    split_ifs with hlt
    · apply ih
      have hb := CheckBlockCollisions_body_count_le d p block sc
      have h1 := le_trans (le_max_left _ _) h
      have h2 := le_trans (le_max_right _ _) h
      refine max_le ?_ (by omega)
      rcases le_max_iff.mp hb with hb | hb
      · omega
      · omega
    · exact ⟨sc, rfl⟩

/-- Fuel beyond what the loop needs does not change what it returns. -/
theorem CheckBlockCollisions_loop_more_fuel (d : Defines) (p : CollisionPoints) :
    ∀ (fuel block : Nat) (sc r : Scan),
      CheckBlockCollisions_loop d p fuel block sc = some r →
      CheckBlockCollisions_loop d p (fuel + 1) block sc = some r := by
  intro fuel
  induction fuel with
  | zero =>
    intro block sc r h
    unfold CheckBlockCollisions_loop at h ⊢
    split_ifs at h ⊢
    exact h
  | succ fuel ih =>
    intro block sc r h
    rw [CheckBlockCollisions_loop] at h ⊢
    split_ifs at h ⊢
    · exact ih _ _ _ h
    · exact h

/-- The scan of `CheckBlockCollisions` returns for every state. -/
theorem CheckBlockCollisions_scan_returns (d : Defines) (s : Globals) :
    ∃ sc, CheckBlockCollisions_scan d s = some sc :=
  CheckBlockCollisions_loop_returns d _ _ 0 _ (by simp [CheckBlockCollisions_fuel])

/-- The function `CheckBlockCollisions` returns for every state. -/
theorem CheckBlockCollisions_returns (d : Defines) (s : Globals) :
    ∃ r, CheckBlockCollisions d s = some r := by
  obtain ⟨sc, h⟩ := CheckBlockCollisions_scan_returns d s
  exact ⟨CheckBlockCollisions_bounce d sc, by simp [CheckBlockCollisions, h]⟩

/-- While no call of `HandleBlockCollision` has reached `ChangeLevel`, the loop has
changed nothing but `g_Blocks` and `g_NumBlocks`, and has not raised `g_NumBlocks`. -/
theorem CheckBlockCollisions_loop_frame (d : Defines) (p : CollisionPoints) (s : Globals)
    (fuel block : Nat) (sc r : Scan)
    (h : CheckBlockCollisions_loop d p fuel block sc = some r)
    (hsc : sc.reloaded = false →
      sc.game.outside_blocks = s.outside_blocks ∧
        sc.game.g_NumBlocks ≤ s.g_NumBlocks) :
    r.reloaded = false →
      r.game.outside_blocks = s.outside_blocks ∧
        r.game.g_NumBlocks ≤ s.g_NumBlocks := by
  refine CheckBlockCollisions_loop_keeps d p
    (fun c => c.reloaded = false →
      c.game.outside_blocks = s.outside_blocks ∧
        c.game.g_NumBlocks ≤ s.g_NumBlocks) ?_ fuel block sc r h hsc
  intro block c hc _
  refine CheckBlockCollisions_body_keeps d p block
    (fun c => c.reloaded = false →
      c.game.outside_blocks = s.outside_blocks ∧
        c.game.g_NumBlocks ≤ s.g_NumBlocks) ?_ ?_ c hc
  · intro c hc hr
    simp only [CheckBlockCollisions_hit, Bool.or_eq_false_iff] at hr
    obtain ⟨h1, h2⟩ := hc hr.1
    obtain ⟨f1, f2⟩ := HandleBlockCollision_frame d c.game block hr.2
    simp only [CheckBlockCollisions_hit]
    exact ⟨f1.trans h1, le_trans f2 h2⟩
  · intro c t b l r hc
    exact hc

/-- When none of the four sample points of the ball lies in the rectangle of a
present block, the scan of `CheckBlockCollisions` changes nothing and sets no flag. -/
theorem CheckBlockCollisions_scan_clear (d : Defines) (s : Globals)
    (hclear : ∀ block : Nat, (block : Int) < s.g_NumBlocks →
      CheckPointInRect (collisionPoints s.g_Ball).top_x (collisionPoints s.g_Ball).top_y
        (blockAt s.g_Blocks block).screen_location = false ∧
      CheckPointInRect (collisionPoints s.g_Ball).bottom_x (collisionPoints s.g_Ball).bottom_y
        (blockAt s.g_Blocks block).screen_location = false ∧
      CheckPointInRect (collisionPoints s.g_Ball).left_x (collisionPoints s.g_Ball).left_y
        (blockAt s.g_Blocks block).screen_location = false ∧
      CheckPointInRect (collisionPoints s.g_Ball).right_x (collisionPoints s.g_Ball).right_y
        (blockAt s.g_Blocks block).screen_location = false) :
    CheckBlockCollisions_scan d s =
      some { game := s, top := false, bottom := false, left := false, right := false,
             reloaded := false } := by
  obtain ⟨r, hr⟩ := CheckBlockCollisions_scan_returns d s
  have := CheckBlockCollisions_loop_keeps d (collisionPoints s.g_Ball)
    (fun c => c = { game := s, top := false, bottom := false, left := false, right := false,
                    reloaded := false }) ?_ _ _ _ _ hr rfl
  · rw [hr, this]
  · intro block c hc hlt
    subst hc
    obtain ⟨h1, h2, h3, h4⟩ := hclear block hlt
    simp [CheckBlockCollisions_body, CheckBlockCollisions_test, h1, h2, h3, h4]

/-- The ball after `Ball.reset` is at the centre of the window with speed zero. -/
theorem Ball.reset_docked (d : Defines) (b : Ball) :
    (b.reset d).screen_location.x = Int.tdiv d.WINDOW_WIDTH 2 - Int.tdiv b.screen_location.w 2 ∧
    (b.reset d).screen_location.y = Int.tdiv d.WINDOW_HEIGHT 2 - Int.tdiv b.screen_location.h 2 ∧
    (b.reset d).x_speed = 0 ∧ (b.reset d).y_speed = 0 ∧
    (b.reset d).screen_location.w = b.screen_location.w ∧
    (b.reset d).screen_location.h = b.screen_location.h :=
  ⟨rfl, rfl, rfl, rfl, rfl, rfl⟩

theorem Ball.reset_reset (d : Defines) (b : Ball) : (b.reset d).reset d = b.reset d := rfl

/-- The function `HandleLoss` resets the session and the ball and leaves GameLost
alone on the stack (given the stack array has its declared size). -/
theorem HandleLoss_session (d : Defines) (s : Globals) :
    (HandleLoss d s).g_Level = 1 ∧
    (HandleLoss d s).g_Lives = d.NUM_LIVES ∧
    (HandleLoss d s).g_Ball = s.g_Ball.reset d ∧
    (HandleLoss d s).g_Player = s.g_Player ∧
    (s.g_StateStack.pointers.length = MAX_STACK_SIZE →
      (HandleLoss d s).g_StateStack.entries = [⟨some StateFn.GameLost⟩] ∧
      (HandleLoss d s).g_StateStack.top = ⟨some StateFn.GameLost⟩ ∧
      (HandleLoss d s).g_StateStack.stack_size = 1) := by
  have hf := InitBlocks_outside d
    { s with
      g_StateStack := s.g_StateStack.clear
      g_Ball := s.g_Ball.reset d
      g_Lives := d.NUM_LIVES
      g_NumBlocks := 0
      g_Level := 1 }
  have hS := congrArg Globals.g_StateStack hf
  have hL := congrArg Globals.g_Level hf
  have hV := congrArg Globals.g_Lives hf
  have hB := congrArg Globals.g_Ball hf
  have hP := congrArg Globals.g_Player hf
  simp only [Globals.outside_blocks] at hS hL hV hB hP
  refine ⟨?_, ?_, ?_, ?_, ?_⟩
  · simpa [HandleLoss] using hL
  · simpa [HandleLoss] using hV
  · simpa [HandleLoss] using hB
  · simpa [HandleLoss] using hP
  · intro hstack
    simp only [HandleLoss, hS]
    exact StateStack.clear_push _ _ hstack

/-- The function `HandleLoss` loads the grid of level 1 (given the block array has
a slot for every cell). -/
theorem HandleLoss_blocks (d : Defines) (s : Globals)
    (hcap : d.NUM_ROWS * d.NUMCOLS ≤ s.g_Blocks.length) :
    (HandleLoss d s).present.map Block.data = levelGrid d 1 := by
  obtain ⟨hd, -, -, -⟩ := InitBlocks_spec d
    { s with
      g_StateStack := s.g_StateStack.clear
      g_Ball := s.g_Ball.reset d
      g_Lives := d.NUM_LIVES
      g_NumBlocks := 0
      g_Level := 1 } rfl hcap
  simpa [HandleLoss, Globals.present] using hd

/-- The function `HandleWin` resets the session and the ball and leaves GameWon
alone on the stack (given the stack array has its declared size). -/
theorem HandleWin_session (d : Defines) (s : Globals) :
    (HandleWin d s).g_Level = 1 ∧
    (HandleWin d s).g_Lives = d.NUM_LIVES ∧
    (HandleWin d s).g_Ball = s.g_Ball.reset d ∧
    (HandleWin d s).g_Player = s.g_Player ∧
    (s.g_StateStack.pointers.length = MAX_STACK_SIZE →
      (HandleWin d s).g_StateStack.entries = [⟨some StateFn.GameWon⟩] ∧
      (HandleWin d s).g_StateStack.top = ⟨some StateFn.GameWon⟩ ∧
      (HandleWin d s).g_StateStack.stack_size = 1) := by
  have hf := InitBlocks_outside d
    { s with
      g_StateStack := s.g_StateStack.clear
      g_Ball := s.g_Ball.reset d
      g_Lives := d.NUM_LIVES
      g_NumBlocks := 0
      g_Level := 1 }
  have hS := congrArg Globals.g_StateStack hf
  have hL := congrArg Globals.g_Level hf
  have hV := congrArg Globals.g_Lives hf
  have hB := congrArg Globals.g_Ball hf
  have hP := congrArg Globals.g_Player hf
  simp only [Globals.outside_blocks] at hS hL hV hB hP
  refine ⟨?_, ?_, ?_, ?_, ?_⟩
  · simpa [HandleWin] using hL
  · simpa [HandleWin] using hV
  · simpa [HandleWin] using hB
  · simpa [HandleWin] using hP
  · intro hstack
    simp only [HandleWin, hS]
    exact StateStack.clear_push _ _ hstack

/-- The function `HandleWin` loads the grid of level 1 (given the block array has a
slot for every cell). -/
theorem HandleWin_blocks (d : Defines) (s : Globals)
    (hcap : d.NUM_ROWS * d.NUMCOLS ≤ s.g_Blocks.length) :
    (HandleWin d s).present.map Block.data = levelGrid d 1 := by
  obtain ⟨hd, -, -, -⟩ := InitBlocks_spec d
    { s with
      g_StateStack := s.g_StateStack.clear
      g_Ball := s.g_Ball.reset d
      g_Lives := d.NUM_LIVES
      g_NumBlocks := 0
      g_Level := 1 } rfl hcap
  simpa [HandleWin, Globals.present] using hd

/-- A call of `HandleBlockCollision` that reaches `ChangeLevel` is `ChangeLevel`
run with `g_NumBlocks = 0`. -/
theorem HandleBlockCollision_reloading (d : Defines) (s : Globals) (index : Int)
    (h : HandleBlockCollision_reloads s index = true) :
    ∃ bs : List Block,
      HandleBlockCollision d s index = ChangeLevel d { s with g_Blocks := bs, g_NumBlocks := 0 } ∧
      bs.length = s.g_Blocks.length := by
  unfold HandleBlockCollision_reloads at h
  simp only [decide_eq_true_eq] at h
  refine ⟨setBlock (setBlock s.g_Blocks index
      { blockAt s.g_Blocks index with num_hits := (blockAt s.g_Blocks index).num_hits - 1 }) index
      (blockAt (setBlock s.g_Blocks index
        { blockAt s.g_Blocks index with num_hits := (blockAt s.g_Blocks index).num_hits - 1 })
        (s.g_NumBlocks - 1)), ?_, by simp [length_setBlock]⟩
  simp only [HandleBlockCollision, h.1, h.2, if_true]

/-- Past the last level `ChangeLevel` is `HandleWin`. -/
theorem ChangeLevel_last (d : Defines) (s : Globals) (h : d.NUM_LEVELS < s.g_Level + 1) :
    ChangeLevel d s = HandleWin d { s with g_Level := s.g_Level + 1 } := by
  simp [ChangeLevel, h]

/-- Up to the last level `ChangeLevel` resets the ball and loads the next level. -/
theorem ChangeLevel_next (d : Defines) (s : Globals) (h : s.g_Level + 1 ≤ d.NUM_LEVELS) :
    ChangeLevel d s =
      InitBlocks d
        { s with g_Level := s.g_Level + 1, g_Ball := s.g_Ball.reset d, g_NumBlocks := 0 } := by
  have : ¬ (d.NUM_LEVELS < s.g_Level + 1) := by omega
  simp [ChangeLevel, this]

/-- C5. On the last level, with exactly one block present whose counter is 1, the
call `HandleBlockCollision(0)` on that block performs the win transition: the
stack holds GameWon alone, the level is 1, the lives are `NUM_LIVES`, the ball is
at the centre of the window with speed zero, and the blocks present are those of
the grid of level 1. -/
theorem HandleBlockCollision_last_block_wins (d : Defines) (s : Globals)
    (hlevel : s.g_Level = d.NUM_LEVELS) (hcount : s.g_NumBlocks = 1)
    (hhits : (blockAt s.g_Blocks 0).num_hits = 1)
    (hstack : s.g_StateStack.pointers.length = MAX_STACK_SIZE)
    (hcap : d.NUM_ROWS * d.NUMCOLS ≤ s.g_Blocks.length) :
    (HandleBlockCollision d s 0).g_StateStack.entries = [⟨some StateFn.GameWon⟩] ∧
    (HandleBlockCollision d s 0).g_Level = 1 ∧
    (HandleBlockCollision d s 0).g_Lives = d.NUM_LIVES ∧
    (HandleBlockCollision d s 0).g_Ball.screen_location.x =
      Int.tdiv d.WINDOW_WIDTH 2 - Int.tdiv s.g_Ball.screen_location.w 2 ∧
    (HandleBlockCollision d s 0).g_Ball.screen_location.y =
      Int.tdiv d.WINDOW_HEIGHT 2 - Int.tdiv s.g_Ball.screen_location.h 2 ∧
    (HandleBlockCollision d s 0).g_Ball.x_speed = 0 ∧
    (HandleBlockCollision d s 0).g_Ball.y_speed = 0 ∧
    (HandleBlockCollision d s 0).present.map Block.data = levelGrid d 1 := by
  have hlen : (0 : Int) < s.g_Blocks.length := by
    rcases Nat.eq_zero_or_pos s.g_Blocks.length with h | h
    · have : s.g_Blocks = [] := List.length_eq_zero.mp h
      rw [this] at hhits
      simp [blockAt, Block.zero] at hhits
    · exact_mod_cast h
  have hre : HandleBlockCollision_reloads s 0 = true := by
    simp [HandleBlockCollision_reloads, blockAt_setBlock_self _ _ _ (le_refl 0) hlen, hhits,
      hcount]
  obtain ⟨bs, hrun, hbs⟩ := HandleBlockCollision_reloading d s 0 hre
  rw [hrun, ChangeLevel_last d _ (by simp [hlevel])]
  obtain ⟨h2, h3, h4, -, h1⟩ := HandleWin_session d
    { s with g_Blocks := bs, g_NumBlocks := 0, g_Level := s.g_Level + 1 }
  have h5 := HandleWin_blocks d
    { s with g_Blocks := bs, g_NumBlocks := 0, g_Level := s.g_Level + 1 }
    (by rw [hbs]; exact hcap)
  rw [h4]
  exact ⟨(h1 hstack).1, h2, h3, rfl, rfl, rfl, rfl, h5⟩

/-! ## MoveBall -/

/-- A value that fits 16 bits is stored as it is. -/
theorem Sint16_of_fits (v : Int) (hlo : -32768 ≤ v) (hhi : v ≤ 32767) : Sint16 v = v := by
  unfold Sint16
  omega

/-- The first half of `MoveBall` adds the speed to the position, negates the
horizontal speed at a side wall the ball moves toward, and negates the vertical
speed at the roof when the ball moves up. -/
theorem MoveBall_walls_spec (d : Defines) (b : Ball) :
    (MoveBall_walls d b).screen_location =
      { b.screen_location with
        x := Sint16 (b.screen_location.x + b.x_speed)
        y := Sint16 (b.screen_location.y + b.y_speed) } ∧
    (MoveBall_walls d b).x_speed =
      (if (b.x_speed < 0 ∧ Sint16 (b.screen_location.x + b.x_speed) ≤ 0) ∨
          (b.x_speed > 0 ∧
            Sint16 (b.screen_location.x + b.x_speed) + b.screen_location.w ≥ d.WINDOW_WIDTH)
        then -b.x_speed else b.x_speed) ∧
    (MoveBall_walls d b).y_speed =
      (if b.y_speed < 0 ∧ Sint16 (b.screen_location.y + b.y_speed) ≤ 0 then -b.y_speed
        else b.y_speed) ∧
    (MoveBall_walls d b).bitmap_location = b.bitmap_location := by
  unfold MoveBall_walls
  simp only
  refine ⟨?_, ?_, ?_, ?_⟩ <;> split_ifs <;> rfl

/-- When the moved ball is at or below the bottom of the window, `MoveBall` takes a
life, resets the ball, and calls `HandleLoss` when no life is left. -/
theorem MoveBall_out (d : Defines) (s : Globals)
    (hout : Sint16 (s.g_Ball.screen_location.y + s.g_Ball.y_speed) ≥ d.WINDOW_HEIGHT) :
    MoveBall d s =
      if s.g_Lives - 1 = 0 then
        HandleLoss d { s with g_Lives := s.g_Lives - 1, g_Ball := (MoveBall_walls d s.g_Ball).reset d }
      else { s with g_Lives := s.g_Lives - 1, g_Ball := (MoveBall_walls d s.g_Ball).reset d } := by
  have hy : (MoveBall_walls d s.g_Ball).screen_location.y ≥ d.WINDOW_HEIGHT := by
    rw [(MoveBall_walls_spec d s.g_Ball).1]; exact hout
  simp only [MoveBall, hy, if_true]

/-- When the moved ball is above the bottom of the window, `MoveBall` changes the
ball only. -/
theorem MoveBall_in (d : Defines) (s : Globals)
    (hin : Sint16 (s.g_Ball.screen_location.y + s.g_Ball.y_speed) < d.WINDOW_HEIGHT) :
    MoveBall d s = { s with g_Ball := MoveBall_walls d s.g_Ball } := by
  have hy : ¬ (MoveBall_walls d s.g_Ball).screen_location.y ≥ d.WINDOW_HEIGHT := by
    rw [(MoveBall_walls_spec d s.g_Ball).1]; simpa using hin
  simp only [MoveBall, hy, if_false]

theorem MoveBall_walls_w (d : Defines) (b : Ball) :
    (MoveBall_walls d b).screen_location.w = b.screen_location.w ∧
    (MoveBall_walls d b).screen_location.h = b.screen_location.h := by
  rw [(MoveBall_walls_spec d b).1]
  exact ⟨rfl, rfl⟩

/-- C6. With one life left, a `MoveBall` that takes the ball to `y ≥ WINDOW_HEIGHT`
resets the session: level 1, `NUM_LIVES` lives, the blocks of the grid of level 1
present, the ball at the centre of the window with speed zero.  The `y` that the
ball is taken to is its `y` plus its vertical speed as the 16 bits of the field
hold it, `Sint16 (y + y_speed)`; that is `y + y_speed` when it fits
(`Sint16_of_fits`). -/
theorem MoveBall_last_life_resets (d : Defines) (s : Globals) (hlives : s.g_Lives = 1)
    (hout : Sint16 (s.g_Ball.screen_location.y + s.g_Ball.y_speed) ≥ d.WINDOW_HEIGHT)
    (hcap : d.NUM_ROWS * d.NUMCOLS ≤ s.g_Blocks.length) :
    (MoveBall d s).g_Level = 1 ∧
    (MoveBall d s).g_Lives = d.NUM_LIVES ∧
    (MoveBall d s).present.map Block.data = levelGrid d 1 ∧
    (MoveBall d s).g_Ball.screen_location.x =
      Int.tdiv d.WINDOW_WIDTH 2 - Int.tdiv s.g_Ball.screen_location.w 2 ∧
    (MoveBall d s).g_Ball.screen_location.y =
      Int.tdiv d.WINDOW_HEIGHT 2 - Int.tdiv s.g_Ball.screen_location.h 2 ∧
    (MoveBall d s).g_Ball.x_speed = 0 ∧
    (MoveBall d s).g_Ball.y_speed = 0 := by
  rw [MoveBall_out d s hout, if_pos (by omega)]
  obtain ⟨h1, h2, h3, -, -⟩ := HandleLoss_session d
    { s with g_Lives := s.g_Lives - 1, g_Ball := (MoveBall_walls d s.g_Ball).reset d }
  have h4 := HandleLoss_blocks d
    { s with g_Lives := s.g_Lives - 1, g_Ball := (MoveBall_walls d s.g_Ball).reset d } hcap
  obtain ⟨hw, hh⟩ := MoveBall_walls_w d s.g_Ball
  refine ⟨h1, h2, h4, ?_, ?_, ?_, ?_⟩
  · rw [h3]; simp [Ball.reset, hw]
  · rw [h3]; simp [Ball.reset, hh]
  · rw [h3]; rfl
  · rw [h3]; rfl

/-- C7, as amended. With one life left, a `MoveBall` that takes the ball to
`y ≥ WINDOW_HEIGHT` leaves GameLost as the only entry of the state stack: it is on
top and no entry is beneath it.  The `y` that the ball is taken to is
`Sint16 (y + y_speed)`, the sum as the 16 bits of the field hold it. -/
theorem MoveBall_last_life_stack (d : Defines) (s : Globals) (hlives : s.g_Lives = 1)
    (hout : Sint16 (s.g_Ball.screen_location.y + s.g_Ball.y_speed) ≥ d.WINDOW_HEIGHT)
    (hstack : s.g_StateStack.pointers.length = MAX_STACK_SIZE) :
    (MoveBall d s).g_StateStack.entries = [⟨some StateFn.GameLost⟩] ∧
    (MoveBall d s).g_StateStack.top = ⟨some StateFn.GameLost⟩ ∧
    (MoveBall d s).g_StateStack.stack_size = 1 := by
  rw [MoveBall_out d s hout, if_pos (by omega)]
  obtain ⟨-, -, -, -, h5⟩ := HandleLoss_session d
    { s with g_Lives := s.g_Lives - 1, g_Ball := (MoveBall_walls d s.g_Ball).reset d }
  exact h5 hstack

/-- C8. With more than one life, a `MoveBall` that takes the ball to
`y ≥ WINDOW_HEIGHT` takes exactly one life, puts the ball at the centre of the
window with speed zero and leaves the state stack, the level, the paddle and the
blocks as they were; a `MoveBall` that takes the ball to `y < WINDOW_HEIGHT`
leaves the lives as they were.  The `y` that the ball is taken to is
`Sint16 (y + y_speed)`, the sum as the 16 bits of the field hold it. -/
theorem MoveBall_life_lost (d : Defines) (s : Globals) :
    (1 < s.g_Lives →
      Sint16 (s.g_Ball.screen_location.y + s.g_Ball.y_speed) ≥ d.WINDOW_HEIGHT →
      (MoveBall d s).g_Lives = s.g_Lives - 1 ∧
      (MoveBall d s).g_Ball.screen_location.x =
        Int.tdiv d.WINDOW_WIDTH 2 - Int.tdiv s.g_Ball.screen_location.w 2 ∧
      (MoveBall d s).g_Ball.screen_location.y =
        Int.tdiv d.WINDOW_HEIGHT 2 - Int.tdiv s.g_Ball.screen_location.h 2 ∧
      (MoveBall d s).g_Ball.x_speed = 0 ∧
      (MoveBall d s).g_Ball.y_speed = 0 ∧
      (MoveBall d s).g_StateStack = s.g_StateStack ∧
      (MoveBall d s).g_Level = s.g_Level ∧
      (MoveBall d s).g_Player = s.g_Player ∧
      (MoveBall d s).g_Blocks = s.g_Blocks ∧
      (MoveBall d s).g_NumBlocks = s.g_NumBlocks) ∧
    (Sint16 (s.g_Ball.screen_location.y + s.g_Ball.y_speed) < d.WINDOW_HEIGHT →
      (MoveBall d s).g_Lives = s.g_Lives) := by
  constructor
  · intro hl hout
    rw [MoveBall_out d s hout, if_neg (by omega)]
    obtain ⟨hw, hh⟩ := MoveBall_walls_w d s.g_Ball
    refine ⟨rfl, ?_, ?_, rfl, rfl, rfl, rfl, rfl, rfl, rfl⟩
    · simp [Ball.reset, hw]
    · simp [Ball.reset, hh]
  · intro hin
    rw [MoveBall_in d s hin]

/-- C9. In a `MoveBall` that loses no life (the ball is taken to a `y` below
`WINDOW_HEIGHT`), the horizontal speed is negated when, after the position is
advanced, the ball moves left with `x ≤ 0` or moves right with
`x + w ≥ WINDOW_WIDTH`, and is unchanged in every other case; so its sign flips
exactly in these two cases.  The advanced position is the old one plus the speed
as the 16 bits of the field hold it, `Sint16 (x + x_speed)` and
`Sint16 (y + y_speed)`. -/
theorem MoveBall_side_walls (d : Defines) (s : Globals)
    (hin : Sint16 (s.g_Ball.screen_location.y + s.g_Ball.y_speed) < d.WINDOW_HEIGHT) :
    (((s.g_Ball.x_speed < 0 ∧ (MoveBall d s).g_Ball.screen_location.x ≤ 0) ∨
      (s.g_Ball.x_speed > 0 ∧
        (MoveBall d s).g_Ball.screen_location.x + (MoveBall d s).g_Ball.screen_location.w ≥
          d.WINDOW_WIDTH)) →
      (MoveBall d s).g_Ball.x_speed = -s.g_Ball.x_speed) ∧
    (¬ ((s.g_Ball.x_speed < 0 ∧ (MoveBall d s).g_Ball.screen_location.x ≤ 0) ∨
      (s.g_Ball.x_speed > 0 ∧
        (MoveBall d s).g_Ball.screen_location.x + (MoveBall d s).g_Ball.screen_location.w ≥
          d.WINDOW_WIDTH)) →
      (MoveBall d s).g_Ball.x_speed = s.g_Ball.x_speed) ∧
    (((MoveBall d s).g_Ball.x_speed = -s.g_Ball.x_speed ∧ s.g_Ball.x_speed ≠ 0) ↔
      ((s.g_Ball.x_speed < 0 ∧ (MoveBall d s).g_Ball.screen_location.x ≤ 0) ∨
      (s.g_Ball.x_speed > 0 ∧
        (MoveBall d s).g_Ball.screen_location.x + (MoveBall d s).g_Ball.screen_location.w ≥
          d.WINDOW_WIDTH))) ∧
    (MoveBall d s).g_Ball.screen_location.x =
      Sint16 (s.g_Ball.screen_location.x + s.g_Ball.x_speed) := by
  rw [MoveBall_in d s hin]
  obtain ⟨hloc, hx, -, -⟩ := MoveBall_walls_spec d s.g_Ball
  simp only [hloc, hx]
  refine ⟨?_, ?_, ?_, trivial⟩
  · intro h; rw [if_pos h]
  · intro h; rw [if_neg h]
  · constructor
    · rintro ⟨h1, h2⟩
      by_contra hc
      rw [if_neg hc] at h1
      omega
    · intro h
      rw [if_pos h]
      exact ⟨rfl, by omega⟩

/-! ## HandleBall -/

/-- A paddle hit is only reported for a ball that moves down. -/
theorem CheckBallCollisions_moving_down (s : Globals) (h : CheckBallCollisions s = true) :
    0 < s.g_Ball.y_speed := by
  unfold CheckBallCollisions at h
  simp only at h
  split_ifs at h with h1
  exact h1.1

/-- The vertical speed after `MoveBall` is 0 when a life was lost and otherwise
the speed before, negated at the roof. -/
theorem MoveBall_y_speed_of_pos (d : Defines) (s : Globals) (hpos : 0 < s.g_Ball.y_speed)
    (hmoved : 0 < (MoveBall d s).g_Ball.y_speed) :
    (MoveBall d s).g_Ball.y_speed = s.g_Ball.y_speed := by
  by_cases hout : Sint16 (s.g_Ball.screen_location.y + s.g_Ball.y_speed) ≥ d.WINDOW_HEIGHT
  · rw [MoveBall_out d s hout] at hmoved
    split_ifs at hmoved
    · rw [(HandleLoss_session d _).2.2.1] at hmoved
      simp [Ball.reset] at hmoved
    · simp [Ball.reset] at hmoved
  · rw [MoveBall_in d s (by omega)]
    simp only [(MoveBall_walls_spec d s.g_Ball).2.2.1]
    rw [if_neg (by omega)]

/-- The function `HandleBall` returns for every state. -/
theorem HandleBall_returns (d : Defines) (s : Globals) : ∃ r, HandleBall d s = some r :=
  CheckBlockCollisions_returns d _

/-- C10. When `CheckBallCollisions` reports a paddle hit after `MoveBall` and no
sample point of the ball lies in a present block, `HandleBall` returns with the
horizontal speed `(ball_center - paddle_center) / BALL_SPEED_MODIFIER` (truncated)
and the vertical speed negated, so that the ball moves up; a ball whose centre is
over the centre of the paddle gets horizontal speed 0. -/
theorem HandleBall_paddle_hit (d : Defines) (s : Globals) (_hmod : d.BALL_SPEED_MODIFIER ≠ 0)
    (hpaddle : CheckBallCollisions (MoveBall d s) = true)
    (hclear : ∀ block : Nat, (block : Int) < (MoveBall d s).g_NumBlocks →
      CheckPointInRect (collisionPoints (MoveBall d s).g_Ball).top_x
        (collisionPoints (MoveBall d s).g_Ball).top_y
        (blockAt (MoveBall d s).g_Blocks block).screen_location = false ∧
      CheckPointInRect (collisionPoints (MoveBall d s).g_Ball).bottom_x
        (collisionPoints (MoveBall d s).g_Ball).bottom_y
        (blockAt (MoveBall d s).g_Blocks block).screen_location = false ∧
      CheckPointInRect (collisionPoints (MoveBall d s).g_Ball).left_x
        (collisionPoints (MoveBall d s).g_Ball).left_y
        (blockAt (MoveBall d s).g_Blocks block).screen_location = false ∧
      CheckPointInRect (collisionPoints (MoveBall d s).g_Ball).right_x
        (collisionPoints (MoveBall d s).g_Ball).right_y
        (blockAt (MoveBall d s).g_Blocks block).screen_location = false) :
    ∃ r, HandleBall d s = some r ∧
      r.g_Ball.x_speed =
        Int.tdiv
          (((MoveBall d s).g_Ball.screen_location.x +
              Int.tdiv (MoveBall d s).g_Ball.screen_location.w 2) -
            ((MoveBall d s).g_Player.screen_location.x +
              Int.tdiv (MoveBall d s).g_Player.screen_location.w 2))
          d.BALL_SPEED_MODIFIER ∧
      r.g_Ball.y_speed = -(MoveBall d s).g_Ball.y_speed ∧
      r.g_Ball.y_speed < 0 ∧
      (0 < s.g_Ball.y_speed → r.g_Ball.y_speed = -s.g_Ball.y_speed) ∧
      ((MoveBall d s).g_Ball.screen_location.x +
          Int.tdiv (MoveBall d s).g_Ball.screen_location.w 2 =
        (MoveBall d s).g_Player.screen_location.x +
          Int.tdiv (MoveBall d s).g_Player.screen_location.w 2 →
        r.g_Ball.x_speed = 0) := by
  have hdown := CheckBallCollisions_moving_down _ hpaddle
  have hscan := CheckBlockCollisions_scan_clear d (HandleBall_paddle d (MoveBall d s)) hclear
  refine ⟨HandleBall_paddle d (MoveBall d s), ?_, rfl, rfl, ?_, ?_, ?_⟩
  · simp only [HandleBall, hpaddle, if_true, CheckBlockCollisions, hscan, Option.map_some']
    rfl
  · simp only [HandleBall_paddle]; omega
  · intro hpos
    simp only [HandleBall_paddle]
    rw [MoveBall_y_speed_of_pos d s hpos hdown]
  · intro hc
    simp only [HandleBall_paddle, hc, sub_self]
    simp

/-! ## Sample runs -/

/-- The hit on the first of two blocks, which has one hit left: the count drops to 1
and the second block is what stays. -/
theorem HandleBlockCollision_one_hit_witness :
    (HandleBlockCollision demoDefines demoTwoBlocks 0).g_NumBlocks = demoTwoBlocks.g_NumBlocks - 1 ∧
    (blockAt demoTwoBlocks.g_Blocks 0 ::
      (HandleBlockCollision demoDefines demoTwoBlocks 0).present).Perm demoTwoBlocks.present :=
  (HandleBlockCollision_one_hit demoDefines demoTwoBlocks 0 (by decide) (by decide) (by decide)
    (by decide)).2 (by decide) (by decide)

/-- C2 at a failing input. The top-centre point (120, 80) of the ball lies in both
present blocks and no other sample point lies in either; the first block has one
hit left. `CheckBlockCollisions` removes the first block, moves the second into
its slot and ends the loop: the second block keeps its 2 hits. -/
theorem CheckBlockCollisions_skips_moved_block :
    demoTwoBlocks.present = [demoBlock 40 60 1, demoBlock 120 60 2] ∧
    collisionPoints demoTwoBlocks.g_Ball =
      { left_x := 110, left_y := 90, right_x := 130, right_y := 90,
        top_x := 120, top_y := 80, bottom_x := 120, bottom_y := 100 } ∧
    (∀ b ∈ demoTwoBlocks.present,
      CheckPointInRect 120 80 b.screen_location = true ∧
      CheckPointInRect 120 100 b.screen_location = false ∧
      CheckPointInRect 110 90 b.screen_location = false ∧
      CheckPointInRect 130 90 b.screen_location = false) ∧
    (CheckBlockCollisions demoDefines demoTwoBlocks).map Globals.present =
      some [demoBlock 120 60 2] := by
  decide

/-- C3 refuted. All four sample points lie in the third block; the scan sets
`top` and `bottom` and reaches no `ChangeLevel`, and the vertical speed after
`CheckBlockCollisions` is the speed before, -10, not its negation. -/
theorem CheckBlockCollisions_top_and_bottom_cancel :
    (CheckBlockCollisions_scan demoDefines demoWedged).map
      (fun sc => (sc.top, sc.bottom, sc.reloaded)) = some (true, true, false) ∧
    demoWedged.g_Ball.y_speed = -10 ∧
    (CheckBlockCollisions demoDefines demoWedged).map (fun r => r.g_Ball.y_speed) = some (-10) := by
  decide

/-- C4 at a failing input. On level 2 of 3 the top-centre point of the ball lies in
the only block, which has one hit left. `CheckBlockCollisions` loads level 3,
whose grid has blocks with 2, 3 and 4 hits, and goes on with the loop: the second
new block is hit (3 becomes 2), and the ball ends at y = 310, one diameter below
the centre (390, 290) of the window. -/
theorem CheckBlockCollisions_reload_mid_scan :
    demoLastBlock.g_Level = 2 ∧ demoDefines.NUM_LEVELS = 3 ∧
    demoLastBlock.present = [demoBlock 120 60 1] ∧
    levelGrid demoDefines 3 =
      [(⟨40, 60, 80, 20⟩, 2), (⟨120, 60, 80, 20⟩, 3), (⟨40, 80, 80, 20⟩, 4)] ∧
    (CheckBlockCollisions demoDefines demoLastBlock).map
      (fun r => (r.g_Level, r.present.map Block.data, r.g_Ball.screen_location,
        r.g_Ball.x_speed, r.g_Ball.y_speed)) =
      some (3, [(⟨40, 60, 80, 20⟩, 2), (⟨120, 60, 80, 20⟩, 2), (⟨40, 80, 80, 20⟩, 4)],
        ⟨390, 310, 20, 20⟩, 0, 0) := by
  decide

/-- The last block of the last level is hit: GameWon alone is on the stack and the
level is 1 again. -/
theorem HandleBlockCollision_last_block_wins_witness :
    (HandleBlockCollision demoDefines demoFinalBlock 0).g_StateStack.entries =
      [⟨some StateFn.GameWon⟩] ∧
    (HandleBlockCollision demoDefines demoFinalBlock 0).g_Level = 1 :=
  have h := HandleBlockCollision_last_block_wins demoDefines demoFinalBlock (by decide)
    (by decide) (by decide) (by decide) (by decide)
  ⟨h.1, h.2.1⟩

/-- The ball falls out with one life left: level 1 and 5 lives afterwards. -/
theorem MoveBall_last_life_resets_witness :
    (MoveBall demoDefines (demoFalling 1)).g_Level = 1 ∧
    (MoveBall demoDefines (demoFalling 1)).g_Lives = 5 :=
  have h := MoveBall_last_life_resets demoDefines (demoFalling 1) (by decide) (by decide)
    (by decide)
  ⟨h.1, h.2.1⟩

/-- C7 refuted. With one life left and the ball falling to y = 600, the stack after
`MoveBall` holds GameLost alone: what is beneath it is empty, not the pair
Exit, Menu. -/
theorem MoveBall_last_life_nothing_beneath :
    (demoFalling 1).g_Lives = 1 ∧
    (demoFalling 1).g_Ball.screen_location.y + (demoFalling 1).g_Ball.y_speed ≥
      demoDefines.WINDOW_HEIGHT ∧
    (MoveBall demoDefines (demoFalling 1)).g_StateStack.entries = [⟨some StateFn.GameLost⟩] ∧
    (MoveBall demoDefines (demoFalling 1)).g_StateStack.entries.dropLast ≠
      [⟨some StateFn.Exit⟩, ⟨some StateFn.Menu⟩] := by
  decide

/-- The ball falls out with one life left: GameLost is on top and the stack has one
entry. -/
theorem MoveBall_last_life_stack_witness :
    (MoveBall demoDefines (demoFalling 1)).g_StateStack.top = ⟨some StateFn.GameLost⟩ ∧
    (MoveBall demoDefines (demoFalling 1)).g_StateStack.stack_size = 1 :=
  (MoveBall_last_life_stack demoDefines (demoFalling 1) (by decide) (by decide) (by decide)).2

/-- The ball falls out with three lives left: two lives remain and the stack is as
it was. -/
theorem MoveBall_life_lost_witness :
    (MoveBall demoDefines (demoFalling 3)).g_Lives = 2 ∧
    (MoveBall demoDefines (demoFalling 3)).g_StateStack = demoStack :=
  have h := (MoveBall_life_lost demoDefines (demoFalling 3)).1 (by decide) (by decide)
  ⟨h.1, h.2.2.2.2.2.1⟩

/-- The ball moves left past the left wall: at x = -5 its speed -10 turns into 10. -/
theorem MoveBall_side_walls_witness :
    (MoveBall demoDefines demoAtWall).g_Ball.screen_location.x = -5 ∧
    (MoveBall demoDefines demoAtWall).g_Ball.x_speed = 10 :=
  have h := MoveBall_side_walls demoDefines demoAtWall (by decide)
  ⟨h.2.2.2.trans (by decide), h.1 (by decide)⟩

/-- The ball lands on the paddle 12 to the right of its centre: the horizontal speed
becomes 12 / 5 = 2 and the vertical speed 10 becomes -10. -/
theorem HandleBall_paddle_hit_witness :
    ∃ r, HandleBall demoDefines demoOverPaddle = some r ∧
      r.g_Ball.x_speed = 2 ∧ r.g_Ball.y_speed = -10 := by
  obtain ⟨r, hr, hx, hy, -, -, -⟩ := HandleBall_paddle_hit demoDefines demoOverPaddle
    (by decide) (by decide) (by
      intro block hb
      have h2 : block = 0 ∨ block = 1 := by
        have : (MoveBall demoDefines demoOverPaddle).g_NumBlocks = 2 := by decide
        rw [this] at hb
        omega
      rcases h2 with rfl | rfl <;> decide)
  exact ⟨r, hr, hx.trans (by decide), hy.trans (by decide)⟩

/-! ## CheckBallCollisions -/

/-- C11. `CheckBallCollisions` returns true exactly when the ball moves down, its
bottom edge lies in the vertical band of the paddle and the horizontal extents of
ball and paddle overlap (bounds included); it returns false for a ball that stands
still or moves up.  It is a function of the state to a truth value: it has no
state to return. -/
theorem CheckBallCollisions_iff (s : Globals) :
    (CheckBallCollisions s = true ↔
      0 < s.g_Ball.y_speed ∧
      s.g_Player.screen_location.y ≤ s.g_Ball.screen_location.y + s.g_Ball.screen_location.h ∧
      s.g_Ball.screen_location.y + s.g_Ball.screen_location.h ≤
        s.g_Player.screen_location.y + s.g_Player.screen_location.h ∧
      s.g_Ball.screen_location.x ≤ s.g_Player.screen_location.x + s.g_Player.screen_location.w ∧
      s.g_Player.screen_location.x ≤ s.g_Ball.screen_location.x + s.g_Ball.screen_location.w) ∧
    (s.g_Ball.y_speed ≤ 0 → CheckBallCollisions s = false) := by
  unfold CheckBallCollisions
  simp only
  constructor
  · constructor
    · intro h
      split_ifs at h with h1 h2
      exact ⟨h1.1, h1.2.1, h1.2.2, h2.1, h2.2⟩
    · rintro ⟨h1, h2, h3, h4, h5⟩
      rw [if_pos ⟨h1, h2, h3⟩, if_pos ⟨h4, h5⟩]
  · intro h
    rw [if_neg (by intro hc; exact absurd hc.1 (by omega))]

/-- The ball that lands on the paddle is reported, a ball that stands still is not. -/
theorem CheckBallCollisions_iff_witness :
    CheckBallCollisions (MoveBall demoDefines demoOverPaddle) = true ∧
    CheckBallCollisions { demoOverPaddle with g_Ball := demoBall 402 535 0 0 } = false :=
  ⟨(CheckBallCollisions_iff (MoveBall demoDefines demoOverPaddle)).1.mpr (by decide),
   (CheckBallCollisions_iff _).2 (by decide)⟩

/-! ## StateStack -/

theorem StateStack.top_of_pos (st : StateStack) (h : st.stack_size ≠ 0) :
    st.top = st.pointers.getD (st.stack_size - 1) ⟨none⟩ := by
  simp [StateStack.top, StateStack.empty, h]

/-- A stack whose top is a state function is not empty and holds that function in
the slot below `stack_size`, which is a slot of the array. -/
theorem StateStack.of_top_eq (st : StateStack) (fn : StateFn) (h : st.top = ⟨some fn⟩) :
    st.stack_size ≠ 0 ∧ st.stack_size - 1 < st.pointers.length ∧
      st.pointers[st.stack_size - 1]? = some ⟨some fn⟩ := by
  have h0 : st.stack_size ≠ 0 := by
    intro hc
    simp [StateStack.top, StateStack.empty, hc] at h
  rw [StateStack.top_of_pos st h0, List.getD_eq_getElem?_getD] at h
  cases hg : st.pointers[st.stack_size - 1]? with
  | none => rw [hg] at h; simp at h
  | some x =>
    rw [hg] at h
    simp only [Option.getD_some] at h
    refine ⟨h0, ?_, by rw [h]⟩
    exact (List.getElem?_eq_some_iff.mp hg).1

theorem StateStack.entries_pop (st : StateStack) (h : st.stack_size ≤ st.pointers.length) :
    st.pop.entries = st.entries.dropLast := by
  obtain ⟨p, n⟩ := st
  cases n with
  | zero => simp [StateStack.pop, StateStack.entries, StateStack.empty]
  | succ n =>
    simp only [StateStack.pop, StateStack.entries, StateStack.empty] at h ⊢
    simp only [Nat.add_one_ne_zero, beq_iff_eq, Bool.not_false, if_true, Nat.add_sub_cancel,
      decide_False]
    rw [List.dropLast_eq_take, List.length_take, Nat.min_eq_left h, List.take_take]
    simp

theorem StateStack.entries_push (st : StateStack) (ptr : StateStruct)
    (h : st.stack_size < MAX_STACK_SIZE) (hl : st.stack_size < st.pointers.length) :
    (st.push ptr).entries = st.entries ++ [ptr] ∧
      (st.push ptr).pointers.length = st.pointers.length ∧
      (st.push ptr).stack_size = st.stack_size + 1 := by
  unfold StateStack.push StateStack.entries
  rw [if_pos h]
  simp only [List.length_set, and_self, and_true]
  rw [List.take_add_one, List.set_take, List.set_eq_of_length_le (by simp)]
  simp [List.getElem?_set, hl]

theorem StateStack.entries_length (st : StateStack) (h : st.stack_size ≤ st.pointers.length) :
    st.entries.length = st.stack_size := by
  simp [StateStack.entries, h]

/-- The member `top` returns the last of the live entries. -/
theorem StateStack.top_eq_getLast (st : StateStack) (h : st.stack_size ≤ st.pointers.length)
    (h0 : st.stack_size ≠ 0) : st.entries.getLast? = some st.top := by
  rw [StateStack.top_of_pos st h0]
  unfold StateStack.entries
  have hl : st.stack_size - 1 < st.pointers.length := by omega
  rw [List.getLast?_eq_getElem?, List.length_take, Nat.min_eq_left h, List.getElem?_take,
    if_pos (by omega), List.getElem?_eq_getElem hl, List.getD_eq_getElem _ _ hl]

/-- C17. Operations out of range do nothing: `pop` on an empty stack leaves the
stack as it is, empty; `push` on a stack that holds `MAX_STACK_SIZE` entries leaves
the stack as it is, so the size, every stored entry and `top()` are unchanged. -/
theorem StateStack.out_of_range_is_noop (st : StateStack) (ptr : StateStruct) :
    (st.empty = true → st.pop = st ∧ st.pop.empty = true) ∧
    (st.stack_size = MAX_STACK_SIZE →
      st.push ptr = st ∧ (st.push ptr).stack_size = st.stack_size ∧
      (st.push ptr).pointers = st.pointers ∧ (st.push ptr).entries = st.entries ∧
      (st.push ptr).top = st.top) := by
  constructor
  · intro h
    have : st.pop = st := by simp [StateStack.pop, h]
    rw [this]
    exact ⟨rfl, h⟩
  · intro h
    have : st.push ptr = st := by simp [StateStack.push, h]
    rw [this]
    exact ⟨rfl, rfl, rfl, rfl, rfl⟩

/-- A `pop` on the fresh stack and a `push` on a stack of 16 entries change nothing. -/
theorem StateStack.out_of_range_is_noop_witness :
    StateStack.ctor.pop = StateStack.ctor ∧
    demoFullStack.push ⟨some StateFn.Game⟩ = demoFullStack ∧
    (demoFullStack.push ⟨some StateFn.Game⟩).top = ⟨some StateFn.Menu⟩ :=
  have h := StateStack.out_of_range_is_noop StateStack.ctor ⟨none⟩
  have h2 := (StateStack.out_of_range_is_noop demoFullStack ⟨some StateFn.Game⟩).2 (by decide)
  ⟨(h.1 (by decide)).1, h2.1, h2.2.2.2.2.trans (by decide)⟩

/-- C18. The stack is last-in first-out: on a stack with fewer than `MAX_STACK_SIZE`
entries, `push(s)` leaves a stack that is not empty, whose `top()` is `s` and whose
entries are the old ones with `s` added last; a `pop()` after it restores the
entries and the size; and `top()` of a stack that is not empty is the last entry. -/
theorem StateStack.push_pop_lifo (st : StateStack) (ptr : StateStruct)
    (hsize : st.stack_size < MAX_STACK_SIZE) (hlen : st.pointers.length = MAX_STACK_SIZE) :
    (st.push ptr).empty = false ∧
    (st.push ptr).top = ptr ∧
    (st.push ptr).entries = st.entries ++ [ptr] ∧
    (st.push ptr).pop.entries = st.entries ∧
    (st.push ptr).pop.stack_size = st.stack_size ∧
    (st.empty = false → st.entries.getLast? = some st.top) := by
  have hl : st.stack_size < st.pointers.length := by rw [hlen]; exact hsize
  obtain ⟨he, hpl, hps⟩ := StateStack.entries_push st ptr hsize hl
  have hne : (st.push ptr).stack_size ≠ 0 := by rw [hps]; omega
  have hwf : (st.push ptr).stack_size ≤ (st.push ptr).pointers.length := by
    rw [hps, hpl]; omega
  have htop := StateStack.top_eq_getLast (st.push ptr) hwf hne
  rw [he, List.getLast?_concat] at htop
  refine ⟨by simp [StateStack.empty, hne], (Option.some.inj htop).symm, he, ?_, ?_, ?_⟩
  · rw [StateStack.entries_pop _ hwf, he, List.dropLast_concat]
  · simp [StateStack.pop, StateStack.empty, hne, hps]
  · intro h0
    exact StateStack.top_eq_getLast st (le_of_lt hl) (by simpa [StateStack.empty] using h0)

/-- Game is pushed on the stack Exit, Menu: it is on top, and a pop gives Exit, Menu
back. -/
theorem StateStack.push_pop_lifo_witness :
    ((StateStack.ctor.push ⟨some StateFn.Exit⟩).push ⟨some StateFn.Menu⟩).stack_size = 2 ∧
    demoStack.top = ⟨some StateFn.Game⟩ ∧
    demoStack.pop.entries = [⟨some StateFn.Exit⟩, ⟨some StateFn.Menu⟩] :=
  have h := StateStack.push_pop_lifo
    ((StateStack.ctor.push ⟨some StateFn.Exit⟩).push ⟨some StateFn.Menu⟩) ⟨some StateFn.Game⟩
    (by decide) (by decide)
  ⟨by decide, h.2.1, h.2.2.2.1.trans (by decide)⟩

/-! ## The input handlers and the stack -/

/-- Popping a stack whose top is `fn` and pushing `fn` gives the stack back. -/
theorem StateStack.pop_push_top (st : StateStack) (fn : StateFn) (h : st.top = ⟨some fn⟩)
    (hwf : st.stack_size ≤ MAX_STACK_SIZE) : st.pop.push ⟨some fn⟩ = st := by
  obtain ⟨h0, hl, hg⟩ := StateStack.of_top_eq st fn h
  obtain ⟨p, n⟩ := st
  cases n with
  | zero => exact absurd rfl h0
  | succ n =>
    simp only [Nat.add_sub_cancel] at hl hg
    have hn : n < MAX_STACK_SIZE := by simpa using hwf
    have hpop : ({ pointers := p, stack_size := n + 1 } : StateStack).pop =
        { pointers := p, stack_size := n } := rfl
    rw [hpop]
    simp only [StateStack.push, hn, if_true]
    congr 1
    apply List.ext_getElem?
    intro i
    rw [List.getElem?_set]
    split_ifs with h1
    · subst h1; exact hg.symm
    · rfl

/-- C15. With Exit on top of the stack, the N key in `HandleExitInput` leaves the
stack that popping the top and pushing Exit and then Menu gives: below the
capacity, the old entries with Menu added on top of Exit.  The Y key pops one
entry, which empties a stack whose only entry was Exit. -/
theorem HandleExitInput_decline_confirm (s : Globals)
    (htop : s.g_StateStack.top = ⟨some StateFn.Exit⟩)
    (hlen : s.g_StateStack.pointers.length = MAX_STACK_SIZE) :
    (HandleExitInput (some (SDL_Event.SDL_KEYDOWN SDLKey.SDLK_n)) s).g_StateStack =
      (s.g_StateStack.pop.push ⟨some StateFn.Exit⟩).push ⟨some StateFn.Menu⟩ ∧
    (s.g_StateStack.stack_size < MAX_STACK_SIZE →
      (HandleExitInput (some (SDL_Event.SDL_KEYDOWN SDLKey.SDLK_n)) s).g_StateStack.entries =
        s.g_StateStack.entries.dropLast ++ [⟨some StateFn.Exit⟩, ⟨some StateFn.Menu⟩]) ∧
    (HandleExitInput (some (SDL_Event.SDL_KEYDOWN SDLKey.SDLK_y)) s).g_StateStack =
      s.g_StateStack.pop ∧
    (HandleExitInput (some (SDL_Event.SDL_KEYDOWN SDLKey.SDLK_y)) s).g_StateStack.entries =
      s.g_StateStack.entries.dropLast ∧
    (s.g_StateStack.stack_size = 1 →
      (HandleExitInput (some (SDL_Event.SDL_KEYDOWN SDLKey.SDLK_y)) s).g_StateStack.empty
        = true) := by
  obtain ⟨h0, hl, hg⟩ := StateStack.of_top_eq _ _ htop
  have hle : s.g_StateStack.stack_size ≤ s.g_StateStack.pointers.length := by omega
  have hwf : s.g_StateStack.stack_size ≤ MAX_STACK_SIZE := by omega
  have hlast := StateStack.top_eq_getLast _ hle h0
  rw [htop] at hlast
  have hpp := StateStack.pop_push_top _ _ htop hwf
  refine ⟨?_, ?_, rfl, ?_, ?_⟩
  · rw [hpp]; rfl
  · intro hlt
    have hsplit : s.g_StateStack.entries =
        s.g_StateStack.entries.dropLast ++ [⟨some StateFn.Exit⟩] := by
      have := List.dropLast_append_getLast? _ hlast
      exact this.symm
    have hpush := (StateStack.entries_push s.g_StateStack ⟨some StateFn.Menu⟩ hlt
      (by omega)).1
    show (s.g_StateStack.push ⟨some StateFn.Menu⟩).entries = _
    rw [hpush]
    conv_lhs => rw [hsplit]
    simp
  · exact StateStack.entries_pop _ hle
  · intro h1
    show s.g_StateStack.pop.empty = true
    simp [StateStack.pop, StateStack.empty, h1]

/-- On the stack that holds Exit alone, N gives Exit, Menu and Y gives the empty
stack. -/
theorem HandleExitInput_decline_confirm_witness :
    (HandleExitInput (some (SDL_Event.SDL_KEYDOWN SDLKey.SDLK_n))
      { demoOverPaddle with g_StateStack := demoStack.pop.pop }).g_StateStack.entries =
      [⟨some StateFn.Exit⟩, ⟨some StateFn.Menu⟩] ∧
    (HandleExitInput (some (SDL_Event.SDL_KEYDOWN SDLKey.SDLK_y))
      { demoOverPaddle with g_StateStack := demoStack.pop.pop }).g_StateStack.empty = true :=
  have h := HandleExitInput_decline_confirm
    { demoOverPaddle with g_StateStack := demoStack.pop.pop } (by decide) (by decide)
  ⟨(h.2.1 (by decide)).trans (by decide), h.2.2.2.2 (by decide)⟩

/-- A stack on an array of `MAX_STACK_SIZE` slots whose entries are one state has
size 1. -/
theorem StateStack.size_of_entries_singleton (st : StateStack) (x : StateStruct)
    (hlen : st.pointers.length = MAX_STACK_SIZE) (h : st.entries = [x]) : st.stack_size = 1 := by
  have := congrArg List.length h
  simp only [StateStack.entries, List.length_take, hlen, List.length_singleton] at this
  have h16 : MAX_STACK_SIZE = 16 := rfl
  omega

/-- C16. On the stack that holds GameWon alone or GameLost alone, the N key in
`HandleWinLoseInput` leaves the stack Exit, Menu (bottom to top), and the Y key,
escape and window-close leave the empty stack. -/
theorem HandleWinLoseInput_after_transition (s : Globals)
    (hlen : s.g_StateStack.pointers.length = MAX_STACK_SIZE)
    (h : s.g_StateStack.entries = [⟨some StateFn.GameWon⟩] ∨
      s.g_StateStack.entries = [⟨some StateFn.GameLost⟩]) :
    (HandleWinLoseInput (some (SDL_Event.SDL_KEYDOWN SDLKey.SDLK_n)) s).g_StateStack.entries =
      [⟨some StateFn.Exit⟩, ⟨some StateFn.Menu⟩] ∧
    (HandleWinLoseInput (some (SDL_Event.SDL_KEYDOWN SDLKey.SDLK_y)) s).g_StateStack.entries
      = [] ∧
    (HandleWinLoseInput (some (SDL_Event.SDL_KEYDOWN SDLKey.SDLK_ESCAPE)) s).g_StateStack.entries
      = [] ∧
    (HandleWinLoseInput (some SDL_Event.SDL_QUIT) s).g_StateStack.entries = [] ∧
    (HandleWinLoseInput (some (SDL_Event.SDL_KEYDOWN SDLKey.SDLK_y)) s).g_StateStack.empty
      = true ∧
    (HandleWinLoseInput (some (SDL_Event.SDL_KEYDOWN SDLKey.SDLK_ESCAPE)) s).g_StateStack.empty
      = true ∧
    (HandleWinLoseInput (some SDL_Event.SDL_QUIT) s).g_StateStack.empty = true := by
  have h1 : s.g_StateStack.stack_size = 1 := by
    rcases h with h | h
    · exact StateStack.size_of_entries_singleton _ _ hlen h
    · exact StateStack.size_of_entries_singleton _ _ hlen h
  have hpop : s.g_StateStack.pop = { s.g_StateStack with stack_size := 0 } := by
    simp [StateStack.pop, StateStack.empty, h1]
  have hclear : s.g_StateStack.clear = { s.g_StateStack with stack_size := 0 } :=
    StateStack.clear_eq _
  have hp : 0 < s.g_StateStack.pointers.length := by rw [hlen]; decide
  have h16 : s.g_StateStack.pointers.length = 16 := hlen
  refine ⟨?_, ?_, ?_, ?_, ?_, ?_, ?_⟩
  · show ((s.g_StateStack.pop.push ⟨some StateFn.Exit⟩).push ⟨some StateFn.Menu⟩).entries = _
    rw [hpop]
    obtain ⟨e1, l1, s1⟩ := StateStack.entries_push { s.g_StateStack with stack_size := 0 }
      ⟨some StateFn.Exit⟩ (by show 0 < MAX_STACK_SIZE; decide) hp
    obtain ⟨e2, -, -⟩ := StateStack.entries_push
      (StateStack.push { s.g_StateStack with stack_size := 0 } ⟨some StateFn.Exit⟩)
      ⟨some StateFn.Menu⟩ (by rw [s1]; show 0 + 1 < MAX_STACK_SIZE; decide)
      (by rw [s1, l1]; show 0 + 1 < s.g_StateStack.pointers.length; omega)
    rw [e2, e1]
    simp [StateStack.entries]
  · show s.g_StateStack.pop.entries = []
    rw [hpop]; simp [StateStack.entries]
  · show s.g_StateStack.pop.entries = []
    rw [hpop]; simp [StateStack.entries]
  · show s.g_StateStack.clear.entries = []
    rw [hclear]; simp [StateStack.entries]
  · show s.g_StateStack.pop.empty = true
    rw [hpop]; rfl
  · show s.g_StateStack.pop.empty = true
    rw [hpop]; rfl
  · show s.g_StateStack.clear.empty = true
    exact StateStack.clear_empty _

/-- After the last life is lost the stack holds GameLost alone; N then gives Exit,
Menu and Y gives the empty stack. -/
theorem HandleWinLoseInput_after_transition_witness :
    (HandleWinLoseInput (some (SDL_Event.SDL_KEYDOWN SDLKey.SDLK_n))
      (MoveBall demoDefines (demoFalling 1))).g_StateStack.entries =
      [⟨some StateFn.Exit⟩, ⟨some StateFn.Menu⟩] ∧
    (HandleWinLoseInput (some (SDL_Event.SDL_KEYDOWN SDLKey.SDLK_y))
      (MoveBall demoDefines (demoFalling 1))).g_StateStack.empty = true :=
  have h := HandleWinLoseInput_after_transition (MoveBall demoDefines (demoFalling 1))
    (by decide) (by decide)
  ⟨h.1, h.2.2.2.2.1⟩

/-- C14 refuted. On the stack Exit, Menu that `Init` leaves, the Q key leaves Exit on
the stack, which is not empty; and on a stack of 16 entries with Menu on top the G
key pushes nothing. -/
theorem HandleMenuInput_quit_key_pops_once :
    (Init demoDefines 0).g_StateStack.top = ⟨some StateFn.Menu⟩ ∧
    (HandleMenuInput (some (SDL_Event.SDL_KEYDOWN SDLKey.SDLK_q))
      (Init demoDefines 0)).g_StateStack.entries = [⟨some StateFn.Exit⟩] ∧
    (HandleMenuInput (some (SDL_Event.SDL_KEYDOWN SDLKey.SDLK_q))
      (Init demoDefines 0)).g_StateStack.empty = false ∧
    demoFullStack.top = ⟨some StateFn.Menu⟩ ∧
    (HandleMenuInput (some (SDL_Event.SDL_KEYDOWN SDLKey.SDLK_g))
      { Init demoDefines 0 with g_StateStack := demoFullStack }).g_StateStack = demoFullStack := by
  decide

/-- C14, as amended. With Menu on top of the stack, `HandleMenuInput` empties the
stack on window-close; on the Q key it pops the top entry only, as on escape, so
that the entries beneath stay; on the G key it pushes Game on top of the unchanged
entries when the stack holds fewer than `MAX_STACK_SIZE` entries. -/
theorem HandleMenuInput_on_menu (s : Globals)
    (htop : s.g_StateStack.top = ⟨some StateFn.Menu⟩)
    (hlen : s.g_StateStack.pointers.length = MAX_STACK_SIZE) :
    (HandleMenuInput (some SDL_Event.SDL_QUIT) s).g_StateStack.entries = [] ∧
    (HandleMenuInput (some SDL_Event.SDL_QUIT) s).g_StateStack.empty = true ∧
    (HandleMenuInput (some (SDL_Event.SDL_KEYDOWN SDLKey.SDLK_q)) s).g_StateStack.entries =
      s.g_StateStack.entries.dropLast ∧
    (HandleMenuInput (some (SDL_Event.SDL_KEYDOWN SDLKey.SDLK_ESCAPE)) s).g_StateStack.entries =
      s.g_StateStack.entries.dropLast ∧
    s.g_StateStack.entries = s.g_StateStack.entries.dropLast ++ [⟨some StateFn.Menu⟩] ∧
    (s.g_StateStack.stack_size < MAX_STACK_SIZE →
      (HandleMenuInput (some (SDL_Event.SDL_KEYDOWN SDLKey.SDLK_g)) s).g_StateStack.entries =
        s.g_StateStack.entries ++ [⟨some StateFn.Game⟩]) := by
  obtain ⟨h0, hl, hg⟩ := StateStack.of_top_eq _ _ htop
  have hle : s.g_StateStack.stack_size ≤ s.g_StateStack.pointers.length := by omega
  have hlast := StateStack.top_eq_getLast _ hle h0
  rw [htop] at hlast
  refine ⟨?_, ?_, ?_, ?_, ?_, ?_⟩
  · show s.g_StateStack.clear.entries = []
    rw [StateStack.clear_eq]; simp [StateStack.entries]
  · exact StateStack.clear_empty _
  · exact StateStack.entries_pop _ hle
  · exact StateStack.entries_pop _ hle
  · exact (List.dropLast_append_getLast? _ hlast).symm
  · intro hlt
    exact (StateStack.entries_push s.g_StateStack ⟨some StateFn.Game⟩ hlt (by omega)).1

/-- On the stack Exit, Menu that `Init` leaves, window-close gives the empty stack,
Q gives Exit alone and G gives Exit, Menu, Game. -/
theorem HandleMenuInput_on_menu_witness :
    (HandleMenuInput (some SDL_Event.SDL_QUIT) (Init demoDefines 0)).g_StateStack.entries = [] ∧
    (HandleMenuInput (some (SDL_Event.SDL_KEYDOWN SDLKey.SDLK_q))
      (Init demoDefines 0)).g_StateStack.entries = [⟨some StateFn.Exit⟩] ∧
    (HandleMenuInput (some (SDL_Event.SDL_KEYDOWN SDLKey.SDLK_g))
      (Init demoDefines 0)).g_StateStack.entries =
      [⟨some StateFn.Exit⟩, ⟨some StateFn.Menu⟩, ⟨some StateFn.Game⟩] :=
  have h := HandleMenuInput_on_menu (Init demoDefines 0) (by decide) (by decide)
  ⟨h.1, h.2.2.1.trans (by decide), (h.2.2.2.2.2 (by decide)).trans (by decide)⟩

/-! ## The paddle -/

/-- With `PLAYER_SPEED` not negative and a `WINDOW_WIDTH` that fits 16 bits,
`HandleGameInput` keeps the left edge of the paddle between 0 and `WINDOW_WIDTH`;
the width of the paddle is not looked at. -/
theorem HandleGameInput_left_edge (d : Defines) (ev : Option SDL_Event) (s : Globals)
    (hspeed : 0 ≤ d.PLAYER_SPEED) (hW : d.WINDOW_WIDTH ≤ 32767)
    (h0 : 0 ≤ s.g_Player.screen_location.x)
    (h1 : s.g_Player.screen_location.x ≤ d.WINDOW_WIDTH) :
    0 ≤ (HandleGameInput d ev s).g_Player.screen_location.x ∧
      (HandleGameInput d ev s).g_Player.screen_location.x ≤ d.WINDOW_WIDTH := by
  have key : ∀ g : Globals, 0 ≤ g.g_Player.screen_location.x →
      g.g_Player.screen_location.x ≤ d.WINDOW_WIDTH →
      0 ≤ (HandleGameInput_move d g).g_Player.screen_location.x ∧
        (HandleGameInput_move d g).g_Player.screen_location.x ≤ d.WINDOW_WIDTH := by
    intro g g0 g1
    unfold HandleGameInput_move
    simp only [Sint16]
    split_ifs <;> constructor <;> first | omega | (simp only; omega)
  unfold HandleGameInput
  split
  · exact ⟨h0, h1⟩
  · split_ifs
    · exact ⟨h0, h1⟩
    all_goals exact key _ h0 h1
  · apply key <;> (split_ifs <;> assumption)
  · exact key s h0 h1

/-! ## The contents of the stack along a run -/

theorem StateStack.pointers_length_pop (st : StateStack) :
    st.pop.pointers.length = st.pointers.length := by
  unfold StateStack.pop; split_ifs <;> rfl

theorem StateStack.pointers_length_push (st : StateStack) (ptr : StateStruct) :
    (st.push ptr).pointers.length = st.pointers.length := by
  unfold StateStack.push; split_ifs <;> simp

theorem StateStack.pointers_length_clear (st : StateStack) :
    st.clear.pointers.length = st.pointers.length := by
  rw [StateStack.clear_eq]

/-- A stack of one of the six shapes has as many entries as its size says, at most 3. -/
theorem StateStack.shape_ok.size {st : StateStack} (h : st.shape_ok) :
    st.stack_size = st.entries.length ∧ st.stack_size ≤ 3 := by
  obtain ⟨hlen, hm⟩ := h
  have hl : st.entries.length ≤ 3 := by
    simp only [stackShapes, List.mem_cons, List.mem_singleton, List.not_mem_nil, or_false] at hm
    rcases hm with h | h | h | h | h | h <;> rw [h] <;> simp
  have h16 : st.pointers.length = 16 := hlen
  simp only [StateStack.entries, List.length_take, h16] at hl ⊢
  omega

theorem StateStack.shape_ok.size_le_length {st : StateStack} (h : st.shape_ok) :
    st.stack_size ≤ st.pointers.length := by
  have h3 := h.size.2
  have h16 : st.pointers.length = 16 := h.1
  omega

theorem StateStack.shape_ok.pop {st : StateStack} (h : st.shape_ok) : st.pop.shape_ok := by
  obtain ⟨hs, _⟩ := h.size
  obtain ⟨hlen, hm⟩ := h
  have h16 : st.pointers.length = 16 := hlen
  refine ⟨by rw [StateStack.pointers_length_pop]; exact hlen, ?_⟩
  rw [StateStack.entries_pop _ (by omega)]
  simp only [stackShapes, List.mem_cons, List.mem_singleton, List.not_mem_nil, or_false] at hm ⊢
  rcases hm with h | h | h | h | h | h <;> rw [h] <;> simp

theorem StateStack.shape_ok.clear {st : StateStack} (h : st.shape_ok) : st.clear.shape_ok := by
  refine ⟨by rw [StateStack.pointers_length_clear]; exact h.1, ?_⟩
  rw [StateStack.clear_eq]
  simp [StateStack.entries, stackShapes]

theorem StateStack.shape_ok.clear_push_won {st : StateStack} (h : st.shape_ok) :
    (st.clear.push ⟨some StateFn.GameWon⟩).shape_ok := by
  refine ⟨by rw [StateStack.pointers_length_push, StateStack.pointers_length_clear]; exact h.1, ?_⟩
  rw [(StateStack.clear_push st _ h.1).1]
  simp [stackShapes]

theorem StateStack.shape_ok.clear_push_lost {st : StateStack} (h : st.shape_ok) :
    (st.clear.push ⟨some StateFn.GameLost⟩).shape_ok := by
  refine ⟨by rw [StateStack.pointers_length_push, StateStack.pointers_length_clear]; exact h.1, ?_⟩
  rw [(StateStack.clear_push st _ h.1).1]
  simp [stackShapes]

/-- Pushing `ptr` on a stack of one of the six shapes adds it to the entries. -/
theorem StateStack.shape_ok.push_entries {st : StateStack} (h : st.shape_ok)
    (ptr : StateStruct) : (st.push ptr).entries = st.entries ++ [ptr] := by
  obtain ⟨hs, h3⟩ := h.size
  have h16 : st.pointers.length = 16 := h.1
  have hM : MAX_STACK_SIZE = 16 := rfl
  exact (StateStack.entries_push st ptr (by omega) (by omega)).1

/-- The state on top of a stack of one of the six shapes is the last entry. -/
theorem StateStack.shape_ok.top_eq {st : StateStack} (h : st.shape_ok) :
    st.top = st.entries.getLast?.getD ⟨none⟩ := by
  obtain ⟨hs, h3⟩ := h.size
  have h16 : st.pointers.length = 16 := h.1
  by_cases h0 : st.stack_size = 0
  · have he : st.entries = [] := List.length_eq_zero.mp (by omega)
    simp [StateStack.top, StateStack.empty, h0, he]
  · rw [StateStack.top_eq_getLast st (by omega) h0]
    rfl

theorem HandleLoss_stack (d : Defines) (s : Globals) :
    (HandleLoss d s).g_StateStack = s.g_StateStack.clear.push ⟨some StateFn.GameLost⟩ := by
  have hf := InitBlocks_outside d
    { s with
      g_StateStack := s.g_StateStack.clear
      g_Ball := s.g_Ball.reset d
      g_Lives := d.NUM_LIVES
      g_NumBlocks := 0
      g_Level := 1 }
  have hS := congrArg Globals.g_StateStack hf
  simp only [Globals.outside_blocks] at hS
  simp only [HandleLoss, hS]

theorem HandleWin_stack (d : Defines) (s : Globals) :
    (HandleWin d s).g_StateStack = s.g_StateStack.clear.push ⟨some StateFn.GameWon⟩ := by
  have hf := InitBlocks_outside d
    { s with
      g_StateStack := s.g_StateStack.clear
      g_Ball := s.g_Ball.reset d
      g_Lives := d.NUM_LIVES
      g_NumBlocks := 0
      g_Level := 1 }
  have hS := congrArg Globals.g_StateStack hf
  simp only [Globals.outside_blocks] at hS
  simp only [HandleWin, hS]

theorem ChangeLevel_stack (d : Defines) (s : Globals) :
    (ChangeLevel d s).g_StateStack = s.g_StateStack ∨
      (ChangeLevel d s).g_StateStack = s.g_StateStack.clear.push ⟨some StateFn.GameWon⟩ := by
  unfold ChangeLevel
  simp only
  split_ifs
  · right; rw [HandleWin_stack]
  · left
    have hf := InitBlocks_outside d
      { s with g_Level := s.g_Level + 1, g_Ball := s.g_Ball.reset d, g_NumBlocks := 0 }
    have hS := congrArg Globals.g_StateStack hf
    simpa [Globals.outside_blocks] using hS

theorem HandleBlockCollision_stack (d : Defines) (s : Globals) (index : Int) :
    (HandleBlockCollision d s index).g_StateStack = s.g_StateStack ∨
      (HandleBlockCollision d s index).g_StateStack =
        s.g_StateStack.clear.push ⟨some StateFn.GameWon⟩ := by
  unfold HandleBlockCollision
  simp only
  split_ifs
  · exact ChangeLevel_stack d _
  · left; rfl
  · left; rfl

theorem MoveBall_stack (d : Defines) (s : Globals) :
    (MoveBall d s).g_StateStack = s.g_StateStack ∨
      (MoveBall d s).g_StateStack = s.g_StateStack.clear.push ⟨some StateFn.GameLost⟩ := by
  unfold MoveBall
  simp only
  split_ifs
  · right; rw [HandleLoss_stack]
  · left; rfl
  · left; rfl

/-- The function `CheckBlockCollisions` leaves a stack of one of the six shapes. -/
theorem CheckBlockCollisions_shape (d : Defines) (s r : Globals)
    (h : CheckBlockCollisions d s = some r) (hs : s.g_StateStack.shape_ok) :
    r.g_StateStack.shape_ok := by
  unfold CheckBlockCollisions at h
  cases hsc : CheckBlockCollisions_scan d s with
  | none => rw [hsc] at h; simp at h
  | some sc =>
    rw [hsc] at h
    simp only [Option.map_some', Option.some.injEq] at h
    subst h
    have := CheckBlockCollisions_loop_keeps d (collisionPoints s.g_Ball)
      (fun c => c.game.g_StateStack.shape_ok) ?_ _ _ _ _ hsc hs
    · exact this
    · intro block c hc _
      refine CheckBlockCollisions_body_keeps d _ block
        (fun c => c.game.g_StateStack.shape_ok) ?_ ?_ c hc
      · intro c hc
        simp only [CheckBlockCollisions_hit]
        rcases HandleBlockCollision_stack d c.game block with h | h
        · rw [h]; exact hc
        · rw [h]; exact hc.clear_push_won
      · intro c t b l r hc
        exact hc

/-- The function `HandleBall` leaves a stack of one of the six shapes. -/
theorem HandleBall_shape (d : Defines) (s r : Globals) (h : HandleBall d s = some r)
    (hs : s.g_StateStack.shape_ok) : r.g_StateStack.shape_ok := by
  unfold HandleBall at h
  simp only at h
  refine CheckBlockCollisions_shape d _ r h ?_
  have hm : (MoveBall d s).g_StateStack.shape_ok := by
    rcases MoveBall_stack d s with h | h
    · rw [h]; exact hs
    · rw [h]; exact hs.clear_push_lost
  split_ifs
  · exact hm
  · exact hm

theorem HandleGameInput_move_stack (d : Defines) (s : Globals) :
    (HandleGameInput_move d s).g_StateStack = s.g_StateStack := by
  unfold HandleGameInput_move
  simp only
  split_ifs <;> rfl

theorem HandleGameInput_stack (d : Defines) (ev : Option SDL_Event) (s : Globals) :
    (HandleGameInput d ev s).g_StateStack = s.g_StateStack ∨
      (HandleGameInput d ev s).g_StateStack = s.g_StateStack.pop ∨
      (HandleGameInput d ev s).g_StateStack = s.g_StateStack.clear := by
  unfold HandleGameInput
  split
  · right; right; rfl
  · split_ifs
    · right; left; rfl
    all_goals (left; rw [HandleGameInput_move_stack])
  · left; rw [HandleGameInput_move_stack]
    split_ifs <;> rfl
  · left; rw [HandleGameInput_move_stack]

/-- A processed frame of the state on top keeps the stack in one of the six shapes. -/
theorem main_pass_shape (d : Defines) (ev : Option SDL_Event) (s r : Globals)
    (h : main_pass d ev s = some r) (hs : s.g_StateStack.shape_ok) :
    r.g_StateStack.shape_ok := by
  unfold main_pass at h
  have htop := hs.top_eq
  have hm := hs.2
  simp only [stackShapes, List.mem_cons, List.mem_singleton, List.not_mem_nil, or_false] at hm
  have hpush := fun ptr => hs.push_entries ptr
  have hlen : ∀ ptr, (s.g_StateStack.push ptr).pointers.length = MAX_STACK_SIZE := fun ptr => by
    rw [StateStack.pointers_length_push]; exact hs.1
  rcases hm with he | he | he | he | he | he <;> rw [he] at htop hpush <;>
    simp only [List.getLast?_nil, List.getLast?_singleton, List.getLast?_cons_cons,
      Option.getD_none, Option.getD_some] at htop <;> rw [htop] at h <;>
    simp only [StateFn.frame, Option.some.injEq] at h
  · cases h
  · -- Exit alone
    subst h
    unfold HandleExitInput
    split
    · exact hs.clear
    · split_ifs
      · exact hs.pop
      · exact hs.pop
      · exact ⟨hlen _, by rw [hpush]; simp [stackShapes]⟩
      · exact hs
    · exact hs
  · -- Exit, Menu
    subst h
    unfold HandleMenuInput
    split
    · exact hs.clear
    · split_ifs
      · exact hs.pop
      · exact hs.pop
      · exact ⟨hlen _, by rw [hpush]; simp [stackShapes]⟩
      · exact hs
    · exact hs
  · -- Exit, Menu, Game
    refine HandleBall_shape d _ r h ?_
    rcases HandleGameInput_stack d ev s with hg | hg | hg <;> rw [hg]
    · exact hs
    · exact hs.pop
    · exact hs.clear
  · -- GameWon alone
    subst h
    unfold HandleWinLoseInput
    split
    · exact hs.clear
    · split_ifs
      · exact hs.pop
      · exact hs.pop
      · have h1 := hs.pop
        have e1 : s.g_StateStack.pop.entries = [] := by
          rw [StateStack.entries_pop _ hs.size_le_length, he]; rfl
        have h2 : (s.g_StateStack.pop.push ⟨some StateFn.Exit⟩).shape_ok :=
          ⟨by rw [StateStack.pointers_length_push]; exact h1.1,
           by rw [h1.push_entries, e1]; simp [stackShapes]⟩
        exact ⟨by rw [StateStack.pointers_length_push]; exact h2.1,
          by rw [h2.push_entries, h1.push_entries, e1]; simp [stackShapes]⟩
      · exact hs
    · exact hs
  · -- GameLost alone
    subst h
    unfold HandleWinLoseInput
    split
    · exact hs.clear
    · split_ifs
      · exact hs.pop
      · exact hs.pop
      · have h1 := hs.pop
        have e1 : s.g_StateStack.pop.entries = [] := by
          rw [StateStack.entries_pop _ hs.size_le_length, he]; rfl
        have h2 : (s.g_StateStack.pop.push ⟨some StateFn.Exit⟩).shape_ok :=
          ⟨by rw [StateStack.pointers_length_push]; exact h1.1,
           by rw [h1.push_entries, e1]; simp [stackShapes]⟩
        exact ⟨by rw [StateStack.pointers_length_push]; exact h2.1,
          by rw [h2.push_entries, h1.push_entries, e1]; simp [stackShapes]⟩
      · exact hs
    · exact hs

/-- The loop of `main` keeps the stack in one of the six shapes. -/
theorem main_loop_shape (d : Defines) (evs : List (Option SDL_Event)) :
    ∀ (s r : Globals), main_loop d evs s = some r → s.g_StateStack.shape_ok →
      r.g_StateStack.shape_ok := by
  induction evs with
  | nil =>
    intro s r h hs
    simp only [main_loop, Option.some.injEq] at h
    subst h; exact hs
  | cons ev evs ih =>
    intro s r h hs
    simp only [main_loop] at h
    split_ifs at h
    · cases hp : main_pass d ev s with
      | none => rw [hp] at h; simp at h
      | some m =>
        rw [hp] at h
        simp only [Option.some_bind] at h
        exact ih m r h (main_pass_shape d ev s m hp hs)
    · simp only [Option.some.injEq] at h
      subst h; exact hs

/-- The function `Init` leaves the stack Exit, Menu. -/
theorem Init_stack (d : Defines) (ticks : Int) :
    (Init d ticks).g_StateStack =
      (StateStack.ctor.push ⟨some StateFn.Exit⟩).push ⟨some StateFn.Menu⟩ := by
  unfold Init
  simp only
  have hf := InitBlocks_outside d
    { Globals.static d with
      g_Timer := Sint32 ticks
      g_Player :=
        { screen_location :=
            { x := Int.tdiv d.WINDOW_WIDTH 2 - Int.tdiv d.PADDLE_WIDTH 2
              y := d.PLAYER_Y
              w := d.PADDLE_WIDTH
              h := d.PADDLE_HEIGHT }
          bitmap_location :=
            { x := d.PADDLE_BITMAP_X, y := d.PADDLE_BITMAP_Y, w := d.PADDLE_WIDTH
              h := d.PADDLE_HEIGHT }
          x_speed := d.PLAYER_SPEED }
      g_Lives := d.NUM_LIVES
      g_Ball :=
        { screen_location :=
            { x := Int.tdiv d.WINDOW_WIDTH 2 - Int.tdiv d.BALL_DIAMETER 2
              y := Int.tdiv d.WINDOW_HEIGHT 2 - Int.tdiv d.BALL_DIAMETER 2
              w := d.BALL_DIAMETER
              h := d.BALL_DIAMETER }
          bitmap_location :=
            { x := d.BALL_BITMAP_X, y := d.BALL_BITMAP_Y, w := d.BALL_DIAMETER
              h := d.BALL_DIAMETER }
          x_speed := 0
          y_speed := 0 } }
  have hS := congrArg Globals.g_StateStack hf
  simp only [Globals.outside_blocks] at hS
  rw [hS]
  rfl

theorem Init_shape (d : Defines) (ticks : Int) : (Init d ticks).g_StateStack.shape_ok := by
  rw [Init_stack]
  exact ⟨by decide, by decide⟩

/-- Every state that is reached has a stack of one of the six shapes. -/
theorem Reachable.shape {d : Defines} {s : Globals} (h : Reachable d s) :
    s.g_StateStack.shape_ok := by
  obtain ⟨ticks, evs, h⟩ := h
  exact main_loop_shape d evs _ _ h (Init_shape d ticks)

/-- C13, as amended. In every state that is reached from `Init` through frames of the
state on top (with the loss and the win transition when they occur), a stack that
is not empty has Exit as its bottom entry or holds GameWon alone or GameLost alone. -/
theorem Reachable_stack_bottom (d : Defines) (s : Globals) (h : Reachable d s)
    (hne : s.g_StateStack.empty = false) :
    s.g_StateStack.entries.head? = some ⟨some StateFn.Exit⟩ ∨
      s.g_StateStack.entries = [⟨some StateFn.GameWon⟩] ∨
      s.g_StateStack.entries = [⟨some StateFn.GameLost⟩] := by
  have hs := h.shape
  have hsz := hs.size
  have hm := hs.2
  simp only [stackShapes, List.mem_cons, List.mem_singleton, List.not_mem_nil, or_false] at hm
  rcases hm with he | he | he | he | he | he
  · rw [he] at hsz
    simp [StateStack.empty, hsz.1] at hne
  · left; rw [he]; rfl
  · left; rw [he]; rfl
  · left; rw [he]; rfl
  · right; left; exact he
  · right; right; exact he

/-- After `Init` and the G key the stack is Exit, Menu, Game: its bottom is Exit. -/
theorem Reachable_stack_bottom_witness :
    (HandleMenuInput (some (SDL_Event.SDL_KEYDOWN SDLKey.SDLK_g))
      (Init demoDefines 0)).g_StateStack.entries.head? = some ⟨some StateFn.Exit⟩ ∨
    (HandleMenuInput (some (SDL_Event.SDL_KEYDOWN SDLKey.SDLK_g))
      (Init demoDefines 0)).g_StateStack.entries = [⟨some StateFn.GameWon⟩] ∨
    (HandleMenuInput (some (SDL_Event.SDL_KEYDOWN SDLKey.SDLK_g))
      (Init demoDefines 0)).g_StateStack.entries = [⟨some StateFn.GameLost⟩] :=
  Reachable_stack_bottom demoDefines _
    ⟨0, [some (SDL_Event.SDL_KEYDOWN SDLKey.SDLK_g)], by decide⟩ (by decide)

set_option maxRecDepth 1000000 in
/-- C13 refuted. From `Init` the game is started and all five lives are lost, the
paddle held to the left: the loop of `main` then stands with a stack that is not
empty and holds GameLost alone, so that its bottom entry is not Exit. -/
theorem main_loop_reaches_lost_alone :
    ∃ s, Reachable demoDefines s ∧ s.g_StateStack.empty = false ∧
      s.g_StateStack.entries = [⟨some StateFn.GameLost⟩] ∧
      s.g_StateStack.entries.head? ≠ some ⟨some StateFn.Exit⟩ :=
  ⟨(main_loop demoDefines demoLoseAll (Init demoDefines 0)).get (by decide),
    ⟨0, demoLoseAll, by simp⟩, by decide, by decide, by decide⟩

set_option maxRecDepth 100000 in
/-- C12 at a failing input. From `Init` the paddle is at x = 350; with the right key
down for 36 frames `HandleGameInput` takes it to x = 710, where its right edge
x + w = 810 is beyond the window of width 800. -/
theorem HandleGameInput_paddle_leaves_window :
    (Init demoDefines 0).g_Player.screen_location = ⟨350, 550, 100, 20⟩ ∧
    demoDefines.WINDOW_WIDTH = 800 ∧
    (demoHoldRight.foldl (fun s ev => HandleGameInput demoDefines ev s)
      (Init demoDefines 0)).g_Player.screen_location = ⟨710, 550, 100, 20⟩ := by
  decide

/-! ## The block count -/

theorem CheckBlockCollisions_bounce_blocks (d : Defines) (sc : Scan) :
    (CheckBlockCollisions_bounce d sc).g_NumBlocks = sc.game.g_NumBlocks ∧
    (CheckBlockCollisions_bounce d sc).g_Blocks = sc.game.g_Blocks :=
  ⟨rfl, rfl⟩

/-- Unless `MoveBall` reaches `HandleLoss`, the blocks are the same when `HandleBall`
calls `CheckBlockCollisions` as when `HandleBall` is entered. -/
theorem HandleBall_before_blocks_blocks (d : Defines) (s : Globals)
    (h : MoveBall_resets d s = false) :
    (HandleBall_before_blocks d s).g_NumBlocks = s.g_NumBlocks ∧
    (HandleBall_before_blocks d s).g_Blocks = s.g_Blocks := by
  unfold MoveBall_resets at h
  simp only [decide_eq_false_iff_not, not_and] at h
  have hm : (MoveBall d s).g_NumBlocks = s.g_NumBlocks ∧ (MoveBall d s).g_Blocks = s.g_Blocks := by
    unfold MoveBall
    simp only
    split_ifs with h1 h2
    · exact absurd h2 (h h1)
    · exact ⟨rfl, rfl⟩
    · exact ⟨rfl, rfl⟩
  unfold HandleBall_before_blocks
  split_ifs
  · exact hm
  · exact hm

theorem HandleBall_eq (d : Defines) (s : Globals) :
    HandleBall d s = CheckBlockCollisions d (HandleBall_before_blocks d s) := by
  unfold HandleBall HandleBall_before_blocks
  rfl

/-- C19. `CheckBlockCollisions` returns, and when no call of `HandleBlockCollision` in
its scan reaches `ChangeLevel`, `g_NumBlocks` after it is at most `g_NumBlocks`
before it.  The same holds of `HandleBall` when, besides, `MoveBall` does not
reach `HandleLoss`. -/
theorem block_count_not_raised (d : Defines) (s : Globals) :
    (∃ sc r, CheckBlockCollisions_scan d s = some sc ∧ CheckBlockCollisions d s = some r ∧
      (sc.reloaded = false → r.g_NumBlocks ≤ s.g_NumBlocks)) ∧
    (∃ sc r, CheckBlockCollisions_scan d (HandleBall_before_blocks d s) = some sc ∧
      HandleBall d s = some r ∧
      (MoveBall_resets d s = false → sc.reloaded = false → r.g_NumBlocks ≤ s.g_NumBlocks)) := by
  have key : ∀ g : Globals, ∃ sc r, CheckBlockCollisions_scan d g = some sc ∧
      CheckBlockCollisions d g = some r ∧ (sc.reloaded = false → r.g_NumBlocks ≤ g.g_NumBlocks) := by
    intro g
    obtain ⟨sc, hsc⟩ := CheckBlockCollisions_scan_returns d g
    refine ⟨sc, CheckBlockCollisions_bounce d sc, hsc, by simp [CheckBlockCollisions, hsc], ?_⟩
    intro hno
    exact (CheckBlockCollisions_loop_frame d _ g _ _ _ sc hsc (fun _ => ⟨rfl, le_refl _⟩) hno).2
  refine ⟨key s, ?_⟩
  obtain ⟨sc, r, h1, h2, h3⟩ := key (HandleBall_before_blocks d s)
  refine ⟨sc, r, h1, by rw [HandleBall_eq]; exact h2, ?_⟩
  intro hm hno
  rw [← (HandleBall_before_blocks_blocks d s hm).1]
  exact h3 hno

/-- The ball under two blocks destroys the first: one block is left of two. -/
theorem block_count_not_raised_witness :
    ∃ sc r, CheckBlockCollisions_scan demoDefines demoTwoBlocks = some sc ∧
      CheckBlockCollisions demoDefines demoTwoBlocks = some r ∧ sc.reloaded = false ∧
      r.g_NumBlocks = 1 ∧ r.g_NumBlocks ≤ demoTwoBlocks.g_NumBlocks := by
  obtain ⟨sc, r, hs, hr, h⟩ := (block_count_not_raised demoDefines demoTwoBlocks).1
  have hsc : (CheckBlockCollisions_scan demoDefines demoTwoBlocks).get (by decide) = sc :=
    Option.get_of_mem _ hs
  have hrr : (CheckBlockCollisions demoDefines demoTwoBlocks).get (by decide) = r :=
    Option.get_of_mem _ hr
  subst hsc
  subst hrr
  exact ⟨_, _, hs, hr, by decide, by decide, h (by decide)⟩

/-! ## The counters of the blocks -/

theorem InitBlocks_rest.rest_refl (st : Nat × Globals) : InitBlocks_rest st st :=
  ⟨le_refl _, by simp, fun _ _ => rfl⟩

theorem InitBlocks_rest.rest_trans {st st1 st2 : Nat × Globals} (h1 : InitBlocks_rest st st1)
    (h2 : InitBlocks_rest st1 st2) : InitBlocks_rest st st2 := by
  refine ⟨le_trans h1.index_le h2.index_le, ?_, ?_⟩
  · have a := h1.count_eq
    have b := h2.count_eq
    omega
  · intro j hj
    rw [h2.rest_eq j hj, h1.rest_eq j (le_trans h2.index_le hj)]

theorem InitBlocks_cell_rest (d : Defines) (lvl : Int) (row col : Nat) (st : Nat × Globals) :
    InitBlocks_rest st (InitBlocks_cell d lvl row col st) := by
  simp only [InitBlocks_cell]
  split_ifs
  · refine ⟨by simp, by simp, ?_⟩
    intro j hj
    simp only [setBlock_natCast] at hj ⊢
    rw [List.getElem?_set]
    have : st.1 ≠ j := by omega
    simp [this]
  · exact InitBlocks_rest.rest_refl st

theorem InitBlocks_row_rest (d : Defines) (lvl : Int) (row : Nat) (st : Nat × Globals) (n : Nat) :
    InitBlocks_rest st
      ((List.range n).foldl (fun acc c => InitBlocks_cell d lvl row (c + 1) acc) st) := by
  induction n with
  | zero => simpa using InitBlocks_rest.rest_refl st
  | succ n ih =>
    rw [List.range_succ, List.foldl_append]
    simp only [List.foldl_cons, List.foldl_nil]
    exact ih.rest_trans (InitBlocks_cell_rest d lvl row (n + 1) _)

theorem InitBlocks_rows_rest (d : Defines) (lvl : Int) (st : Nat × Globals) (m : Nat) :
    InitBlocks_rest st
      ((List.range m).foldl (fun acc r => InitBlocks_row d lvl (r + 1) acc) st) := by
  induction m with
  | zero => simpa using InitBlocks_rest.rest_refl st
  | succ m ih =>
    rw [List.range_succ, List.foldl_append]
    simp only [List.foldl_cons, List.foldl_nil]
    exact ih.rest_trans (InitBlocks_row_rest d lvl (m + 1) _ d.NUMCOLS)

/-- The function `InitBlocks`, entered with `g_NumBlocks = 0`, leaves the slots from
the new `g_NumBlocks` on as they were. -/
theorem InitBlocks_rest_slots (d : Defines) (s : Globals) (h0 : s.g_NumBlocks = 0) (j : Nat)
    (hj : (InitBlocks d s).g_NumBlocks ≤ j) :
    blockAt (InitBlocks d s).g_Blocks j = blockAt s.g_Blocks j := by
  have h := InitBlocks_rows_rest d s.g_Level (0, s) d.NUM_ROWS
  have hc := h.count_eq
  simp only [h0, sub_zero, Nat.cast_zero] at hc
  have hr := h.rest_eq j (by
    have : (InitBlocks d s).g_NumBlocks =
        ((List.range d.NUM_ROWS).foldl (fun acc r => InitBlocks_row d s.g_Level (r + 1) acc)
          (0, s)).2.g_NumBlocks := rfl
    rw [this, hc] at hj
    exact_mod_cast hj)
  rw [blockAt_natCast, blockAt_natCast, List.getD_eq_getElem?_getD, List.getD_eq_getElem?_getD]
  have : (InitBlocks d s).g_Blocks =
        ((List.range d.NUM_ROWS).foldl (fun acc r => InitBlocks_row d s.g_Level (r + 1) acc)
          (0, s)).2.g_Blocks := rfl
  rw [this, hr]

/-- Every block of the level grid has the value of a cell, not 0, as its counter. -/
theorem levelGrid_hits (d : Defines) (lvl : Int) (x : SDL_Rect × Int) (h : x ∈ levelGrid d lvl) :
    x.2 ≠ 0 ∧ ∃ k, x.2 = d.level_file lvl k := by
  unfold levelGrid at h
  simp only [List.mem_flatMap, List.mem_filterMap, List.mem_range] at h
  obtain ⟨r, -, c, -, hc⟩ := h
  unfold levelGrid_cell at hc
  simp only at hc
  split_ifs at hc with hz
  simp only [Option.some.injEq] at hc
  subst hc
  exact ⟨hz, _, rfl⟩

/-- The function `InitBlocks`, entered with `g_NumBlocks = 0` on an array with a slot
for every cell, leaves counters from 1 to 4 in the present blocks when the cells of
the level files are from 0 to 4. -/
theorem InitBlocks_counters (d : Defines) (s : Globals) (h0 : s.g_NumBlocks = 0)
    (hcap : d.NUM_ROWS * d.NUMCOLS ≤ s.g_Blocks.length)
    (hfile : ∀ lvl k, 0 ≤ d.level_file lvl k ∧ d.level_file lvl k ≤ 4) :
    (InitBlocks d s).counters_in_range := by
  obtain ⟨hd, hc, hl, -⟩ := InitBlocks_spec d s h0 hcap
  intro i hi
  rw [hc] at hi
  have hi2 : i < (levelGrid d s.g_Level).length := by exact_mod_cast hi
  have hle : (levelGrid d s.g_Level).length ≤ d.NUM_ROWS * d.NUMCOLS :=
    levelGrid_rows_length_le d s.g_Level d.NUM_ROWS
  have hil : i < (InitBlocks d s).g_Blocks.length := by rw [hl]; omega
  have hpl : i < (InitBlocks d s).present.length := by
    simp only [Globals.present, List.length_take, hc, Int.toNat_ofNat]
    omega
  have hmem : ((InitBlocks d s).present[i]).data ∈ levelGrid d s.g_Level := by
    rw [← hd]
    exact List.mem_map.mpr ⟨_, List.getElem_mem _, rfl⟩
  have hpi : (InitBlocks d s).present[i] = blockAt (InitBlocks d s).g_Blocks i := by
    rw [blockAt_natCast, List.getD_eq_getElem _ _ hil]
    simp [Globals.present]
  rw [hpi] at hmem
  obtain ⟨hnz, k, hk⟩ := levelGrid_hits d _ _ hmem
  obtain ⟨f0, f4⟩ := hfile s.g_Level k
  simp only [Block.data] at hnz hk
  constructor <;> omega

theorem HandleBlockCollision_switch_num_hits (d : Defines) (b : Block) :
    (HandleBlockCollision_switch d b).num_hits = b.num_hits := by
  unfold HandleBlockCollision_switch; split_ifs <;> rfl

/-- The function `ChangeLevel` leaves counters from 1 to 4 in the present blocks and
the slots from the new `g_NumBlocks` on as they were. -/
theorem ChangeLevel_counters (d : Defines) (s : Globals)
    (hcap : d.NUM_ROWS * d.NUMCOLS ≤ s.g_Blocks.length)
    (hfile : ∀ lvl k, 0 ≤ d.level_file lvl k ∧ d.level_file lvl k ≤ 4) :
    (ChangeLevel d s).counters_in_range ∧
    (ChangeLevel d s).g_Blocks.length = s.g_Blocks.length ∧
    ∀ j : Nat, (ChangeLevel d s).g_NumBlocks ≤ j →
      blockAt (ChangeLevel d s).g_Blocks j = blockAt s.g_Blocks j := by
  have key : ∀ g : Globals, g.g_NumBlocks = 0 → g.g_Blocks = s.g_Blocks →
      (InitBlocks d g).counters_in_range ∧ (InitBlocks d g).g_Blocks.length = s.g_Blocks.length ∧
      ∀ j : Nat, (InitBlocks d g).g_NumBlocks ≤ j →
        blockAt (InitBlocks d g).g_Blocks j = blockAt s.g_Blocks j := by
    intro g hg0 hgb
    have hcap2 : d.NUM_ROWS * d.NUMCOLS ≤ g.g_Blocks.length := by rw [hgb]; exact hcap
    refine ⟨InitBlocks_counters d g hg0 hcap2 hfile, ?_, ?_⟩
    · rw [(InitBlocks_spec d g hg0 hcap2).2.2.1, hgb]
    · intro j hj
      rw [InitBlocks_rest_slots d g hg0 j hj, hgb]
  unfold ChangeLevel
  simp only
  split_ifs
  · exact key
      { s with
        g_Level := 1
        g_StateStack := s.g_StateStack.clear
        g_Ball := s.g_Ball.reset d
        g_Lives := d.NUM_LIVES
        g_NumBlocks := 0 } rfl rfl
  · exact key { s with g_Level := s.g_Level + 1, g_Ball := s.g_Ball.reset d, g_NumBlocks := 0 }
      rfl rfl

/-- One call `HandleBlockCollision(block)` keeps the counters of the present blocks
from 1 to 4, when slot `block` is a present block or a slot of the array whose
counter is 0 or less; and slot `block` is again one or the other afterwards. -/
theorem HandleBlockCollision_counters (d : Defines) (g : Globals) (block : Nat)
    (hfile : ∀ lvl k, 0 ≤ d.level_file lvl k ∧ d.level_file lvl k ≤ 4)
    (hcap : d.NUM_ROWS * d.NUMCOLS ≤ g.g_Blocks.length) (hinv : g.counters_in_range)
    (hb : (block : Int) < g.g_Blocks.length)
    (hslot : (block : Int) < g.g_NumBlocks ∨ (blockAt g.g_Blocks block).num_hits ≤ 0) :
    (HandleBlockCollision d g block).counters_in_range ∧
    (HandleBlockCollision d g block).g_Blocks.length = g.g_Blocks.length ∧
    ((block : Int) < (HandleBlockCollision d g block).g_NumBlocks ∨
      (blockAt (HandleBlockCollision d g block).g_Blocks block).num_hits ≤ 0) := by
  have hb0 : (0 : Int) ≤ block := Int.natCast_nonneg _
  have hb1 : (block : Int) < (setBlock g.g_Blocks block
      { blockAt g.g_Blocks block with num_hits := (blockAt g.g_Blocks block).num_hits - 1 }).length := by
    rw [length_setBlock]; exact hb
  by_cases hz : (blockAt g.g_Blocks block).num_hits - 1 = 0
  · -- the counter drops to 0: the block is removed
    have hlt : (block : Int) < g.g_NumBlocks := by
      rcases hslot with h | h
      · exact h
      · omega
    by_cases hc : g.g_NumBlocks - 1 = 0
    · -- it was the last block: the level changes
      have hblock : block = 0 := by omega
      obtain ⟨bs, hrun, hbs, hbs0⟩ : ∃ bs : List Block,
          HandleBlockCollision d g block =
            ChangeLevel d { g with g_Blocks := bs, g_NumBlocks := g.g_NumBlocks - 1 } ∧
          bs.length = g.g_Blocks.length ∧ (blockAt bs block).num_hits = 0 := by
        refine ⟨setBlock (setBlock g.g_Blocks block
              { blockAt g.g_Blocks block with num_hits := (blockAt g.g_Blocks block).num_hits - 1 })
              block (blockAt (setBlock g.g_Blocks block
              { blockAt g.g_Blocks block with num_hits := (blockAt g.g_Blocks block).num_hits - 1 })
              (g.g_NumBlocks - 1)), ?_, ?_, ?_⟩
        · simp only [HandleBlockCollision, blockAt_setBlock_self _ _ _ hb0 hb, hz, hc, if_true]
        · simp [length_setBlock]
        · have hcb : g.g_NumBlocks - 1 = (block : Int) := by omega
          rw [blockAt_setBlock_self _ _ _ hb0 hb1, hcb, blockAt_setBlock_self _ _ _ hb0 hb]
          exact hz
      rw [hrun]
      obtain ⟨c1, c2, c3⟩ := ChangeLevel_counters d
        { g with g_Blocks := bs, g_NumBlocks := g.g_NumBlocks - 1 } (by rw [hbs]; exact hcap) hfile
      refine ⟨c1, by rw [c2, hbs], ?_⟩
      by_cases hn : (block : Int) <
          (ChangeLevel d { g with g_Blocks := bs, g_NumBlocks := g.g_NumBlocks - 1 }).g_NumBlocks
      · left; exact hn
      · right
        rw [c3 block (by omega)]
        exact le_of_eq hbs0
    · -- other blocks stay: the last one takes the slot
      have hrun : HandleBlockCollision d g block =
          { g with
            g_Blocks := setBlock (setBlock g.g_Blocks block
              { blockAt g.g_Blocks block with num_hits := (blockAt g.g_Blocks block).num_hits - 1 })
              block (blockAt (setBlock g.g_Blocks block
              { blockAt g.g_Blocks block with num_hits := (blockAt g.g_Blocks block).num_hits - 1 })
              (g.g_NumBlocks - 1))
            g_NumBlocks := g.g_NumBlocks - 1 } := by
        simp only [HandleBlockCollision, blockAt_setBlock_self _ _ _ hb0 hb, hz, hc, if_true,
          if_false]
      rw [hrun]
      refine ⟨?_, by simp [length_setBlock], ?_⟩
      · intro i hi
        simp only at hi ⊢
        by_cases hib : (i : Int) = block
        · rw [hib, blockAt_setBlock_self _ _ _ hb0 hb1,
            blockAt_setBlock_of_ne _ _ _ _ (by omega)]
          have := hinv (g.g_NumBlocks - 1).toNat (by omega)
          rwa [Int.toNat_of_nonneg (by omega)] at this
        · rw [blockAt_setBlock_of_ne _ _ _ _ hib, blockAt_setBlock_of_ne _ _ _ _ hib]
          exact hinv i (by omega)
      · simp only
        by_cases hn : (block : Int) < g.g_NumBlocks - 1
        · left; exact hn
        · right
          have he : g.g_NumBlocks - 1 = block := by omega
          rw [blockAt_setBlock_self _ _ _ hb0 hb1, he, blockAt_setBlock_self _ _ _ hb0 hb]
          exact le_of_eq hz
  · -- the counter does not drop to 0: the block stays in its slot
    have hrun : HandleBlockCollision d g block =
        { g with
          g_Blocks := setBlock (setBlock g.g_Blocks block
            { blockAt g.g_Blocks block with num_hits := (blockAt g.g_Blocks block).num_hits - 1 })
            block (HandleBlockCollision_switch d
              { blockAt g.g_Blocks block with
                num_hits := (blockAt g.g_Blocks block).num_hits - 1 }) } := by
      simp only [HandleBlockCollision, blockAt_setBlock_self _ _ _ hb0 hb, hz, if_false]
    rw [hrun]
    refine ⟨?_, by simp [length_setBlock], ?_⟩
    · intro i hi
      simp only at hi ⊢
      by_cases hib : (i : Int) = block
      · rw [hib, blockAt_setBlock_self _ _ _ hb0 hb1, HandleBlockCollision_switch_num_hits]
        have := hinv i hi
        rw [hib] at this
        simp only
        omega
      · rw [blockAt_setBlock_of_ne _ _ _ _ hib, blockAt_setBlock_of_ne _ _ _ _ hib]
        exact hinv i hi
    · simp only
      rcases hslot with h | h
      · left; exact h
      · right
        rw [blockAt_setBlock_self _ _ _ hb0 hb1, HandleBlockCollision_switch_num_hits]
        simp only
        omega

/-- When the counters of the present blocks are from 1 to 4, the present blocks are
slots of the array. -/
theorem Globals.counters_in_range.count_le {s : Globals} (h : s.counters_in_range) :
    s.g_NumBlocks ≤ s.g_Blocks.length := by
  by_contra hc
  have := h s.g_Blocks.length (by omega)
  rw [blockAt_natCast, List.getD_eq_default _ _ (le_refl _)] at this
  simp [Block.zero] at this

/-- C20. When the cells of the level files are from 0 to 4 and the block array has a
slot for every cell, `CheckBlockCollisions` keeps the counters of the present
blocks from 1 to 4: if every slot below `g_NumBlocks` has a counter from 1 to 4
before the call, the call returns and every slot below `g_NumBlocks` has a counter
from 1 to 4 after it; blocks removed and levels loaded during the scan are
included. -/
theorem CheckBlockCollisions_counters (d : Defines) (s : Globals)
    (hfile : ∀ lvl k, 0 ≤ d.level_file lvl k ∧ d.level_file lvl k ≤ 4)
    (hcap : d.NUM_ROWS * d.NUMCOLS ≤ s.g_Blocks.length) (hinv : s.counters_in_range) :
    ∃ r, CheckBlockCollisions d s = some r ∧ r.counters_in_range ∧
      ∀ i : Nat, (i : Int) < r.g_NumBlocks → 0 < (blockAt r.g_Blocks i).num_hits := by
  obtain ⟨sc, hsc⟩ := CheckBlockCollisions_scan_returns d s
  have hL := CheckBlockCollisions_loop_keeps d (collisionPoints s.g_Ball)
    (fun c => c.game.counters_in_range ∧ d.NUM_ROWS * d.NUMCOLS ≤ c.game.g_Blocks.length)
    ?_ _ _ _ _ hsc ⟨hinv, hcap⟩
  · have hr : (CheckBlockCollisions_bounce d sc).counters_in_range := hL.1
    refine ⟨CheckBlockCollisions_bounce d sc, by simp [CheckBlockCollisions, hsc], hr, ?_⟩
    intro i hi
    have := hr i hi
    omega
  · intro block c hc hlt
    have hcl := hc.1.count_le
    have hK := CheckBlockCollisions_body_keeps d (collisionPoints s.g_Ball) block
      (fun c => (c.game.counters_in_range ∧ d.NUM_ROWS * d.NUMCOLS ≤ c.game.g_Blocks.length) ∧
        (block : Int) < c.game.g_Blocks.length ∧
        ((block : Int) < c.game.g_NumBlocks ∨ (blockAt c.game.g_Blocks block).num_hits ≤ 0))
      ?_ ?_ c ⟨hc, by omega, Or.inl hlt⟩
    · exact hK.1
    · rintro c ⟨⟨h1, h2⟩, h3, h4⟩
      obtain ⟨k1, k2, k3⟩ := HandleBlockCollision_counters d c.game block hfile h2 h1 h3 h4
      simp only [CheckBlockCollisions_hit]
      exact ⟨⟨k1, by rw [k2]; exact h2⟩, by rw [k2]; exact h3, k3⟩
    · intro c t b l r h
      exact h

/-- The last block of level 2 is destroyed and level 3 is loaded and hit during the
same scan: the three blocks present afterwards have the counters 2, 2 and 4. -/
theorem CheckBlockCollisions_counters_witness :
    ∃ r, CheckBlockCollisions demoDefines demoLastBlock = some r ∧ r.counters_in_range ∧
      r.present.map Block.num_hits = [2, 2, 4] := by
  obtain ⟨r, hr, h, -⟩ := CheckBlockCollisions_counters demoDefines demoLastBlock
    (by
      intro lvl k
      simp only [demoDefines]
      split_ifs <;>
        (rcases k with _ | _ | _ | _ | k <;> simp [List.getD_eq_getElem?_getD]))
    (by decide)
    (by
      intro i hi
      have : i = 0 := by
        have h1 : demoLastBlock.g_NumBlocks = 1 := by decide
        rw [h1] at hi
        omega
      subst this
      decide)
  have hrr : (CheckBlockCollisions demoDefines demoLastBlock).get (by decide) = r :=
    Option.get_of_mem _ hr
  subst hrr
  exact ⟨_, hr, h, by decide⟩

/-! ## The frame gate -/

/-- A reading below `g_Timer`: the difference wraps to a large number in `Uint32`
and the frame is processed.  With the last frame at 100, the call of `Menu` at 50
uses up the pending G key and pushes Game. -/
theorem Menu_reading_below_timer :
    (Menu demoDefines 50 60 [SDL_Event.SDL_KEYDOWN SDLKey.SDLK_g]
      (Init demoDefines 100)).2 = [] ∧
    (Menu demoDefines 50 60 [SDL_Event.SDL_KEYDOWN SDLKey.SDLK_g]
      (Init demoDefines 100)).1.g_Timer = 60 ∧
    (Menu demoDefines 50 60 [SDL_Event.SDL_KEYDOWN SDLKey.SDLK_g]
      (Init demoDefines 100)).1.g_StateStack.entries =
      [⟨some StateFn.Exit⟩, ⟨some StateFn.Menu⟩, ⟨some StateFn.Game⟩] := by
  decide

/-! ## A block hit at several sample points -/

/-- A slot that holds a counter other than 0 is a slot of the array. -/
theorem blockAt_lt_length (bs : List Block) (j : Nat) (h : (blockAt bs j).num_hits ≠ 0) :
    j < bs.length := by
  by_contra hge
  rw [blockAt_natCast, List.getD_eq_default _ _ (by omega)] at h
  exact h rfl

/-- A call of `HandleBlockCollision` on a block with a counter of 2 or more lowers
the counter by one and changes nothing else that the game logic reads. -/
theorem HandleBlockCollision_of_two_le (d : Defines) (s : Globals) (j : Nat)
    (h2 : 2 ≤ (blockAt s.g_Blocks j).num_hits) :
    (HandleBlockCollision d s j).g_NumBlocks = s.g_NumBlocks ∧
    (∀ i : Nat, i ≠ j → blockAt (HandleBlockCollision d s j).g_Blocks i = blockAt s.g_Blocks i) ∧
    (blockAt (HandleBlockCollision d s j).g_Blocks j).screen_location =
      (blockAt s.g_Blocks j).screen_location ∧
    (blockAt (HandleBlockCollision d s j).g_Blocks j).num_hits =
      (blockAt s.g_Blocks j).num_hits - 1 := by
  have hjl : j < s.g_Blocks.length := blockAt_lt_length _ _ (by omega)
  have h0 : (0 : Int) ≤ j := by omega
  have hil : (j : Int) < s.g_Blocks.length := by omega
  have hne : (blockAt s.g_Blocks j).num_hits - 1 ≠ 0 := by omega
  simp only [HandleBlockCollision, blockAt_setBlock_self _ _ _ h0 hil, hne, if_false]
  have hil2 : (j : Int) < (setBlock s.g_Blocks j
      { blockAt s.g_Blocks j with num_hits := (blockAt s.g_Blocks j).num_hits - 1 }).length := by
    rw [length_setBlock]; exact hil
  rw [blockAt_setBlock_self _ _ _ h0 hil2]
  refine ⟨trivial, ?_, ?_, ?_⟩
  · intro i hi
    have hij : (i : Int) ≠ j := by omega
    rw [blockAt_setBlock_of_ne _ _ _ _ hij, blockAt_setBlock_of_ne _ _ _ _ hij]
  · unfold HandleBlockCollision_switch; split_ifs <;> rfl
  · unfold HandleBlockCollision_switch; split_ifs <;> rfl

/-- A property of the index and the loop state that every pass of the body carries
from an index to the next holds, when the loop returns, at an index that is not
below `g_NumBlocks`. -/
theorem CheckBlockCollisions_loop_keeps_at (d : Defines) (p : CollisionPoints)
    (P : Nat → Scan → Prop)
    (hbody : ∀ (block : Nat) (sc : Scan), P block sc → (block : Int) < sc.game.g_NumBlocks →
      P (block + 1) (CheckBlockCollisions_body d p block sc)) :
    ∀ (fuel block : Nat) (sc r : Scan),
      CheckBlockCollisions_loop d p fuel block sc = some r → P block sc →
      ∃ n, block ≤ n ∧ P n r ∧ ¬ ((n : Int) < r.game.g_NumBlocks) := by
  intro fuel
  induction fuel with
  | zero =>
    intro block sc r h hP
    unfold CheckBlockCollisions_loop at h
    split_ifs at h with hlt
    cases h
    exact ⟨block, le_refl _, hP, hlt⟩
  | succ fuel ih =>
    intro block sc r h hP
    unfold CheckBlockCollisions_loop at h
    split_ifs at h with hlt
    · obtain ⟨n, hn, hPn, hend⟩ := ih _ _ _ h (hbody _ _ hP hlt)
      exact ⟨n, by omega, hPn, hend⟩
    · cases h
      exact ⟨block, le_refl _, hP, hlt⟩

/-- One test of the loop body against slot `j`: a sample point that lies in the
block lowers its counter by one, as long as the counter is 2 or more. -/
theorem CheckBlockCollisions_test_only_hit (d : Defines) (x y : Int) (mark : Scan → Scan)
    (s : Globals) (j : Nat) (m : Int) (c : Scan) (hmark : (mark c).game = c.game)
    (hc : c.only_hit s j m)
    (h2 : CheckPointInRect x y (blockAt s.g_Blocks j).screen_location = true → 2 ≤ m) :
    (CheckBlockCollisions_test d x y mark j c).only_hit s j
      (m - if CheckPointInRect x y (blockAt s.g_Blocks j).screen_location then 1 else 0) := by
  obtain ⟨hn, hi, hr, hm⟩ := hc
  unfold CheckBlockCollisions_test
  rw [hr]
  split_ifs with ht
  · have h2c : 2 ≤ (blockAt (mark c).game.g_Blocks j).num_hits := by
      rw [hmark, hm]; exact h2 ht
    obtain ⟨e1, e2, e3, e4⟩ := HandleBlockCollision_of_two_le d (mark c).game j h2c
    simp only [CheckBlockCollisions_hit]
    refine ⟨?_, ?_, ?_, ?_⟩
    · rw [e1, hmark, hn]
    · intro i hij
      rw [e2 i hij, hmark, hi i hij]
    · rw [e3, hmark, hr]
    · rw [e4, hmark, hm]
  · exact ⟨hn, hi, hr, by omega⟩

/-- The number of sample points in a rectangle, by the four tests of the loop body. -/
theorem Ball.points_in_eq (b : Ball) (rect : SDL_Rect) :
    b.points_in rect =
      (if CheckPointInRect (collisionPoints b).top_x (collisionPoints b).top_y rect then 1 else 0) +
      (if CheckPointInRect (collisionPoints b).bottom_x (collisionPoints b).bottom_y rect
        then 1 else 0) +
      (if CheckPointInRect (collisionPoints b).left_x (collisionPoints b).left_y rect then 1 else 0) +
      (if CheckPointInRect (collisionPoints b).right_x (collisionPoints b).right_y rect
        then 1 else 0) := by
  simp only [Ball.points_in, Ball.samplePoints, collisionPoints, List.filter_cons,
    List.filter_nil]
  split_ifs <;> rfl

/-- The body of the loop at slot `j`, when the counter exceeds the number of sample
points in the block: the counter drops by that number. -/
theorem CheckBlockCollisions_body_only_hit (d : Defines) (s : Globals) (j : Nat) (c : Scan)
    (hc : c.only_hit s j (blockAt s.g_Blocks j).num_hits)
    (hlt : (s.g_Ball.points_in (blockAt s.g_Blocks j).screen_location : Int) <
      (blockAt s.g_Blocks j).num_hits) :
    (CheckBlockCollisions_body d (collisionPoints s.g_Ball) j c).only_hit s j
      ((blockAt s.g_Blocks j).num_hits -
        s.g_Ball.points_in (blockAt s.g_Blocks j).screen_location) := by
  rw [Ball.points_in_eq] at hlt ⊢
  unfold CheckBlockCollisions_body
  simp only
  generalize (blockAt s.g_Blocks j).num_hits = h at hc hlt ⊢
  have k1 := CheckBlockCollisions_test_only_hit d (collisionPoints s.g_Ball).top_x
    (collisionPoints s.g_Ball).top_y (fun c => { c with top := true }) s j h c rfl hc
    (by intro ht; rw [ht] at hlt; simp only [if_true] at hlt; push_cast at hlt
        split_ifs at hlt <;> omega)
  have k2 := CheckBlockCollisions_test_only_hit d (collisionPoints s.g_Ball).bottom_x
    (collisionPoints s.g_Ball).bottom_y (fun c => { c with bottom := true }) s j _ _ rfl k1
    (by intro ht; rw [ht] at hlt; simp only [if_true] at hlt; push_cast at hlt
        split_ifs at hlt ⊢ <;> omega)
  have k3 := CheckBlockCollisions_test_only_hit d (collisionPoints s.g_Ball).left_x
    (collisionPoints s.g_Ball).left_y (fun c => { c with left := true }) s j _ _ rfl k2
    (by intro ht; rw [ht] at hlt; simp only [if_true] at hlt; push_cast at hlt
        split_ifs at hlt ⊢ <;> omega)
  have k4 := CheckBlockCollisions_test_only_hit d (collisionPoints s.g_Ball).right_x
    (collisionPoints s.g_Ball).right_y (fun c => { c with right := true }) s j _ _ rfl k3
    (by intro ht; rw [ht] at hlt; simp only [if_true] at hlt; push_cast at hlt
        split_ifs at hlt ⊢ <;> omega)
  have e : ∀ a b c e : Prop, ∀ [Decidable a] [Decidable b] [Decidable c] [Decidable e],
      h - (if a then 1 else 0) - (if b then 1 else 0) - (if c then 1 else 0) -
        (if e then 1 else 0) =
      h - (((if a then 1 else 0) + (if b then 1 else 0) + (if c then 1 else 0) +
        (if e then 1 else 0) : Nat) : Int) := by
    intro a b c e _ _ _ _
    split_ifs <;> push_cast <;> ring
  rw [← e]
  exact k4

/-- The body of the loop at a slot none of whose sample points tests succeeds does
nothing. -/
theorem CheckBlockCollisions_body_miss (d : Defines) (b : Ball) (block : Nat) (c : Scan)
    (h : b.points_in (blockAt c.game.g_Blocks block).screen_location = 0) :
    CheckBlockCollisions_body d (collisionPoints b) block c = c := by
  rw [Ball.points_in_eq] at h
  have h1 : CheckPointInRect (collisionPoints b).top_x (collisionPoints b).top_y
      (blockAt c.game.g_Blocks block).screen_location = false := by
    by_contra hc; simp only [Bool.not_eq_false] at hc; rw [hc] at h; simp at h
  have h2 : CheckPointInRect (collisionPoints b).bottom_x (collisionPoints b).bottom_y
      (blockAt c.game.g_Blocks block).screen_location = false := by
    by_contra hc; simp only [Bool.not_eq_false] at hc; rw [hc] at h; simp at h
  have h3 : CheckPointInRect (collisionPoints b).left_x (collisionPoints b).left_y
      (blockAt c.game.g_Blocks block).screen_location = false := by
    by_contra hc; simp only [Bool.not_eq_false] at hc; rw [hc] at h; simp at h
  have h4 : CheckPointInRect (collisionPoints b).right_x (collisionPoints b).right_y
      (blockAt c.game.g_Blocks block).screen_location = false := by
    by_contra hc; simp only [Bool.not_eq_false] at hc; rw [hc] at h; simp at h
  simp [CheckBlockCollisions_body, CheckBlockCollisions_test, h1, h2, h3, h4]

/-- C22. A present block in slot `j` with counter `h` holds `k` of the four sample
points of the ball (top-centre, bottom-centre, left-centre, right-centre, the edges
of the rectangle included), where `k < h`, and no other present block holds any.
Then `CheckBlockCollisions` returns with the same number of blocks, the block still
in slot `j` with its rectangle and the counter `h - k`, and every other slot as it
was. -/
theorem CheckBlockCollisions_corner_wedge (d : Defines) (s : Globals) (j : Nat)
    (hj : (j : Int) < s.g_NumBlocks)
    (hlt : (s.g_Ball.points_in (blockAt s.g_Blocks j).screen_location : Int) <
      (blockAt s.g_Blocks j).num_hits)
    (hother : ∀ i : Nat, (i : Int) < s.g_NumBlocks → i ≠ j →
      s.g_Ball.points_in (blockAt s.g_Blocks i).screen_location = 0) :
    ∃ r, CheckBlockCollisions d s = some r ∧ r.g_NumBlocks = s.g_NumBlocks ∧
      (j : Int) < r.g_NumBlocks ∧
      (blockAt r.g_Blocks j).screen_location = (blockAt s.g_Blocks j).screen_location ∧
      (blockAt r.g_Blocks j).num_hits =
        (blockAt s.g_Blocks j).num_hits -
          s.g_Ball.points_in (blockAt s.g_Blocks j).screen_location ∧
      ∀ i : Nat, i ≠ j → blockAt r.g_Blocks i = blockAt s.g_Blocks i := by
  obtain ⟨sc, hsc⟩ := CheckBlockCollisions_scan_returns d s
  have key := CheckBlockCollisions_loop_keeps_at d (collisionPoints s.g_Ball)
    (fun n c => c.only_hit s j
      (if n ≤ j then (blockAt s.g_Blocks j).num_hits
        else (blockAt s.g_Blocks j).num_hits -
          s.g_Ball.points_in (blockAt s.g_Blocks j).screen_location)) ?_ _ _ _ _ hsc
    (by simp only [Nat.zero_le, if_true]; exact ⟨rfl, fun _ _ => rfl, rfl, rfl⟩)
  · obtain ⟨n, -, hP, hend⟩ := key
    have hnj : ¬ n ≤ j := by
      intro hle
      rw [hP.1] at hend
      omega
    simp only [hnj, if_false] at hP
    obtain ⟨e1, e2, e3, e4⟩ := hP
    refine ⟨CheckBlockCollisions_bounce d sc, by simp [CheckBlockCollisions, hsc], ?_⟩
    rw [(CheckBlockCollisions_bounce_blocks d sc).1, (CheckBlockCollisions_bounce_blocks d sc).2]
    exact ⟨e1, by rw [e1]; exact hj, e3, e4, e2⟩
  · intro block c hc hblock
    by_cases hbj : block = j
    · subst hbj
      simp only [le_refl, if_true] at hc
      have hn : ¬ (block + 1 ≤ block) := by omega
      simp only [hn, if_false]
      exact CheckBlockCollisions_body_only_hit d s block c hc hlt
    · have hmiss : CheckBlockCollisions_body d (collisionPoints s.g_Ball) block c = c := by
        apply CheckBlockCollisions_body_miss
        rw [hc.2.1 block hbj]
        exact hother block (by rw [← hc.1]; exact hblock) hbj
      rw [hmiss]
      have hiff : (block + 1 ≤ j) ↔ (block ≤ j) := by omega
      simp only [hiff]
      exact hc

/-- The ball wedged at the corner of a block with counter 3 touches it at two
sample points: the block stays, with counter 1. -/
theorem CheckBlockCollisions_corner_wedge_witness :
    (blockAt demoCorner.g_Blocks 0).num_hits = 3 ∧
    demoCorner.g_Ball.points_in (blockAt demoCorner.g_Blocks 0).screen_location = 2 ∧
    ∃ r, CheckBlockCollisions demoDefines demoCorner = some r ∧ r.g_NumBlocks = 2 ∧
      (blockAt r.g_Blocks 0).screen_location = ⟨40, 60, 80, 20⟩ ∧
      (blockAt r.g_Blocks 0).num_hits = 1 := by
  obtain ⟨r, hr, h1, -, h3, h4, -⟩ := CheckBlockCollisions_corner_wedge demoDefines demoCorner 0
    (by decide) (by decide)
    (fun i hi hne => by
      have h2 : (i : Int) < 2 := hi
      have : i = 1 := by omega
      subst this
      decide)
  exact ⟨by decide, by decide, r, hr, h1, h3, h4⟩

/-! ## The depth of the stack -/

theorem main_pass_of_top (d : Defines) (ev : Option SDL_Event) (s : Globals) (fn : StateFn)
    (h : s.g_StateStack.top = ⟨some fn⟩) : main_pass d ev s = fn.frame d ev s := by
  simp [main_pass, h]

/-- Every step of `StackReachable` keeps the stack in one of the six shapes. -/
theorem StackReachable.stack_shape {d : Defines} {s : Globals} (h : StackReachable d s) :
    s.g_StateStack.shape_ok := by
  induction h with
  | init ticks => exact Init_shape d ticks
  | menu ev _ htop ih =>
    exact main_pass_shape d ev _ _ (by rw [main_pass_of_top d ev _ _ htop]; rfl) ih
  | @game ev s _ htop ih =>
    rcases HandleGameInput_stack d ev s with hg | hg | hg <;> rw [hg]
    · exact ih
    · exact ih.pop
    · exact ih.clear
  | exit ev _ htop ih =>
    exact main_pass_shape d ev _ _ (by rw [main_pass_of_top d ev _ _ htop]; rfl) ih
  | won ev _ htop ih =>
    exact main_pass_shape d ev _ _ (by rw [main_pass_of_top d ev _ _ htop]; rfl) ih
  | lost ev _ htop ih =>
    exact main_pass_shape d ev _ _ (by rw [main_pass_of_top d ev _ _ htop]; rfl) ih
  | ball _ hr ih => exact HandleBall_shape d _ _ hr ih
  | loss _ ih => rw [HandleLoss_stack]; exact ih.clear_push_lost
  | win _ ih => rw [HandleWin_stack]; exact ih.clear_push_won

/-- A processed frame of the state on top is made of steps of `StackReachable`. -/
theorem main_pass_stackReachable (d : Defines) (ev : Option SDL_Event) (s r : Globals)
    (h : main_pass d ev s = some r) (hs : StackReachable d s) : StackReachable d r := by
  unfold main_pass at h
  cases hp : s.g_StateStack.top with
  | mk ptr =>
    rw [hp] at h
    cases ptr with
    | none => simp at h
    | some fn =>
      simp only at h
      cases fn <;> simp only [StateFn.frame, Option.some.injEq] at h
      · subst h; exact StackReachable.menu ev hs hp
      · exact StackReachable.ball (StackReachable.game ev hs hp) h
      · subst h; exact StackReachable.exit ev hs hp
      · subst h; exact StackReachable.won ev hs hp
      · subst h; exact StackReachable.lost ev hs hp

theorem main_loop_stackReachable (d : Defines) (evs : List (Option SDL_Event)) :
    ∀ (s r : Globals), main_loop d evs s = some r → StackReachable d s →
      StackReachable d r := by
  induction evs with
  | nil =>
    intro s r h hs
    simp only [main_loop, Option.some.injEq] at h
    subst h; exact hs
  | cons ev evs ih =>
    intro s r h hs
    simp only [main_loop] at h
    split_ifs at h
    · cases hp : main_pass d ev s with
      | none => rw [hp] at h; simp at h
      | some m =>
        rw [hp] at h
        simp only [Option.some_bind] at h
        exact ih m r h (main_pass_stackReachable d ev s m hp hs)
    · simp only [Option.some.injEq] at h
      subst h; exact hs

/-- Every state that the loop of `main` reaches is reached by steps of
`StackReachable`. -/
theorem Reachable.stackReachable {d : Defines} {s : Globals} (h : Reachable d s) :
    StackReachable d s := by
  obtain ⟨ticks, evs, h⟩ := h
  exact main_loop_stackReachable d evs _ _ h (StackReachable.init ticks)

/-- C23. In every state reached from `Init` by input handling of the state on top,
`HandleBall`, and loss and win transitions, the stack holds at most 3 entries.  So
the test `stack_size < MAX_STACK_SIZE` of `push` holds wherever `push` is called:
on the stack of such a state (`HandleMenuInput`, `HandleExitInput`), on that stack
popped once and then with one more entry (`HandleWinLoseInput`), on a cleared
stack (`HandleLoss`, `HandleWin`), and on the new stack and the stack with one
entry (`Init`).  And when the stack is not empty, which is when the loop of `main`
evaluates `top()`, `top()` is the last live entry, a state function; when it is
empty the loop ends. -/
theorem StackReachable.capacity_not_reached (d : Defines) (s : Globals)
    (h : StackReachable d s) :
    s.g_StateStack.entries.length ≤ 3 ∧ s.g_StateStack.stack_size ≤ 3 ∧
    s.g_StateStack.stack_size < MAX_STACK_SIZE ∧
    s.g_StateStack.pop.stack_size < MAX_STACK_SIZE ∧
    (∀ ptr, (s.g_StateStack.pop.push ptr).stack_size < MAX_STACK_SIZE) ∧
    s.g_StateStack.clear.stack_size < MAX_STACK_SIZE ∧
    (s.g_StateStack.empty = false →
      ∃ fn, s.g_StateStack.top = ⟨some fn⟩ ∧
        s.g_StateStack.entries.getLast? = some ⟨some fn⟩ ∧
        ∀ ev, main_pass d ev s = fn.frame d ev s) ∧
    (s.g_StateStack.empty = true → ∀ evs, main_loop d evs s = some s) ∧
    StateStack.ctor.stack_size < MAX_STACK_SIZE ∧
    (∀ ptr, (StateStack.ctor.push ptr).stack_size < MAX_STACK_SIZE) := by
  have hs := h.stack_shape
  obtain ⟨hsz, h3⟩ := hs.size
  have hM : MAX_STACK_SIZE = 16 := rfl
  have hpop : s.g_StateStack.pop.stack_size ≤ 3 := hs.pop.size.2
  refine ⟨by omega, h3, by omega, by omega, ?_, ?_, ?_, ?_, by decide, fun ptr => by
    simp [StateStack.push, StateStack.ctor, MAX_STACK_SIZE]⟩
  · intro ptr
    have := (StateStack.entries_push s.g_StateStack.pop ptr (by omega)
      (by have := hs.pop.1; omega)).2.2
    omega
  · rw [StateStack.clear_eq]; simp [hM]
  · intro he
    have h0 : s.g_StateStack.stack_size ≠ 0 := by
      intro hc
      simp [StateStack.empty, hc] at he
    have hlast := StateStack.top_eq_getLast s.g_StateStack hs.size_le_length h0
    have hm := hs.2
    simp only [stackShapes, List.mem_cons, List.mem_singleton, List.not_mem_nil, or_false] at hm
    have key : ∃ fn, s.g_StateStack.top = ⟨some fn⟩ := by
      rcases hm with e | e | e | e | e | e <;> rw [e] at hlast hsz
      · simp at hsz; exact absurd hsz h0
      all_goals
        simp only [List.getLast?_singleton, List.getLast?_cons_cons, Option.some.injEq] at hlast
        exact ⟨_, hlast.symm⟩
    obtain ⟨fn, hfn⟩ := key
    exact ⟨fn, hfn, by rw [hlast, hfn], fun ev => main_pass_of_top d ev s fn hfn⟩
  · intro he evs
    cases evs with
    | nil => rfl
    | cons ev evs => simp [main_loop, he]

/-- The game is started from the menu: the stack Exit, Menu, Game has 3 entries, a
further `push` would store, and `top()` is Game. -/
theorem StackReachable.capacity_not_reached_witness :
    (HandleMenuInput (some (SDL_Event.SDL_KEYDOWN SDLKey.SDLK_g))
      (Init demoDefines 0)).g_StateStack.entries.length ≤ 3 ∧
    (HandleMenuInput (some (SDL_Event.SDL_KEYDOWN SDLKey.SDLK_g))
      (Init demoDefines 0)).g_StateStack.stack_size < MAX_STACK_SIZE ∧
    (HandleMenuInput (some (SDL_Event.SDL_KEYDOWN SDLKey.SDLK_g))
      (Init demoDefines 0)).g_StateStack.entries.length = 3 :=
  have h := StackReachable.capacity_not_reached demoDefines _
    (StackReachable.menu (some (SDL_Event.SDL_KEYDOWN SDLKey.SDLK_g))
      (StackReachable.init 0) (by decide))
  ⟨h.1, h.2.2.1, by decide⟩

/-! ## The ball and the lives along a run -/

theorem ChangeLevel_ball (d : Defines) (s : Globals) :
    (ChangeLevel d s).g_Ball = s.g_Ball.reset d := by
  unfold ChangeLevel
  simp only
  split_ifs
  · rw [(HandleWin_session d _).2.2.1]
  · have hf := InitBlocks_outside d
      { s with g_Level := s.g_Level + 1, g_Ball := s.g_Ball.reset d, g_NumBlocks := 0 }
    have hB := congrArg Globals.g_Ball hf
    simpa [Globals.outside_blocks] using hB

theorem ChangeLevel_lives (d : Defines) (s : Globals) :
    (ChangeLevel d s).g_Lives = s.g_Lives ∨ (ChangeLevel d s).g_Lives = d.NUM_LIVES := by
  unfold ChangeLevel
  simp only
  split_ifs
  · right; rw [(HandleWin_session d _).2.1]
  · left
    have hf := InitBlocks_outside d
      { s with g_Level := s.g_Level + 1, g_Ball := s.g_Ball.reset d, g_NumBlocks := 0 }
    have hB := congrArg Globals.g_Lives hf
    simpa [Globals.outside_blocks] using hB

/-- A call of `HandleBlockCollision` leaves the ball alone or puts it back to the
centre, and leaves the lives alone or sets them to `NUM_LIVES`. -/
theorem HandleBlockCollision_ball (d : Defines) (s : Globals) (index : Int) :
    ((HandleBlockCollision d s index).g_Ball = s.g_Ball ∨
      (HandleBlockCollision d s index).g_Ball = s.g_Ball.reset d) ∧
    ((HandleBlockCollision d s index).g_Lives = s.g_Lives ∨
      (HandleBlockCollision d s index).g_Lives = d.NUM_LIVES) := by
  unfold HandleBlockCollision
  simp only
  split_ifs
  · exact ⟨Or.inr (ChangeLevel_ball d _), ChangeLevel_lives d _⟩
  · exact ⟨Or.inl rfl, Or.inl rfl⟩
  · exact ⟨Or.inl rfl, Or.inl rfl⟩

/-- The scan of `CheckBlockCollisions` leaves the ball alone unless a level change
was triggered, and then the ball is put back to the centre; the lives are left
alone or set to `NUM_LIVES`. -/
theorem CheckBlockCollisions_scan_ball (d : Defines) (s : Globals) (sc : Scan)
    (h : CheckBlockCollisions_scan d s = some sc) :
    (sc.reloaded = false → sc.game.g_Ball = s.g_Ball) ∧
    (sc.game.g_Ball = s.g_Ball ∨ sc.game.g_Ball = s.g_Ball.reset d) ∧
    (sc.game.g_Lives = s.g_Lives ∨ sc.game.g_Lives = d.NUM_LIVES) := by
  refine ⟨?_, ?_⟩
  · intro hr
    have := (CheckBlockCollisions_loop_frame d _ s _ _ _ sc h (fun _ => ⟨rfl, le_refl _⟩) hr).1
    have hB := congrArg Globals.g_Ball this
    simpa [Globals.outside_blocks] using hB
  · refine CheckBlockCollisions_loop_keeps d (collisionPoints s.g_Ball)
      (fun c => (c.game.g_Ball = s.g_Ball ∨ c.game.g_Ball = s.g_Ball.reset d) ∧
        (c.game.g_Lives = s.g_Lives ∨ c.game.g_Lives = d.NUM_LIVES)) ?_ _ _ _ _ h
      ⟨Or.inl rfl, Or.inl rfl⟩
    intro block c hc _
    refine CheckBlockCollisions_body_keeps d _ block
      (fun c => (c.game.g_Ball = s.g_Ball ∨ c.game.g_Ball = s.g_Ball.reset d) ∧
        (c.game.g_Lives = s.g_Lives ∨ c.game.g_Lives = d.NUM_LIVES)) ?_ ?_ c hc
    · intro c hc
      simp only [CheckBlockCollisions_hit]
      obtain ⟨hb, hl⟩ := HandleBlockCollision_ball d c.game block
      constructor
      · rcases hb with hb | hb <;> rw [hb]
        · exact hc.1
        · right
          rcases hc.1 with e | e <;> rw [e]
          rfl
      · rcases hl with hl | hl
        · rw [hl]; exact hc.2
        · right; exact hl
    · intro c t b l r hc
      exact hc

/-- The four `if`s after the loop of `CheckBlockCollisions` keep the vertical speed
or negate it, and change nothing outside the ball. -/
theorem CheckBlockCollisions_bounce_y_speed (d : Defines) (sc : Scan) :
    ((CheckBlockCollisions_bounce d sc).g_Ball.y_speed = sc.game.g_Ball.y_speed ∨
      (CheckBlockCollisions_bounce d sc).g_Ball.y_speed = -sc.game.g_Ball.y_speed) ∧
    (CheckBlockCollisions_bounce d sc).g_Lives = sc.game.g_Lives := by
  refine ⟨?_, rfl⟩
  unfold CheckBlockCollisions_bounce
  simp only
  split_ifs <;> simp

/-- The function `MoveBall` and the vertical speed: 0 when the ball is put back to
the centre, else kept or negated. -/
theorem MoveBall_y_speed (d : Defines) (s : Globals) :
    (MoveBall_docks d s = true → (MoveBall d s).g_Ball.y_speed = 0) ∧
    (MoveBall_docks d s = false →
      (MoveBall d s).g_Ball.y_speed = s.g_Ball.y_speed ∨
        (MoveBall d s).g_Ball.y_speed = -s.g_Ball.y_speed) := by
  unfold MoveBall_docks
  simp only [decide_eq_true_eq, decide_eq_false_iff_not]
  constructor
  · intro h
    simp only [MoveBall, h, if_true]
    split_ifs
    · rw [(HandleLoss_session d _).2.2.1]; rfl
    · rfl
  · intro h
    simp only [MoveBall, h, if_false]
    rw [(MoveBall_walls_spec d s.g_Ball).2.2.1]
    split_ifs
    · right; rfl
    · left; rfl

/-- The state in which `HandleBall` calls `CheckBlockCollisions`, and the vertical
speed in it. -/
theorem HandleBall_before_blocks_y_speed (d : Defines) (s : Globals) :
    (MoveBall_docks d s = true → (HandleBall_before_blocks d s).g_Ball.y_speed = 0) ∧
    (MoveBall_docks d s = false →
      (HandleBall_before_blocks d s).g_Ball.y_speed = s.g_Ball.y_speed ∨
        (HandleBall_before_blocks d s).g_Ball.y_speed = -s.g_Ball.y_speed) := by
  obtain ⟨h1, h2⟩ := MoveBall_y_speed d s
  unfold HandleBall_before_blocks
  constructor
  · intro h
    split_ifs
    · simp only [HandleBall_paddle, h1 h]; rfl
    · exact h1 h
  · intro h
    split_ifs
    · simp only [HandleBall_paddle]
      rcases h2 h with e | e <;> rw [e]
      · right; rfl
      · left; simp
    · exact h2 h

theorem Ball.y_speed_ok_of_eq {d : Defines} {b b1 : Ball} (h : b.y_speed_ok d)
    (hb : b1.y_speed = b.y_speed ∨ b1.y_speed = -b.y_speed) : b1.y_speed_ok d := by
  unfold Ball.y_speed_ok at h ⊢
  omega

/-- The function `HandleBall` keeps the vertical speed among 0, `BALL_SPEED_Y` and
`-BALL_SPEED_Y`. -/
theorem HandleBall_y_speed_ok (d : Defines) (s r : Globals) (h : HandleBall d s = some r)
    (hs : s.g_Ball.y_speed_ok d) : r.g_Ball.y_speed_ok d := by
  rw [HandleBall_eq] at h
  unfold CheckBlockCollisions at h
  cases hsc : CheckBlockCollisions_scan d (HandleBall_before_blocks d s) with
  | none => rw [hsc] at h; simp at h
  | some sc =>
    rw [hsc] at h
    simp only [Option.map_some', Option.some.injEq] at h
    subst h
    have hb : (HandleBall_before_blocks d s).g_Ball.y_speed_ok d := by
      obtain ⟨h1, h2⟩ := HandleBall_before_blocks_y_speed d s
      cases hd : MoveBall_docks d s
      · exact Ball.y_speed_ok_of_eq hs (h2 hd)
      · exact Or.inl (h1 hd)
    have hscan : sc.game.g_Ball.y_speed_ok d := by
      rcases (CheckBlockCollisions_scan_ball d _ sc hsc).2.1 with e | e <;> rw [e]
      · exact hb
      · exact Or.inl rfl
    exact Ball.y_speed_ok_of_eq hscan (CheckBlockCollisions_bounce_y_speed d sc).1

theorem HandleGameInput_move_ball (d : Defines) (s : Globals) :
    (HandleGameInput_move d s).g_Ball = s.g_Ball ∧
    (HandleGameInput_move d s).g_Lives = s.g_Lives := by
  unfold HandleGameInput_move
  simp only
  split_ifs <;> exact ⟨rfl, rfl⟩

/-- The function `HandleGameInput` leaves the ball alone, or launches a ball whose
vertical speed is 0 with the vertical speed `BALL_SPEED_Y`; it leaves the lives
alone. -/
theorem HandleGameInput_ball (d : Defines) (ev : Option SDL_Event) (s : Globals) :
    ((HandleGameInput d ev s).g_Ball = s.g_Ball ∨
      (s.g_Ball.y_speed = 0 ∧
        (HandleGameInput d ev s).g_Ball = { s.g_Ball with y_speed := d.BALL_SPEED_Y })) ∧
    (HandleGameInput d ev s).g_Lives = s.g_Lives := by
  unfold HandleGameInput
  split
  · exact ⟨Or.inl rfl, rfl⟩
  · simp only [(HandleGameInput_move_ball d _).1, (HandleGameInput_move_ball d _).2,
      apply_ite Globals.g_Ball, apply_ite Globals.g_Lives]
    split_ifs <;>
      first
        | exact ⟨Or.inl rfl, rfl⟩
        | exact ⟨Or.inr ⟨by assumption, rfl⟩, rfl⟩
  · simp only [(HandleGameInput_move_ball d _).1, (HandleGameInput_move_ball d _).2,
      apply_ite Globals.g_Ball, apply_ite Globals.g_Lives]
    split_ifs <;> exact ⟨Or.inl rfl, rfl⟩
  · exact ⟨Or.inl (HandleGameInput_move_ball d _).1, (HandleGameInput_move_ball d _).2⟩

/-- The input handlers of the menu, the exit screen and the win and lose screens
change nothing but the stack. -/
theorem HandleMenuInput_ball (ev : Option SDL_Event) (s : Globals) :
    (HandleMenuInput ev s).g_Ball = s.g_Ball ∧ (HandleMenuInput ev s).g_Lives = s.g_Lives := by
  unfold HandleMenuInput
  split
  · exact ⟨rfl, rfl⟩
  · split_ifs <;> exact ⟨rfl, rfl⟩
  · exact ⟨rfl, rfl⟩

theorem HandleExitInput_ball (ev : Option SDL_Event) (s : Globals) :
    (HandleExitInput ev s).g_Ball = s.g_Ball ∧ (HandleExitInput ev s).g_Lives = s.g_Lives := by
  unfold HandleExitInput
  split
  · exact ⟨rfl, rfl⟩
  · split_ifs <;> exact ⟨rfl, rfl⟩
  · exact ⟨rfl, rfl⟩

theorem HandleWinLoseInput_ball (ev : Option SDL_Event) (s : Globals) :
    (HandleWinLoseInput ev s).g_Ball = s.g_Ball ∧
    (HandleWinLoseInput ev s).g_Lives = s.g_Lives := by
  unfold HandleWinLoseInput
  split
  · exact ⟨rfl, rfl⟩
  · split_ifs <;> exact ⟨rfl, rfl⟩
  · exact ⟨rfl, rfl⟩

/-- A processed frame is a frame of one of the five state functions. -/
theorem main_pass_cases (d : Defines) (ev : Option SDL_Event) (s r : Globals)
    (h : main_pass d ev s = some r) :
    r = HandleMenuInput ev s ∨ r = HandleExitInput ev s ∨ r = HandleWinLoseInput ev s ∨
      (s.g_StateStack.top = ⟨some StateFn.Game⟩ ∧ HandleBall d (HandleGameInput d ev s) = some r) := by
  unfold main_pass at h
  cases hp : s.g_StateStack.top with
  | mk ptr =>
    rw [hp] at h
    cases ptr with
    | none => simp at h
    | some fn =>
      simp only at h
      cases fn <;> simp only [StateFn.frame, Option.some.injEq] at h
      · left; exact h.symm
      · right; right; right; exact ⟨rfl, h⟩
      · right; left; exact h.symm
      · right; right; left; exact h.symm
      · right; right; left; exact h.symm

/-- A property of the globals that `Init` sets up and every processed frame keeps
holds in every state that is reached. -/
theorem Reachable.induction_on {d : Defines} (P : Globals → Prop)
    (hinit : ∀ ticks, P (Init d ticks))
    (hpass : ∀ ev s r, main_pass d ev s = some r → P s → P r) :
    ∀ s, Reachable d s → P s := by
  have key : ∀ (evs : List (Option SDL_Event)) (s r : Globals),
      main_loop d evs s = some r → P s → P r := by
    intro evs
    induction evs with
    | nil =>
      intro s r h hs
      simp only [main_loop, Option.some.injEq] at h
      subst h; exact hs
    | cons ev evs ih =>
      intro s r h hs
      simp only [main_loop] at h
      split_ifs at h
      · cases hp : main_pass d ev s with
        | none => rw [hp] at h; simp at h
        | some m =>
          rw [hp] at h
          simp only [Option.some_bind] at h
          exact ih m r h (hpass ev s m hp hs)
      · simp only [Option.some.injEq] at h
        subst h; exact hs
  intro s ⟨ticks, evs, h⟩
  exact key evs _ _ h (hinit ticks)

theorem Init_ball (d : Defines) (ticks : Int) :
    (Init d ticks).g_Ball.y_speed = 0 ∧ (Init d ticks).g_Lives = d.NUM_LIVES := by
  unfold Init
  simp only
  have hf := InitBlocks_outside d
    { Globals.static d with
      g_Timer := Sint32 ticks
      g_Player :=
        { screen_location :=
            { x := Int.tdiv d.WINDOW_WIDTH 2 - Int.tdiv d.PADDLE_WIDTH 2
              y := d.PLAYER_Y
              w := d.PADDLE_WIDTH
              h := d.PADDLE_HEIGHT }
          bitmap_location :=
            { x := d.PADDLE_BITMAP_X, y := d.PADDLE_BITMAP_Y, w := d.PADDLE_WIDTH
              h := d.PADDLE_HEIGHT }
          x_speed := d.PLAYER_SPEED }
      g_Lives := d.NUM_LIVES
      g_Ball :=
        { screen_location :=
            { x := Int.tdiv d.WINDOW_WIDTH 2 - Int.tdiv d.BALL_DIAMETER 2
              y := Int.tdiv d.WINDOW_HEIGHT 2 - Int.tdiv d.BALL_DIAMETER 2
              w := d.BALL_DIAMETER
              h := d.BALL_DIAMETER }
          bitmap_location :=
            { x := d.BALL_BITMAP_X, y := d.BALL_BITMAP_Y, w := d.BALL_DIAMETER
              h := d.BALL_DIAMETER }
          x_speed := 0
          y_speed := 0 } }
  have hB := congrArg Globals.g_Ball hf
  have hL := congrArg Globals.g_Lives hf
  simp only [Globals.outside_blocks] at hB hL
  rw [hB, hL]
  exact ⟨rfl, rfl⟩

/-- A processed frame keeps the vertical speed among 0, `BALL_SPEED_Y` and
`-BALL_SPEED_Y`. -/
theorem main_pass_y_speed_ok (d : Defines) (ev : Option SDL_Event) (s r : Globals)
    (h : main_pass d ev s = some r) (hs : s.g_Ball.y_speed_ok d) : r.g_Ball.y_speed_ok d := by
  rcases main_pass_cases d ev s r h with e | e | e | ⟨-, e⟩
  · rw [e, (HandleMenuInput_ball ev s).1]; exact hs
  · rw [e, (HandleExitInput_ball ev s).1]; exact hs
  · rw [e, (HandleWinLoseInput_ball ev s).1]; exact hs
  · refine HandleBall_y_speed_ok d _ r e ?_
    rcases (HandleGameInput_ball d ev s).1 with hb | ⟨-, hb⟩ <;> rw [hb]
    · exact hs
    · exact Or.inr (Or.inl rfl)

/-- C24. In every state that is reached from `Init` the vertical speed of the ball
is 0, `BALL_SPEED_Y` or `-BALL_SPEED_Y`.  In any state whose ball has a vertical
speed other than 0 the space key leaves the ball as it is.  And a processed frame
that takes a vertical speed other than 0 to the vertical speed 0 is a frame of
`Game` in which `MoveBall` puts the ball back to the centre (the ball passed the
bottom of the window) or a call of `HandleBlockCollision` reaches `ChangeLevel`. -/
theorem ball_y_speed_invariant (d : Defines) :
    (∀ s, Reachable d s →
      s.g_Ball.y_speed = 0 ∨ s.g_Ball.y_speed = d.BALL_SPEED_Y ∨
        s.g_Ball.y_speed = -d.BALL_SPEED_Y) ∧
    (∀ s : Globals, s.g_Ball.y_speed ≠ 0 →
      (HandleGameInput d (some (SDL_Event.SDL_KEYDOWN SDLKey.SDLK_SPACE)) s).g_Ball = s.g_Ball) ∧
    (∀ (s r : Globals) (ev : Option SDL_Event), main_pass d ev s = some r →
      s.g_Ball.y_speed ≠ 0 → r.g_Ball.y_speed = 0 →
      s.g_StateStack.top = ⟨some StateFn.Game⟩ ∧
      (MoveBall_docks d (HandleGameInput d ev s) = true ∨
        ∃ sc, CheckBlockCollisions_scan d
            (HandleBall_before_blocks d (HandleGameInput d ev s)) = some sc ∧
          sc.reloaded = true)) := by
  refine ⟨?_, ?_, ?_⟩
  · exact Reachable.induction_on (fun s => s.g_Ball.y_speed_ok d)
      (fun ticks => Or.inl (Init_ball d ticks).1) (main_pass_y_speed_ok d)
  · intro s hs
    rcases (HandleGameInput_ball d (some (SDL_Event.SDL_KEYDOWN SDLKey.SDLK_SPACE)) s).1 with
      h | ⟨h, -⟩
    · exact h
    · exact absurd h hs
  · intro s r ev h hs hr
    rcases main_pass_cases d ev s r h with e | e | e | ⟨htop, e⟩
    · rw [e, (HandleMenuInput_ball ev s).1] at hr; exact absurd hr hs
    · rw [e, (HandleExitInput_ball ev s).1] at hr; exact absurd hr hs
    · rw [e, (HandleWinLoseInput_ball ev s).1] at hr; exact absurd hr hs
    · refine ⟨htop, ?_⟩
      have hin : (HandleGameInput d ev s).g_Ball = s.g_Ball := by
        rcases (HandleGameInput_ball d ev s).1 with hb | ⟨hb, -⟩
        · exact hb
        · exact absurd hb hs
      rw [HandleBall_eq] at e
      unfold CheckBlockCollisions at e
      cases hsc : CheckBlockCollisions_scan d (HandleBall_before_blocks d (HandleGameInput d ev s)) with
      | none => rw [hsc] at e; simp at e
      | some sc =>
        rw [hsc] at e
        simp only [Option.map_some', Option.some.injEq] at e
        subst e
        by_contra hcon
        simp only [not_or, Bool.not_eq_true, not_exists, not_and] at hcon
        obtain ⟨hd, hre⟩ := hcon
        have hre2 : sc.reloaded = false := by
          have := hre sc rfl
          simpa using this
        have h1 := (HandleBall_before_blocks_y_speed d (HandleGameInput d ev s)).2 hd
        have h2 := (CheckBlockCollisions_scan_ball d _ sc hsc).1 hre2
        have h3 := (CheckBlockCollisions_bounce_y_speed d sc).1
        rw [h2] at h3
        rw [hin] at h1
        omega

/-- A ball falling at y = 590 with speed 10, three lives left: the frame of `Game`
takes the vertical speed from 10 to 0, and it does so by `MoveBall` putting the
ball back to the centre. -/
theorem ball_y_speed_invariant_witness :
    (demoFalling 3).g_StateStack.top = ⟨some StateFn.Game⟩ ∧
    (MoveBall_docks demoDefines (HandleGameInput demoDefines none (demoFalling 3)) = true ∨
      ∃ sc, CheckBlockCollisions_scan demoDefines
          (HandleBall_before_blocks demoDefines
            (HandleGameInput demoDefines none (demoFalling 3))) = some sc ∧
        sc.reloaded = true) :=
  (ball_y_speed_invariant demoDefines).2.2 (demoFalling 3)
    ((main_pass demoDefines none (demoFalling 3)).get (by decide)) none (by simp)
    (by decide) (by decide)

/-! ## The lives -/

/-- The function `MoveBall` keeps the lives from 1 to `NUM_LIVES` (given
`NUM_LIVES ≥ 1`). -/
theorem MoveBall_lives_ok (d : Defines) (hN : 1 ≤ d.NUM_LIVES) (s : Globals)
    (hs : s.lives_ok d) : (MoveBall d s).lives_ok d := by
  unfold Globals.lives_ok at hs ⊢
  unfold MoveBall
  simp only
  split_ifs with h1 h2
  · rw [(HandleLoss_session d _).2.1]; omega
  · simp only; omega
  · exact hs

/-- The function `HandleBall` keeps the lives from 1 to `NUM_LIVES` (given
`NUM_LIVES ≥ 1`). -/
theorem HandleBall_lives_ok (d : Defines) (hN : 1 ≤ d.NUM_LIVES) (s r : Globals)
    (h : HandleBall d s = some r) (hs : s.lives_ok d) : r.lives_ok d := by
  rw [HandleBall_eq] at h
  unfold CheckBlockCollisions at h
  cases hsc : CheckBlockCollisions_scan d (HandleBall_before_blocks d s) with
  | none => rw [hsc] at h; simp at h
  | some sc =>
    rw [hsc] at h
    simp only [Option.map_some', Option.some.injEq] at h
    subst h
    have hm := MoveBall_lives_ok d hN s hs
    have hb : (HandleBall_before_blocks d s).lives_ok d := by
      unfold HandleBall_before_blocks
      split_ifs
      · exact hm
      · exact hm
    unfold Globals.lives_ok at hb ⊢
    rw [(CheckBlockCollisions_bounce_y_speed d sc).2]
    rcases (CheckBlockCollisions_scan_ball d _ sc hsc).2.2 with e | e <;> rw [e]
    · exact hb
    · omega

theorem main_pass_lives_ok (d : Defines) (hN : 1 ≤ d.NUM_LIVES) (ev : Option SDL_Event)
    (s r : Globals) (h : main_pass d ev s = some r) (hs : s.lives_ok d) : r.lives_ok d := by
  rcases main_pass_cases d ev s r h with e | e | e | ⟨-, e⟩
  · unfold Globals.lives_ok; rw [e, (HandleMenuInput_ball ev s).2]; exact hs
  · unfold Globals.lives_ok; rw [e, (HandleExitInput_ball ev s).2]; exact hs
  · unfold Globals.lives_ok; rw [e, (HandleWinLoseInput_ball ev s).2]; exact hs
  · refine HandleBall_lives_ok d hN _ r e ?_
    unfold Globals.lives_ok
    rw [(HandleGameInput_ball d ev s).2]
    exact hs

/-- C25. Given `NUM_LIVES ≥ 1`: in every state that is reached from `Init` the
lives are from 1 to `NUM_LIVES`; `MoveBall` and `HandleBall` take a state with the
lives in that range to a state with the lives in that range; and a `MoveBall` that
takes the last life returns with `NUM_LIVES` lives. -/
theorem lives_invariant (d : Defines) (hN : 1 ≤ d.NUM_LIVES) :
    (∀ s, Reachable d s → 1 ≤ s.g_Lives ∧ s.g_Lives ≤ d.NUM_LIVES) ∧
    (∀ s : Globals, 1 ≤ s.g_Lives ∧ s.g_Lives ≤ d.NUM_LIVES →
      1 ≤ (MoveBall d s).g_Lives ∧ (MoveBall d s).g_Lives ≤ d.NUM_LIVES) ∧
    (∀ s : Globals, 1 ≤ s.g_Lives ∧ s.g_Lives ≤ d.NUM_LIVES →
      ∃ r, HandleBall d s = some r ∧ 1 ≤ r.g_Lives ∧ r.g_Lives ≤ d.NUM_LIVES) ∧
    (∀ s : Globals, MoveBall_docks d s = true → s.g_Lives = 1 →
      (MoveBall d s).g_Lives = d.NUM_LIVES) := by
  refine ⟨?_, ?_, ?_, ?_⟩
  · exact Reachable.induction_on (fun s => s.lives_ok d)
      (fun ticks => by
        show 1 ≤ (Init d ticks).g_Lives ∧ (Init d ticks).g_Lives ≤ d.NUM_LIVES
        rw [(Init_ball d ticks).2]; exact ⟨hN, le_refl _⟩)
      (main_pass_lives_ok d hN)
  · intro s hs
    exact MoveBall_lives_ok d hN s hs
  · intro s hs
    obtain ⟨r, hr⟩ := HandleBall_returns d s
    exact ⟨r, hr, HandleBall_lives_ok d hN s r hr hs⟩
  · intro s hd h1
    unfold MoveBall_docks at hd
    simp only [decide_eq_true_eq] at hd
    have h0 : s.g_Lives - 1 = 0 := by omega
    simp only [MoveBall, hd, if_true, h0]
    exact (HandleLoss_session d _).2.1

/-- With 5 lives to start with: the ball that falls out with one life left leaves 5
lives, the ball that falls out with three lives left leaves 2. -/
theorem lives_invariant_witness :
    (MoveBall demoDefines (demoFalling 1)).g_Lives = demoDefines.NUM_LIVES ∧
    (1 ≤ (MoveBall demoDefines (demoFalling 3)).g_Lives ∧
      (MoveBall demoDefines (demoFalling 3)).g_Lives ≤ demoDefines.NUM_LIVES) ∧
    (MoveBall demoDefines (demoFalling 3)).g_Lives = 2 :=
  ⟨(lives_invariant demoDefines (by decide)).2.2.2 (demoFalling 1) (by decide) (by decide),
   (lives_invariant demoDefines (by decide)).2.1 (demoFalling 3) (by decide),
   by decide⟩

/-! ## The flags of the scan and the sample points -/

theorem blockAt_setBlock_cases (bs : List Block) (i k : Int) (b : Block) :
    blockAt (setBlock bs i b) k = blockAt bs k ∨ (k = i ∧ blockAt (setBlock bs i b) k = b) := by
  by_cases hk : k = i
  · subst hk
    by_cases h0 : 0 ≤ k
    · by_cases hl : k < bs.length
      · exact Or.inr ⟨rfl, blockAt_setBlock_self _ _ _ h0 hl⟩
      · left
        unfold setBlock
        rw [if_pos h0, List.set_eq_of_length_le (by omega)]
    · left
      unfold setBlock
      rw [if_neg h0]
  · exact Or.inl (blockAt_setBlock_of_ne _ _ _ _ hk)

theorem HandleBlockCollision_switch_rect (d : Defines) (b : Block) :
    (HandleBlockCollision_switch d b).screen_location = b.screen_location := by
  unfold HandleBlockCollision_switch
  split_ifs <;> rfl

/-- A call of `HandleBlockCollision` that does not reach `ChangeLevel` keeps the
block count or lowers it by one to a count that is not 0, and leaves in every slot
the rectangle that was there or the rectangle of the last present block. -/
theorem HandleBlockCollision_rects (d : Defines) (s : Globals) (index : Int)
    (h : HandleBlockCollision_reloads s index = false) :
    ((HandleBlockCollision d s index).g_NumBlocks = s.g_NumBlocks ∨
      ((HandleBlockCollision d s index).g_NumBlocks = s.g_NumBlocks - 1 ∧
        s.g_NumBlocks - 1 ≠ 0)) ∧
    ∀ k : Int,
      (blockAt (HandleBlockCollision d s index).g_Blocks k).screen_location =
          (blockAt s.g_Blocks k).screen_location ∨
        (blockAt (HandleBlockCollision d s index).g_Blocks k).screen_location =
          (blockAt s.g_Blocks (s.g_NumBlocks - 1)).screen_location := by
  have hdec : ∀ m : Int,
      (blockAt (setBlock s.g_Blocks index
        { blockAt s.g_Blocks index with
          num_hits := (blockAt s.g_Blocks index).num_hits - 1 }) m).screen_location =
        (blockAt s.g_Blocks m).screen_location := by
    intro m
    rcases blockAt_setBlock_cases s.g_Blocks index m
      { blockAt s.g_Blocks index with
        num_hits := (blockAt s.g_Blocks index).num_hits - 1 } with e | ⟨rfl, e⟩
    · rw [e]
    · rw [e]
  unfold HandleBlockCollision_reloads at h
  simp only [decide_eq_false_iff_not, not_and] at h
  unfold HandleBlockCollision
  simp only
  split_ifs with h1 h2
  · exact absurd h2 (h h1)
  · refine ⟨Or.inr ⟨rfl, h2⟩, ?_⟩
    intro k
    simp only
    rcases blockAt_setBlock_cases
      (setBlock s.g_Blocks index
        { blockAt s.g_Blocks index with
          num_hits := (blockAt s.g_Blocks index).num_hits - 1 }) index k
      (blockAt (setBlock s.g_Blocks index
        { blockAt s.g_Blocks index with
          num_hits := (blockAt s.g_Blocks index).num_hits - 1 }) (s.g_NumBlocks - 1))
      with e | ⟨-, e⟩
    · left; rw [e]; exact hdec k
    · right; rw [e]; exact hdec _
  · refine ⟨Or.inl rfl, ?_⟩
    intro k
    simp only
    left
    rcases blockAt_setBlock_cases
      (setBlock s.g_Blocks index
        { blockAt s.g_Blocks index with
          num_hits := (blockAt s.g_Blocks index).num_hits - 1 }) index k
      (HandleBlockCollision_switch d (blockAt (setBlock s.g_Blocks index
        { blockAt s.g_Blocks index with
          num_hits := (blockAt s.g_Blocks index).num_hits - 1 }) index))
      with e | ⟨hk, e⟩
    · rw [e]; exact hdec k
    · rw [e, HandleBlockCollision_switch_rect, hk]; exact hdec _

/-- A call of `HandleBlockCollision` on a block with a counter of 2 or more does not
reach `ChangeLevel`. -/
theorem HandleBlockCollision_reloads_of_two_le (s : Globals) (j : Nat)
    (h2 : 2 ≤ (blockAt s.g_Blocks j).num_hits) : HandleBlockCollision_reloads s j = false := by
  have hjl : j < s.g_Blocks.length := blockAt_lt_length _ _ (by omega)
  unfold HandleBlockCollision_reloads
  simp only [decide_eq_false_iff_not, not_and]
  intro h0
  rw [blockAt_setBlock_self _ _ _ (by omega) (by omega)] at h0
  simp only at h0
  omega

/-- One test of the loop body and the flags: when the sample point lies in the slot
the flags are those after the assignment to the flag, else they are as before; and
the ghost is not reset. -/
theorem CheckBlockCollisions_test_marks (d : Defines) (x y : Int) (mark : Scan → Scan)
    (block : Nat) (c : Scan) (hr : (mark c).reloaded = c.reloaded) :
    (CheckBlockCollisions_test d x y mark block c).top =
      (if CheckPointInRect x y (blockAt c.game.g_Blocks block).screen_location
        then (mark c).top else c.top) ∧
    (CheckBlockCollisions_test d x y mark block c).bottom =
      (if CheckPointInRect x y (blockAt c.game.g_Blocks block).screen_location
        then (mark c).bottom else c.bottom) ∧
    (CheckBlockCollisions_test d x y mark block c).left =
      (if CheckPointInRect x y (blockAt c.game.g_Blocks block).screen_location
        then (mark c).left else c.left) ∧
    (CheckBlockCollisions_test d x y mark block c).right =
      (if CheckPointInRect x y (blockAt c.game.g_Blocks block).screen_location
        then (mark c).right else c.right) ∧
    ((CheckBlockCollisions_test d x y mark block c).reloaded = false → c.reloaded = false) := by
  unfold CheckBlockCollisions_test
  split_ifs
  · refine ⟨rfl, rfl, rfl, rfl, ?_⟩
    intro h
    simp only [CheckBlockCollisions_hit, Bool.or_eq_false_iff] at h
    rw [← hr]; exact h.1
  · exact ⟨rfl, rfl, rfl, rfl, id⟩

/-- One test of the loop body against a slot whose counter is 2 or more when the
sample point lies in it: the counter drops by one for a point that lies in the
slot, and nothing else that the game logic reads changes. -/
theorem CheckBlockCollisions_test_tracked (d : Defines) (x y : Int) (mark : Scan → Scan)
    (block : Nat) (c : Scan) (hg : (mark c).game = c.game)
    (hr : (mark c).reloaded = c.reloaded)
    (h2 : CheckPointInRect x y (blockAt c.game.g_Blocks block).screen_location = true →
      2 ≤ (blockAt c.game.g_Blocks block).num_hits) :
    (CheckBlockCollisions_test d x y mark block c).game.g_NumBlocks = c.game.g_NumBlocks ∧
    (CheckBlockCollisions_test d x y mark block c).reloaded = c.reloaded ∧
    (∀ k : Nat, k ≠ block →
      blockAt (CheckBlockCollisions_test d x y mark block c).game.g_Blocks k =
        blockAt c.game.g_Blocks k) ∧
    (blockAt (CheckBlockCollisions_test d x y mark block c).game.g_Blocks block).screen_location =
      (blockAt c.game.g_Blocks block).screen_location ∧
    (blockAt (CheckBlockCollisions_test d x y mark block c).game.g_Blocks block).num_hits =
      (blockAt c.game.g_Blocks block).num_hits -
        (CheckPointInRect x y (blockAt c.game.g_Blocks block).screen_location).toNat := by
  unfold CheckBlockCollisions_test
  split_ifs with ht
  · have h2c : 2 ≤ (blockAt (mark c).game.g_Blocks block).num_hits := by
      rw [hg]; exact h2 ht
    obtain ⟨e1, e2, e3, e4⟩ := HandleBlockCollision_of_two_le d (mark c).game block h2c
    have e5 := HandleBlockCollision_reloads_of_two_le (mark c).game block h2c
    rw [hg] at e1 e2 e3 e4 e5
    simp only [CheckBlockCollisions_hit, hg, e5, Bool.or_false, ht, Bool.toNat_true]
    exact ⟨e1, hr, e2, e3, by rw [e4]; norm_num⟩
  · have hf : CheckPointInRect x y (blockAt c.game.g_Blocks block).screen_location = false := by
      simpa using ht
    simp [hf]

/-- The number of sample points in a rectangle, by the four tests of the loop body. -/
theorem Ball.points_in_toNat (b : Ball) (rect : SDL_Rect) :
    b.points_in rect =
      (CheckPointInRect (collisionPoints b).top_x (collisionPoints b).top_y rect).toNat +
      (CheckPointInRect (collisionPoints b).bottom_x (collisionPoints b).bottom_y rect).toNat +
      (CheckPointInRect (collisionPoints b).left_x (collisionPoints b).left_y rect).toNat +
      (CheckPointInRect (collisionPoints b).right_x (collisionPoints b).right_y rect).toNat := by
  rw [Ball.points_in_eq]
  cases CheckPointInRect (collisionPoints b).top_x (collisionPoints b).top_y rect <;>
    cases CheckPointInRect (collisionPoints b).bottom_x (collisionPoints b).bottom_y rect <;>
    cases CheckPointInRect (collisionPoints b).left_x (collisionPoints b).left_y rect <;>
    cases CheckPointInRect (collisionPoints b).right_x (collisionPoints b).right_y rect <;>
    rfl

/-- One pass of the loop body over a slot that holds the rectangle `R` with the
counter `h`.  Flags that are set stay set.  The flag of a sample point that lies in
`R` is set, as long as the sample points tested before it that lie in `R` are
fewer than `h`.  And when the sample points that lie in `R` are none or fewer than
`h`, the pass changes neither the block count, nor the ghost, nor another slot. -/
theorem CheckBlockCollisions_body_spec (d : Defines) (p : CollisionPoints) (block : Nat)
    (c : Scan) (R : SDL_Rect) (h : Int)
    (hR : (blockAt c.game.g_Blocks block).screen_location = R)
    (hh : (blockAt c.game.g_Blocks block).num_hits = h) :
    ((c.top = true → (CheckBlockCollisions_body d p block c).top = true) ∧
      (c.bottom = true → (CheckBlockCollisions_body d p block c).bottom = true) ∧
      (c.left = true → (CheckBlockCollisions_body d p block c).left = true) ∧
      (c.right = true → (CheckBlockCollisions_body d p block c).right = true)) ∧
    ((CheckPointInRect p.top_x p.top_y R = true →
        (CheckBlockCollisions_body d p block c).top = true) ∧
      (CheckPointInRect p.bottom_x p.bottom_y R = true →
        ((CheckPointInRect p.top_x p.top_y R).toNat : Int) < h →
        (CheckBlockCollisions_body d p block c).bottom = true) ∧
      (CheckPointInRect p.left_x p.left_y R = true →
        (((CheckPointInRect p.top_x p.top_y R).toNat +
          (CheckPointInRect p.bottom_x p.bottom_y R).toNat : Nat) : Int) < h →
        (CheckBlockCollisions_body d p block c).left = true) ∧
      (CheckPointInRect p.right_x p.right_y R = true →
        (((CheckPointInRect p.top_x p.top_y R).toNat +
          (CheckPointInRect p.bottom_x p.bottom_y R).toNat +
          (CheckPointInRect p.left_x p.left_y R).toNat : Nat) : Int) < h →
        (CheckBlockCollisions_body d p block c).right = true)) ∧
    (((CheckPointInRect p.top_x p.top_y R).toNat +
          (CheckPointInRect p.bottom_x p.bottom_y R).toNat +
          (CheckPointInRect p.left_x p.left_y R).toNat +
          (CheckPointInRect p.right_x p.right_y R).toNat = 0 ∨
        (((CheckPointInRect p.top_x p.top_y R).toNat +
          (CheckPointInRect p.bottom_x p.bottom_y R).toNat +
          (CheckPointInRect p.left_x p.left_y R).toNat +
          (CheckPointInRect p.right_x p.right_y R).toNat : Nat) : Int) < h) →
      (CheckBlockCollisions_body d p block c).game.g_NumBlocks = c.game.g_NumBlocks ∧
      (CheckBlockCollisions_body d p block c).reloaded = c.reloaded ∧
      ∀ k : Nat, k ≠ block →
        blockAt (CheckBlockCollisions_body d p block c).game.g_Blocks k =
          blockAt c.game.g_Blocks k) := by
  unfold CheckBlockCollisions_body
  simp only
  -- the four tests, one after the other
  have F1 := CheckBlockCollisions_test_marks d p.top_x p.top_y
    (fun c => { c with top := true }) block c rfl
  have K1 := CheckBlockCollisions_test_tracked d p.top_x p.top_y
    (fun c => { c with top := true }) block c rfl rfl
  generalize CheckBlockCollisions_test d p.top_x p.top_y
    (fun c => { c with top := true }) block c = c1 at F1 K1 ⊢
  have F2 := CheckBlockCollisions_test_marks d p.bottom_x p.bottom_y
    (fun c => { c with bottom := true }) block c1 rfl
  have K2 := CheckBlockCollisions_test_tracked d p.bottom_x p.bottom_y
    (fun c => { c with bottom := true }) block c1 rfl rfl
  generalize CheckBlockCollisions_test d p.bottom_x p.bottom_y
    (fun c => { c with bottom := true }) block c1 = c2 at F2 K2 ⊢
  have F3 := CheckBlockCollisions_test_marks d p.left_x p.left_y
    (fun c => { c with left := true }) block c2 rfl
  have K3 := CheckBlockCollisions_test_tracked d p.left_x p.left_y
    (fun c => { c with left := true }) block c2 rfl rfl
  generalize CheckBlockCollisions_test d p.left_x p.left_y
    (fun c => { c with left := true }) block c2 = c3 at F3 K3 ⊢
  have F4 := CheckBlockCollisions_test_marks d p.right_x p.right_y
    (fun c => { c with right := true }) block c3 rfl
  have K4 := CheckBlockCollisions_test_tracked d p.right_x p.right_y
    (fun c => { c with right := true }) block c3 rfl rfl
  generalize CheckBlockCollisions_test d p.right_x p.right_y
    (fun c => { c with right := true }) block c3 = c4 at F4 K4 ⊢
  simp only [ite_self] at F1 F2 F3 F4
  obtain ⟨t1, b1, l1, r1, -⟩ := F1
  obtain ⟨t2, b2, l2, r2, -⟩ := F2
  obtain ⟨t3, b3, l3, r3, -⟩ := F3
  obtain ⟨t4, b4, l4, r4, -⟩ := F4
  rw [hR, hh] at K1
  rw [hR] at t1
  -- what the slot holds after each test, under the condition that keeps the block
  have S1 : (CheckPointInRect p.top_x p.top_y R = true → 2 ≤ h) →
      (blockAt c1.game.g_Blocks block).screen_location = R ∧
      (blockAt c1.game.g_Blocks block).num_hits =
        h - (CheckPointInRect p.top_x p.top_y R).toNat := fun hc =>
    ⟨(K1 hc).2.2.2.1, (K1 hc).2.2.2.2⟩
  have S2 : (CheckPointInRect p.top_x p.top_y R = true → 2 ≤ h) →
      (CheckPointInRect p.bottom_x p.bottom_y R = true →
        2 ≤ h - (CheckPointInRect p.top_x p.top_y R).toNat) →
      (blockAt c2.game.g_Blocks block).screen_location = R ∧
      (blockAt c2.game.g_Blocks block).num_hits =
        h - (CheckPointInRect p.top_x p.top_y R).toNat -
          (CheckPointInRect p.bottom_x p.bottom_y R).toNat := by
    intro ha hb
    obtain ⟨e1, e2⟩ := S1 ha
    rw [e1, e2] at K2
    exact ⟨(K2 hb).2.2.2.1, (K2 hb).2.2.2.2⟩
  have S3 : (CheckPointInRect p.top_x p.top_y R = true → 2 ≤ h) →
      (CheckPointInRect p.bottom_x p.bottom_y R = true →
        2 ≤ h - (CheckPointInRect p.top_x p.top_y R).toNat) →
      (CheckPointInRect p.left_x p.left_y R = true →
        2 ≤ h - (CheckPointInRect p.top_x p.top_y R).toNat -
          (CheckPointInRect p.bottom_x p.bottom_y R).toNat) →
      (blockAt c3.game.g_Blocks block).screen_location = R ∧
      (blockAt c3.game.g_Blocks block).num_hits =
        h - (CheckPointInRect p.top_x p.top_y R).toNat -
          (CheckPointInRect p.bottom_x p.bottom_y R).toNat -
          (CheckPointInRect p.left_x p.left_y R).toNat := by
    intro ha hb hc
    obtain ⟨e1, e2⟩ := S2 ha hb
    rw [e1, e2] at K3
    exact ⟨(K3 hc).2.2.2.1, (K3 hc).2.2.2.2⟩
  refine ⟨⟨?_, ?_, ?_, ?_⟩, ⟨?_, ?_, ?_, ?_⟩, ?_⟩
  · intro hc
    rw [t4, t3, t2, t1]
    split_ifs <;> simp [hc]
  · intro hc
    rw [b4, b3, b2]
    split_ifs
    · rfl
    · rw [b1]; exact hc
  · intro hc
    rw [l4, l3]
    split_ifs
    · rfl
    · rw [l2, l1]; exact hc
  · intro hc
    rw [r4]
    split_ifs
    · rfl
    · rw [r3, r2, r1]; exact hc
  · intro hT
    rw [t4, t3, t2, t1, hT]
    rfl
  · intro hB hlt
    have ha : CheckPointInRect p.top_x p.top_y R = true → 2 ≤ h := by
      intro hT; rw [hT] at hlt; simp only [Bool.toNat_true] at hlt; omega
    rw [b4, b3, b2, (S1 ha).1, hB]
    rfl
  · intro hL hlt
    have ha : CheckPointInRect p.top_x p.top_y R = true → 2 ≤ h := by
      intro hT; rw [hT] at hlt; simp only [Bool.toNat_true] at hlt; omega
    have hb : CheckPointInRect p.bottom_x p.bottom_y R = true →
        2 ≤ h - (CheckPointInRect p.top_x p.top_y R).toNat := by
      intro hB; rw [hB] at hlt; simp only [Bool.toNat_true] at hlt; omega
    rw [l4, l3, (S2 ha hb).1, hL]
    rfl
  · intro hRr hlt
    have ha : CheckPointInRect p.top_x p.top_y R = true → 2 ≤ h := by
      intro hT; rw [hT] at hlt; simp only [Bool.toNat_true] at hlt; omega
    have hb : CheckPointInRect p.bottom_x p.bottom_y R = true →
        2 ≤ h - (CheckPointInRect p.top_x p.top_y R).toNat := by
      intro hB; rw [hB] at hlt; simp only [Bool.toNat_true] at hlt; omega
    have hc : CheckPointInRect p.left_x p.left_y R = true →
        2 ≤ h - (CheckPointInRect p.top_x p.top_y R).toNat -
          (CheckPointInRect p.bottom_x p.bottom_y R).toNat := by
      intro hL; rw [hL] at hlt; simp only [Bool.toNat_true] at hlt; omega
    rw [r4, (S3 ha hb hc).1, hRr]
    rfl
  · intro hs
    have ha : CheckPointInRect p.top_x p.top_y R = true → 2 ≤ h := by
      intro hT; rw [hT] at hs; simp only [Bool.toNat_true] at hs; omega
    have hb : CheckPointInRect p.bottom_x p.bottom_y R = true →
        2 ≤ h - (CheckPointInRect p.top_x p.top_y R).toNat := by
      intro hB; rw [hB] at hs; simp only [Bool.toNat_true] at hs; omega
    have hc : CheckPointInRect p.left_x p.left_y R = true →
        2 ≤ h - (CheckPointInRect p.top_x p.top_y R).toNat -
          (CheckPointInRect p.bottom_x p.bottom_y R).toNat := by
      intro hL; rw [hL] at hs; simp only [Bool.toNat_true] at hs; omega
    have hd : CheckPointInRect p.right_x p.right_y R = true →
        2 ≤ h - (CheckPointInRect p.top_x p.top_y R).toNat -
          (CheckPointInRect p.bottom_x p.bottom_y R).toNat -
          (CheckPointInRect p.left_x p.left_y R).toNat := by
      intro hRr; rw [hRr] at hs; simp only [Bool.toNat_true] at hs; omega
    obtain ⟨e1, e2⟩ := S1 ha
    obtain ⟨e3, e4⟩ := S2 ha hb
    obtain ⟨e5, e6⟩ := S3 ha hb hc
    rw [e1, e2] at K2
    rw [e3, e4] at K3
    rw [e5, e6] at K4
    obtain ⟨n1, g1, o1, -, -⟩ := K1 ha
    obtain ⟨n2, g2, o2, -, -⟩ := K2 hb
    obtain ⟨n3, g3, o3, -, -⟩ := K3 hc
    obtain ⟨n4, g4, o4, -, -⟩ := K4 hd
    refine ⟨by rw [n4, n3, n2, n1], by rw [g4, g3, g2, g1], ?_⟩
    intro k hk
    rw [o4 k hk, o3 k hk, o2 k hk, o1 k hk]

/-- One pass of the loop body does not reset the ghost. -/
theorem CheckBlockCollisions_body_reloaded (d : Defines) (p : CollisionPoints) (block : Nat)
    (c : Scan) (h : (CheckBlockCollisions_body d p block c).reloaded = false) :
    c.reloaded = false := by
  unfold CheckBlockCollisions_body at h
  simp only at h
  have h3 := (CheckBlockCollisions_test_marks d _ _ _ block _ rfl).2.2.2.2 h
  have h2 := (CheckBlockCollisions_test_marks d _ _ _ block _ rfl).2.2.2.2 h3
  have h1 := (CheckBlockCollisions_test_marks d _ _ _ block _ rfl).2.2.2.2 h2
  exact (CheckBlockCollisions_test_marks d _ _ _ block _ rfl).2.2.2.2 h1

/-- One test of the loop body keeps what `Scan.sound_in_pass` says, when the
assignment to the flag is that of the sample point that is tested. -/
theorem CheckBlockCollisions_test_sound (d : Defines) (s : Globals) (x y : Int)
    (mark : Scan → Scan) (block : Nat) (c : Scan) (hb : (block : Int) < s.g_NumBlocks)
    (hg : (mark c).game = c.game) (hr : (mark c).reloaded = c.reloaded)
    (hm : s.point_in_block x y → c.flags_sound s → (mark c).flags_sound s)
    (hc : c.sound_in_pass s) :
    (CheckBlockCollisions_test d x y mark block c).sound_in_pass s := by
  unfold CheckBlockCollisions_test
  split_ifs with hin
  · intro hre
    simp only [CheckBlockCollisions_hit, Bool.or_eq_false_iff] at hre
    obtain ⟨hre1, hre2⟩ := hre
    rw [hr] at hre1
    rw [hg] at hre2
    obtain ⟨h1, h2, h3, h4⟩ := hc hre1
    have pib : s.point_in_block x y := by
      obtain ⟨j, hj, hrect⟩ := h3 block hb
      exact ⟨j, hj, by rw [← hrect]; exact hin⟩
    obtain ⟨hcnt, hrects⟩ := HandleBlockCollision_rects d c.game block hre2
    simp only [CheckBlockCollisions_hit, hg]
    refine ⟨?_, ?_, ?_, hm pib h4⟩
    · rcases hcnt with e | ⟨e, ne⟩ <;> rw [e] <;> omega
    · rcases hcnt with e | ⟨e, ne⟩ <;> rw [e] <;> omega
    · intro k hk
      rcases hrects k with e | e
      · rw [e]; exact h3 k hk
      · rw [e]
        obtain ⟨m, hm1⟩ : ∃ m : Nat, (m : Int) = c.game.g_NumBlocks - 1 :=
          ⟨(c.game.g_NumBlocks - 1).toNat, by omega⟩
        rw [← hm1]
        exact h3 m (by omega)
  · exact hc

/-- One pass of the loop body keeps what `Scan.sound_in_pass` says. -/
theorem CheckBlockCollisions_body_sound (d : Defines) (s : Globals) (block : Nat) (c : Scan)
    (hb : (block : Int) < s.g_NumBlocks) (hc : c.sound_in_pass s) :
    (CheckBlockCollisions_body d (collisionPoints s.g_Ball) block c).sound_in_pass s := by
  unfold CheckBlockCollisions_body
  simp only
  refine CheckBlockCollisions_test_sound d s _ _ _ block _ hb rfl rfl
    (fun hp hf => ⟨hf.1, hf.2.1, hf.2.2.1, fun _ => hp⟩) ?_
  refine CheckBlockCollisions_test_sound d s _ _ _ block _ hb rfl rfl
    (fun hp hf => ⟨hf.1, hf.2.1, fun _ => hp, hf.2.2.2⟩) ?_
  refine CheckBlockCollisions_test_sound d s _ _ _ block _ hb rfl rfl
    (fun hp hf => ⟨hf.1, fun _ => hp, hf.2.2.1, hf.2.2.2⟩) ?_
  exact CheckBlockCollisions_test_sound d s _ _ _ block _ hb rfl rfl
    (fun hp hf => ⟨fun _ => hp, hf.2.1, hf.2.2.1, hf.2.2.2⟩) hc

/-- While no level change is triggered, the scan does not raise the block count,
keeps in every slot a rectangle from the start, and sets the flag of a sample
point only if the point lies in a block that was present at the start. -/
theorem CheckBlockCollisions_scan_sound (d : Defines) (s : Globals) (sc : Scan)
    (h : CheckBlockCollisions_scan d s = some sc) : sc.sound s := by
  refine CheckBlockCollisions_loop_keeps d (collisionPoints s.g_Ball) (Scan.sound s) ?_
    _ _ _ _ h ?_
  · intro block c hP hlt hre1
    have hre := CheckBlockCollisions_body_reloaded d _ block c hre1
    obtain ⟨a1, a2, a3⟩ := hP hre
    obtain ⟨-, b2, b3, b4⟩ := CheckBlockCollisions_body_sound d s block c (by omega)
      (fun _ => ⟨by omega, a1, a2, a3⟩) hre1
    exact ⟨b2, b3, b4⟩
  · intro _
    refine ⟨le_refl _, fun k hk => ⟨k, hk, rfl⟩, ?_⟩
    simp [Scan.flags_sound]

/-- The sample points in the block of slot `j`, counted by the four tests. -/
theorem Globals.points_in_slot (s : Globals) (j : Nat) :
    s.g_Ball.points_in (blockAt s.g_Blocks j).screen_location =
      (s.top_in j).toNat + (s.bottom_in j).toNat + (s.left_in j).toNat + (s.right_in j).toNat :=
  Ball.points_in_toNat _ _

/-- When the blocks of the slots below `i` survive, the pass over slot `i` finds the
block of the start in it, and the flags that this pass sets stay set. -/
theorem CheckBlockCollisions_scan_flagged (d : Defines) (s : Globals) (sc : Scan)
    (h : CheckBlockCollisions_scan d s = some sc) (i : Nat) (hi : (i : Int) < s.g_NumBlocks)
    (hpre : ∀ j : Nat, j < i → s.survives j) : sc.flagged_by s i := by
  have key := CheckBlockCollisions_loop_keeps_at d (collisionPoints s.g_Ball)
    (fun n c =>
      (n ≤ i → c.game.g_NumBlocks = s.g_NumBlocks ∧
        ∀ k : Nat, n ≤ k → blockAt c.game.g_Blocks k = blockAt s.g_Blocks k) ∧
      (i < n → c.flagged_by s i)) ?_ _ _ _ _ h
    ⟨fun _ => ⟨rfl, fun _ _ => rfl⟩, fun h0 => absurd h0 (Nat.not_lt_zero _)⟩
  · obtain ⟨n, -, hP, hend⟩ := key
    have hin : i < n := by
      by_contra hc
      have := (hP.1 (by omega)).1
      rw [this] at hend
      omega
    exact hP.2 hin
  · intro block c hP hlt
    rcases Nat.lt_trichotomy block i with hbi | hbi | hbi
    · obtain ⟨hn, hsl⟩ := hP.1 (by omega)
      have hslot := hsl block (le_refl _)
      have spec := CheckBlockCollisions_body_spec d (collisionPoints s.g_Ball) block c
        (blockAt s.g_Blocks block).screen_location (blockAt s.g_Blocks block).num_hits
        (by rw [hslot]) (by rw [hslot])
      have hs := hpre block hbi
      unfold Globals.survives at hs
      rw [Ball.points_in_toNat] at hs
      obtain ⟨e1, -, e3⟩ := spec.2.2 hs
      exact ⟨fun _ => ⟨by rw [e1, hn], fun k hk => by rw [e3 k (by omega), hsl k (by omega)]⟩,
        fun h0 => by omega⟩
    · subst hbi
      obtain ⟨hn, hsl⟩ := hP.1 (le_refl _)
      have hslot := hsl block (le_refl _)
      have spec := CheckBlockCollisions_body_spec d (collisionPoints s.g_Ball) block c
        (blockAt s.g_Blocks block).screen_location (blockAt s.g_Blocks block).num_hits
        (by rw [hslot]) (by rw [hslot])
      exact ⟨fun h0 => by omega, fun _ => spec.2.1⟩
    · have hf := hP.2 hbi
      obtain ⟨m1, m2, m3, m4⟩ := (CheckBlockCollisions_body_spec d (collisionPoints s.g_Ball)
        block c _ _ rfl rfl).1
      exact ⟨fun h0 => by omega, fun _ =>
        ⟨fun a => m1 (hf.1 a), fun a b => m2 (hf.2.1 a b), fun a b => m3 (hf.2.2.1 a b),
          fun a b => m4 (hf.2.2.2 a b)⟩⟩

/-- When every present block survives, the scan triggers no level change and keeps
the block count. -/
theorem CheckBlockCollisions_scan_survives (d : Defines) (s : Globals) (sc : Scan)
    (h : CheckBlockCollisions_scan d s = some sc)
    (hall : ∀ j : Nat, (j : Int) < s.g_NumBlocks → s.survives j) :
    sc.reloaded = false ∧ sc.game.g_NumBlocks = s.g_NumBlocks := by
  have key := CheckBlockCollisions_loop_keeps_at d (collisionPoints s.g_Ball)
    (fun n c => c.reloaded = false ∧ c.game.g_NumBlocks = s.g_NumBlocks ∧
      ∀ k : Nat, n ≤ k → blockAt c.game.g_Blocks k = blockAt s.g_Blocks k) ?_ _ _ _ _ h
    ⟨rfl, rfl, fun _ _ => rfl⟩
  · obtain ⟨n, -, hP, -⟩ := key
    exact ⟨hP.1, hP.2.1⟩
  · intro block c hP hlt
    obtain ⟨hre, hn, hsl⟩ := hP
    have hslot := hsl block (le_refl _)
    have spec := CheckBlockCollisions_body_spec d (collisionPoints s.g_Ball) block c
      (blockAt s.g_Blocks block).screen_location (blockAt s.g_Blocks block).num_hits
      (by rw [hslot]) (by rw [hslot])
    have hs := hall block (by rw [← hn]; exact hlt)
    unfold Globals.survives at hs
    rw [Ball.points_in_toNat] at hs
    obtain ⟨e1, e2, e3⟩ := spec.2.2 hs
    exact ⟨by rw [e2, hre], by rw [e1, hn],
      fun k hk => by rw [e3 k (by omega), hsl k (by omega)]⟩

/-- The four `if`s after the loop and the speeds: while no level change was
triggered, a speed is negated when exactly one of the two flags of its axis is set. -/
theorem CheckBlockCollisions_bounce_speeds (d : Defines) (s : Globals) (sc : Scan)
    (h : CheckBlockCollisions_scan d s = some sc) (hno : sc.reloaded = false) :
    (sc.top ≠ sc.bottom → (CheckBlockCollisions_bounce d sc).g_Ball.y_speed = -s.g_Ball.y_speed) ∧
    (sc.top = sc.bottom → (CheckBlockCollisions_bounce d sc).g_Ball.y_speed = s.g_Ball.y_speed) ∧
    (sc.left ≠ sc.right → (CheckBlockCollisions_bounce d sc).g_Ball.x_speed = -s.g_Ball.x_speed) ∧
    (sc.left = sc.right → (CheckBlockCollisions_bounce d sc).g_Ball.x_speed = s.g_Ball.x_speed) := by
  have hf := (CheckBlockCollisions_loop_frame d _ s _ _ _ sc h (fun _ => ⟨rfl, le_refl _⟩)
    hno).1
  have hb : sc.game.g_Ball = s.g_Ball := by
    have := congrArg Globals.g_Ball hf
    simpa [Globals.outside_blocks] using this
  unfold CheckBlockCollisions_bounce
  simp only [hb]
  cases sc.top <;> cases sc.bottom <;> cases sc.left <;> cases sc.right <;> simp

/-- C3, as amended. `CheckBlockCollisions` returns.  While no call of
`HandleBlockCollision` in its scan reaches `ChangeLevel`: the vertical speed is
negated when exactly one of the flags `top`, `bottom` was set and is as it was when
both or neither were set, likewise the horizontal speed for `left`, `right`; a
flag is set only if its sample point (top-centre, bottom-centre, left-centre,
right-centre of the ball) lies in a block that was present; so a speed is as it
was when neither sample point of its axis lies in a present block.  The pass over
slot `i`, when the blocks of the slots below `i` survive, sets the flag of each
sample point that lies in the block of slot `i`, as long as the sample points
tested before it that lie in that block are fewer than its counter.  And when
every present block survives (no sample point lies in it, or fewer than its
counter), no level change is triggered, a flag is set exactly when its sample
point lies in a present block, and the vertical speed is negated exactly when one
and only one of the top-centre and the bottom-centre point lies in a present
block, the horizontal speed exactly when one and only one of the left-centre and
the right-centre point does. -/
theorem CheckBlockCollisions_bounces (d : Defines) (s : Globals) :
    ∃ sc r, CheckBlockCollisions_scan d s = some sc ∧ CheckBlockCollisions d s = some r ∧
      (sc.reloaded = false →
        (sc.top ≠ sc.bottom → r.g_Ball.y_speed = -s.g_Ball.y_speed) ∧
        (sc.top = sc.bottom → r.g_Ball.y_speed = s.g_Ball.y_speed) ∧
        (sc.left ≠ sc.right → r.g_Ball.x_speed = -s.g_Ball.x_speed) ∧
        (sc.left = sc.right → r.g_Ball.x_speed = s.g_Ball.x_speed)) ∧
      (sc.reloaded = false →
        (sc.top = true → s.top_struck) ∧ (sc.bottom = true → s.bottom_struck) ∧
        (sc.left = true → s.left_struck) ∧ (sc.right = true → s.right_struck)) ∧
      (sc.reloaded = false →
        (¬ s.top_struck → ¬ s.bottom_struck → r.g_Ball.y_speed = s.g_Ball.y_speed) ∧
        (¬ s.left_struck → ¬ s.right_struck → r.g_Ball.x_speed = s.g_Ball.x_speed)) ∧
      (∀ i : Nat, (i : Int) < s.g_NumBlocks → (∀ j : Nat, j < i → s.survives j) →
        (s.top_in i = true → sc.top = true) ∧
        (s.bottom_in i = true →
          ((s.top_in i).toNat : Int) < (blockAt s.g_Blocks i).num_hits → sc.bottom = true) ∧
        (s.left_in i = true →
          (((s.top_in i).toNat + (s.bottom_in i).toNat : Nat) : Int) <
            (blockAt s.g_Blocks i).num_hits → sc.left = true) ∧
        (s.right_in i = true →
          (((s.top_in i).toNat + (s.bottom_in i).toNat + (s.left_in i).toNat : Nat) : Int) <
            (blockAt s.g_Blocks i).num_hits → sc.right = true)) ∧
      ((∀ j : Nat, (j : Int) < s.g_NumBlocks → s.survives j) →
        sc.reloaded = false ∧ r.g_NumBlocks = s.g_NumBlocks ∧
        (sc.top = true ↔ s.top_struck) ∧ (sc.bottom = true ↔ s.bottom_struck) ∧
        (sc.left = true ↔ s.left_struck) ∧ (sc.right = true ↔ s.right_struck) ∧
        (¬ (s.top_struck ↔ s.bottom_struck) → r.g_Ball.y_speed = -s.g_Ball.y_speed) ∧
        ((s.top_struck ↔ s.bottom_struck) → r.g_Ball.y_speed = s.g_Ball.y_speed) ∧
        (¬ (s.left_struck ↔ s.right_struck) → r.g_Ball.x_speed = -s.g_Ball.x_speed) ∧
        ((s.left_struck ↔ s.right_struck) → r.g_Ball.x_speed = s.g_Ball.x_speed)) := by
  obtain ⟨sc, hscan⟩ := CheckBlockCollisions_scan_returns d s
  have hsound := CheckBlockCollisions_scan_sound d s sc hscan
  have hflag := CheckBlockCollisions_scan_flagged d s sc hscan
  refine ⟨sc, CheckBlockCollisions_bounce d sc, hscan, by simp [CheckBlockCollisions, hscan],
    CheckBlockCollisions_bounce_speeds d s sc hscan, fun hno => (hsound hno).2.2, ?_,
    fun i hi hpre => hflag i hi hpre, ?_⟩
  · intro hno
    obtain ⟨-, h2, -, h4⟩ := CheckBlockCollisions_bounce_speeds d s sc hscan hno
    obtain ⟨f1, f2, f3, f4⟩ := (hsound hno).2.2
    refine ⟨fun a b => h2 ?_, fun a b => h4 ?_⟩
    · have e1 : sc.top = false := by
        cases ht : sc.top
        · rfl
        · exact absurd (f1 ht) a
      have e2 : sc.bottom = false := by
        cases ht : sc.bottom
        · rfl
        · exact absurd (f2 ht) b
      rw [e1, e2]
    · have e1 : sc.left = false := by
        cases ht : sc.left
        · rfl
        · exact absurd (f3 ht) a
      have e2 : sc.right = false := by
        cases ht : sc.right
        · rfl
        · exact absurd (f4 ht) b
      rw [e1, e2]
  · intro hall
    obtain ⟨hno, hcount⟩ := CheckBlockCollisions_scan_survives d s sc hscan hall
    obtain ⟨h1, h2, h3, h4⟩ := CheckBlockCollisions_bounce_speeds d s sc hscan hno
    obtain ⟨f1, f2, f3, f4⟩ := (hsound hno).2.2
    have hfl : ∀ j : Nat, (j : Int) < s.g_NumBlocks → sc.flagged_by s j := fun j hj =>
      hflag j hj (fun k hk => hall k (by omega))
    have hle : ∀ j : Nat, (j : Int) < s.g_NumBlocks →
        s.g_Ball.points_in (blockAt s.g_Blocks j).screen_location ≠ 0 →
        ((s.top_in j).toNat + (s.bottom_in j).toNat + (s.left_in j).toNat +
          (s.right_in j).toNat : Int) < (blockAt s.g_Blocks j).num_hits := by
      intro j hj hne
      rcases hall j hj with e | e
      · exact absurd e hne
      · rw [Globals.points_in_slot] at e
        push_cast at e
        exact e
    have g1 : sc.top = true ↔ s.top_struck :=
      ⟨f1, fun ⟨j, hj, hin⟩ => (hfl j hj).1 hin⟩
    have g2 : sc.bottom = true ↔ s.bottom_struck := by
      refine ⟨f2, fun ⟨j, hj, hin⟩ => (hfl j hj).2.1 hin ?_⟩
      have := hle j hj (by rw [Globals.points_in_slot, hin]; simp)
      omega
    have g3 : sc.left = true ↔ s.left_struck := by
      refine ⟨f3, fun ⟨j, hj, hin⟩ => (hfl j hj).2.2.1 hin ?_⟩
      have := hle j hj (by rw [Globals.points_in_slot, hin]; simp)
      push_cast
      omega
    have g4 : sc.right = true ↔ s.right_struck := by
      refine ⟨f4, fun ⟨j, hj, hin⟩ => (hfl j hj).2.2.2 hin ?_⟩
      have := hle j hj (by rw [Globals.points_in_slot, hin]; simp)
      push_cast
      omega
    refine ⟨hno, hcount, g1, g2, g3, g4, ?_, ?_, ?_, ?_⟩
    · intro hne
      apply h1
      intro heq
      exact hne (by rw [← g1, ← g2, heq])
    · intro heq
      apply h2
      rw [Bool.eq_iff_iff, g1, g2]
      exact heq
    · intro hne
      apply h3
      intro heq
      exact hne (by rw [← g3, ← g4, heq])
    · intro heq
      apply h4
      rw [Bool.eq_iff_iff, g3, g4]
      exact heq

/-- The ball under two blocks, its top-centre point on the edge of the first, which
has one hit left: the pass over slot 0 sets `top`, no other flag is set, and the
vertical speed -10 turns into 10.  The ball wedged at the corner of a block with
counter 3: every block survives, the top-centre and the right-centre point lie in
a block, the other two in none, and both speeds are negated. -/
theorem CheckBlockCollisions_bounces_witness :
    (∃ sc r, CheckBlockCollisions_scan demoDefines demoTwoBlocks = some sc ∧
      CheckBlockCollisions demoDefines demoTwoBlocks = some r ∧
      demoTwoBlocks.top_in 0 = true ∧ sc.top = true ∧ sc.bottom = false ∧
      sc.reloaded = false ∧ r.g_Ball.y_speed = 10) ∧
    (∃ r, CheckBlockCollisions demoDefines demoCorner = some r ∧
      demoCorner.top_struck ∧ ¬ demoCorner.bottom_struck ∧
      ¬ demoCorner.left_struck ∧ demoCorner.right_struck ∧
      r.g_Ball.y_speed = 10 ∧ r.g_Ball.x_speed = -3) := by
  have two : ∀ j : Nat, (j : Int) < 2 → j = 0 ∨ j = 1 := fun j hj => by omega
  constructor
  · obtain ⟨sc, r, hs, hr, h1, -, -, h4, -⟩ := CheckBlockCollisions_bounces demoDefines demoTwoBlocks
    have hsc : (CheckBlockCollisions_scan demoDefines demoTwoBlocks).get (by decide) = sc :=
      Option.get_of_mem _ hs
    subst hsc
    exact ⟨_, r, hs, hr, by decide,
      (h4 0 (by decide) (fun j hj => absurd hj (Nat.not_lt_zero j))).1 (by decide),
      by decide, by decide, ((h1 (by decide)).1 (by decide)).trans (by decide)⟩
  · obtain ⟨sc, r, -, hr, -, -, -, -, h5⟩ := CheckBlockCollisions_bounces demoDefines demoCorner
    have ht : demoCorner.top_struck := ⟨0, by decide, by decide⟩
    have hrt : demoCorner.right_struck := ⟨0, by decide, by decide⟩
    have hb : ¬ demoCorner.bottom_struck := by
      rintro ⟨j, hj, hin⟩
      rcases two j hj with rfl | rfl <;> exact absurd hin (by decide)
    have hl : ¬ demoCorner.left_struck := by
      rintro ⟨j, hj, hin⟩
      rcases two j hj with rfl | rfl <;> exact absurd hin (by decide)
    obtain ⟨-, -, -, -, -, -, h6, -, h8, -⟩ := h5 (fun j hj => by
      rcases two j hj with rfl | rfl
      · exact Or.inr (by decide)
      · exact Or.inl (by decide))
    exact ⟨r, hr, ht, hb, hl, hrt,
      (h6 (fun e => hb (e.mp ht))).trans (by decide),
      (h8 (fun e => hl (e.mpr hrt))).trans (by decide)⟩

/-! ## The 16 bits of a position -/

/-- A ball at x = 32760 that moves right with speed 10: the new `x` does not fit the
16 bits of the field and is stored as -32766, and the horizontal speed stays 10.  A
ball at y = 32760 that falls with speed 10 is stored at y = -32766 and no life is
lost. -/
theorem MoveBall_position_wraps :
    (MoveBall demoDefines
      (demoGlobals 1 5 (demoBall 32760 300 10 0) [demoBlock 40 60 1])).g_Ball.screen_location.x =
      -32766 ∧
    (MoveBall demoDefines
      (demoGlobals 1 5 (demoBall 32760 300 10 0) [demoBlock 40 60 1])).g_Ball.x_speed = 10 ∧
    (MoveBall demoDefines
      (demoGlobals 1 1 (demoBall 390 32760 0 10) [demoBlock 40 60 1])).g_Ball.screen_location.y =
      -32766 ∧
    (MoveBall demoDefines
      (demoGlobals 1 1 (demoBall 390 32760 0 10) [demoBlock 40 60 1])).g_Lives = 1 := by
  decide


end BlockBreaker
